import Mathlib

/-!
# deflux: sensor state decoding and time series derivation

A shallow embedding of `pkg/deconz/sensor` (`sensor.go`, `zhathermostat.go`,
`zhavibration.go`) and of the event loop of `deconz/sensoreventreader.go`.

Conventions of the embedding

* `encoding/json` is the Go standard library.  It is modelled on parsed
  documents: a byte string is either not a JSON text (`RawMessage.malformed`)
  or it is the text of a document (`RawMessage.valid`).  Struct decoding follows
  `json.Unmarshal`: members are visited in document order, a member is matched
  to a field by exact name and otherwise by case folding, unknown members are
  skipped, `null` leaves a scalar untouched, a value of the wrong kind or out of
  range leaves the field untouched and records an `UnmarshalTypeError`, and the
  first recorded error is the one returned once the whole document is decoded.
* Go `int` is 64 bits wide.  Integer values are `Int`; range checks are explicit.
* A Go map is an association list with one entry per key, read with `get` and
  written with `set`; statements about maps are statements about `get`.
* A map value is a reference to a map object or nil.  Where sharing matters
  (`mergeFields` writing through `p`, `Timeseries` writing to the map that
  `Fields()` returned) the map objects live in a heap indexed by address
  (`MapHeap`, `Memory`), a map literal takes a new address, and nil is `none`.
* A panic (nil dereference, index out of range, assignment to an entry of a nil
  map) is an explicit outcome, `Run.panic`.
* `float64(n) / 100` is kept as the pair of its operands (`FieldValue.float64`).
* The clock and `time.Parse` are parameters (`Env`), and so is the conversion
  `int64(d.Seconds())`; `Duration.secondsInt64` is its float64 computation, done
  in integer arithmetic (round to nearest, ties to even).
* The goroutine of `Start` is a step function over the results that its calls
  (`Dial`, `ReadEvent`, `LookupSensor`, `Close`) return and over the values it
  reads from the flag `running`, which is written from outside the loop.
* The variant structs other than `ZHAThermostat` and `ZHAVibration` are declared
  in files that are not part of the development; their declarations are a
  parameter (`Decls`).
-/

namespace Deflux

/-! ## JSON documents -/

/-- A parsed JSON document.  `int neg mag` is an integer literal (sign and
digits, so that `-0` is kept apart from `0`); `real lit` is a number literal
with a fraction or an exponent. -/
inductive JSON where
  | null
  | bool (b : Bool)
  | int (neg : Bool) (mag : Nat)
  | real (lit : String)
  | str (s : String)
  | arr (xs : List JSON)
  | obj (members : List (String × JSON))

/-- A `json.RawMessage` or `[]byte` input: either not a JSON text at all (this
includes the empty message) or the text of the document `doc`. -/
inductive RawMessage where
  | malformed
  | valid (doc : JSON)

/-- The description of a JSON value used in an `UnmarshalTypeError`. -/
def JSON.kind : JSON → String
  | .null => "null"
  | .bool _ => "bool"
  | .int _ _ => "number"
  | .real _ => "number"
  | .str _ => "string"
  | .arr _ => "array"
  | .obj _ => "object"

/-- The integer denoted by an integer literal. -/
def JSON.intValue (neg : Bool) (mag : Nat) : Int :=
  if neg then -(mag : Int) else (mag : Int)

/-- The integer literal of `n`. -/
def JSON.ofInt (n : Int) : JSON :=
  .int (decide (n < 0)) n.natAbs

/-- Errors of `json.Unmarshal`.  `UnmarshalTypeError value field` keeps the kind
of the JSON value and the name of the Go field; the text of the literal and the
JSON path that `encoding/json` puts in the error are left out. -/
inductive JsonError where
  | SyntaxError
  | UnmarshalTypeError (value : String) (field : String)
  deriving DecidableEq, Repr

/-! ## Go values of the decoded structs -/

/-- Scalar field types. -/
inductive Scalar where
  | bool
  | int (bits : Nat)
  | uint (bits : Nat)
  | string
  deriving DecidableEq, Repr

/-- Field types: a scalar, a slice of signed integers, a pointer to a scalar. -/
inductive GoType where
  | scalar (s : Scalar)
  | sliceInt (bits : Nat)
  | ptr (s : Scalar)
  deriving DecidableEq, Repr

/-- Scalar values. -/
inductive ScalarVal where
  | bool (b : Bool)
  | int (n : Int)
  | str (s : String)
  deriving DecidableEq, Repr

/-- Field values.  A nil slice and an empty slice are both `slice []`: the code
only indexes slices.  `ptr none` is the nil pointer. -/
inductive GoVal where
  | scalar (v : ScalarVal)
  | slice (xs : List ScalarVal)
  | ptr (p : Option ScalarVal)
  deriving DecidableEq, Repr

/-- The zero value of a scalar type. -/
def Scalar.zero : Scalar → ScalarVal
  | .bool => .bool false
  | .int _ => .int 0
  | .uint _ => .int 0
  | .string => .str ""

/-- The zero value of a field type. -/
def GoType.zero : GoType → GoVal
  | .scalar s => .scalar s.zero
  | .sliceInt _ => .slice []
  | .ptr _ => .ptr none

/-- A finite map with string keys (a Go `map[string]V`, and the field store of
a struct): an association list read with `get` and written with `set`. -/
abbrev GoMap (V : Type) := List (String × V)

/-- Read a key (`v, ok := m[k]`). -/
def GoMap.get {V : Type} (m : GoMap V) (k : String) : Option V :=
  match m with
  | [] => none
  | (n, v) :: rest => if n = k then some v else GoMap.get rest k

/-- Write a key (`m[k] = v`): the entry is replaced when the key is present and
added otherwise. -/
def GoMap.set {V : Type} (m : GoMap V) (k : String) (v : V) : GoMap V :=
  match m with
  | [] => [(k, v)]
  | (n, w) :: rest => if n = k then (n, v) :: rest else (n, w) :: GoMap.set rest k v

/-- The fields of a struct as `encoding/json` sees them: JSON name and type,
promoted fields of embedded structs included, in declaration order. -/
abbrev Schema := List (String × GoType)

/-- A struct value: the value of each field. -/
abbrev Record := GoMap GoVal

/-- The zero value of a struct (`var s T`). -/
def Schema.zero (schema : Schema) : Record :=
  schema.map (fun f => (f.1, f.2.zero))

/-- Read a string field (zero value when the field is missing). -/
def Record.getString (r : Record) (name : String) : String :=
  match r.get name with
  | some (.scalar (.str s)) => s
  | _ => ""

/-- Read an integer field. -/
def Record.getInt (r : Record) (name : String) : Int :=
  match r.get name with
  | some (.scalar (.int n)) => n
  | _ => 0

/-- Read a boolean field. -/
def Record.getBool (r : Record) (name : String) : Bool :=
  match r.get name with
  | some (.scalar (.bool b)) => b
  | _ => false

/-- Read an integer behind a scalar value. -/
def ScalarVal.toInt : ScalarVal → Int
  | .int n => n
  | _ => 0

/-- Read a slice-of-integers field. -/
def Record.getInts (r : Record) (name : String) : List Int :=
  match r.get name with
  | some (.slice xs) => xs.map ScalarVal.toInt
  | _ => []

/-- Read a pointer-to-integer field. -/
def Record.getIntPtr (r : Record) (name : String) : Option Int :=
  match r.get name with
  | some (.ptr (some (.int n))) => some n
  | _ => none

/-- Read a pointer-to-string field. -/
def Record.getStringPtr (r : Record) (name : String) : Option String :=
  match r.get name with
  | some (.ptr (some (.str s))) => some s
  | _ => none

/-! ## `json.Unmarshal` into a struct -/

/-- Case folding of one character of a member name: ASCII letters fold to upper
case, and the two characters whose simple fold is an ASCII letter (the Kelvin
sign and the long s) fold to that letter. -/
def foldChar (c : Char) : Char :=
  if c = Char.ofNat 0x212A then 'K'
  else if c = Char.ofNat 0x017F then 'S'
  else c.toUpper

/-- The folded form of a name (`foldName`): two names match case-insensitively
when their folded forms are equal. -/
def foldName (s : String) : String :=
  String.mk (s.data.map foldChar)

/-- The field a member name selects: the field of exactly that name, otherwise
the first field whose name matches under case folding. -/
def findField (schema : Schema) (key : String) : Option (String × GoType) :=
  match schema.find? (fun f => f.1 == key) with
  | some f => some f
  | none => schema.find? (fun f => foldName f.1 == foldName key)

/-- The signed range of a width. -/
def fitsInt (bits : Nat) (n : Int) : Bool :=
  decide (-(2 ^ (bits - 1) : Int) ≤ n) && decide (n < (2 ^ (bits - 1) : Int))

/-- The unsigned range of a width. -/
def fitsUint (bits : Nat) (mag : Nat) : Bool :=
  decide (mag < 2 ^ bits)

/-- Store a JSON value into a scalar of type `t` holding `cur` (`literalStore`).
Returns the new value and the error to record, if any. -/
def literalStore (field : String) (t : Scalar) (cur : ScalarVal) (j : JSON) :
    ScalarVal × Option JsonError :=
  match t, j with
  | _, .null => (cur, none)
  | .bool, .bool b => (.bool b, none)
  | .string, .str s => (.str s, none)
  | .int bits, .int neg mag =>
    if fitsInt bits (JSON.intValue neg mag) then (.int (JSON.intValue neg mag), none)
    else (cur, some (.UnmarshalTypeError "number" field))
  | .uint bits, .int neg mag =>
    if !neg && fitsUint bits mag then (.int (mag : Int), none)
    else (cur, some (.UnmarshalTypeError "number" field))
  | _, j => (cur, some (.UnmarshalTypeError j.kind field))

/-- The first recorded error is kept (`saveError`). -/
def saveError (saved : Option JsonError) (e : Option JsonError) : Option JsonError :=
  match saved with
  | some s => some s
  | none => e

/-- Decode the elements of a JSON array into a slice of integers whose current
contents are `cur`: element `i` is decoded into the current element `i` when it
exists and into a zero element otherwise. -/
def decodeElems (field : String) (bits : Nat) :
    List JSON → List ScalarVal → Option JsonError → List ScalarVal × Option JsonError
  | [], _, saved => ([], saved)
  | j :: js, cur, saved =>
    let r := literalStore field (.int bits) (cur.headD (.int 0)) j
    let rest := decodeElems field bits js cur.tail (saveError saved r.2)
    (r.1 :: rest.1, rest.2)

/-- Decode a JSON value into a field of type `t` holding `cur`. -/
def decodeValue (field : String) (t : GoType) (cur : GoVal) (j : JSON) :
    GoVal × Option JsonError :=
  match t with
  | .scalar s =>
    match cur with
    | .scalar c => let r := literalStore field s c j; (.scalar r.1, r.2)
    | _ => let r := literalStore field s s.zero j; (.scalar r.1, r.2)
  | .sliceInt bits =>
    match j with
    | .null => (.slice [], none)
    | .arr xs =>
      let old := match cur with
        | .slice ys => ys
        | _ => []
      let r := decodeElems field bits xs old none
      (.slice r.1, r.2)
    | j => (cur, some (.UnmarshalTypeError j.kind field))
  | .ptr s =>
    match j with
    | .null => (.ptr none, none)
    | j =>
      let pointee := match cur with
        | .ptr (some c) => c
        | _ => s.zero
      let r := literalStore field s pointee j
      (.ptr (some r.1), r.2)

/-- Decode one member of a JSON object into the struct. -/
def decodeMember (schema : Schema) (acc : Record × Option JsonError)
    (m : String × JSON) : Record × Option JsonError :=
  match findField schema m.1 with
  | none => acc
  | some (name, t) =>
    let r := decodeValue name t ((acc.1.get name).getD t.zero) m.2
    (acc.1.set name r.1, saveError acc.2 r.2)

/-- Decode a JSON document into the struct `cur`. -/
def unmarshalStruct (schema : Schema) (cur : Record) (j : JSON) :
    Record × Option JsonError :=
  match j with
  | .null => (cur, none)
  | .obj members => members.foldl (decodeMember schema) (cur, none)
  | j => (cur, some (.UnmarshalTypeError j.kind ""))

/-- The call `json.Unmarshal(raw, &s)` for a struct `s` of the given schema. -/
def Unmarshal (schema : Schema) (raw : RawMessage) (cur : Record) :
    Record × Option JsonError :=
  match raw with
  | .malformed => (cur, some .SyntaxError)
  | .valid doc => unmarshalStruct schema cur doc

/-! ## Errors, panics, field values -/

/-- Go `error` values of the package. -/
inductive Error where
  | json (e : JsonError)
  | timeParse (layout : String) (value : String)
  | errorf (msg : String)
  deriving DecidableEq, Repr

/-- Run-time panics: a nil pointer dereference, an index out of range, and an
assignment to an entry of a nil map. -/
inductive Panic where
  | nilDereference
  | indexOutOfRange (index : Nat) (len : Nat)
  | assignNilMap
  deriving DecidableEq, Repr

/-- The outcome of a call that may panic. -/
inductive Run (α : Type) where
  | ret (a : α)
  | panic (p : Panic)
  deriving DecidableEq, Repr

/-- Sequencing: a panic aborts what follows. -/
def Run.bind {α β : Type} (x : Run α) (f : α → Run β) : Run β :=
  match x with
  | .ret a => f a
  | .panic p => .panic p

instance : Monad Run where
  pure := Run.ret
  bind := Run.bind

/-- Go integer types that occur as dynamic types of field values. -/
inductive IntKind where
  | int | int8 | int16 | int32 | int64
  | uint | uint8 | uint16 | uint32 | uint64
  deriving DecidableEq, Repr

/-- A value of type `interface{}` stored in a field map, with its dynamic type.
`float64 num den` is the float64 quotient `float64(num) / den`. -/
inductive FieldValue where
  | bool (b : Bool)
  | int (kind : IntKind) (n : Int)
  | float64 (num : Int) (den : Int)
  | string (s : String)
  deriving DecidableEq, Repr

/-- The type `map[string]interface{}`. -/
abbrev FieldMap := GoMap FieldValue

/-- The type `map[string]string`. -/
abbrev TagMap := GoMap String

/-- The standard library `time` as the package uses it: the clock reading `now`
of `time.Now()` (nanoseconds since the epoch), `parse layout value` for
`time.Parse` (`none` when it returns an error), and `seconds d` for
`int64(d.Seconds())` on a duration of `d` nanoseconds. -/
structure Env where
  now : Int
  parse : String → String → Option Int
  seconds : Int → Int

/-- The method `Time.Sub`: the difference as an int64 number of nanoseconds,
saturated at the ends of the range. -/
def Env.sub (now t : Int) : Int :=
  if now - t < -(2 ^ 63 : Int) then -(2 ^ 63 : Int)
  else if (2 ^ 63 : Int) - 1 < now - t then (2 ^ 63 : Int) - 1
  else now - t

/-! ## The sensor package -/

/-- State contains properties that are provided by all sensors. -/
structure State where
  Lastupdated : String
  deriving DecidableEq, Repr

/-- Fields returns the data age of the state in seconds. -/
def State.Fields (E : Env) (s : State) : FieldMap :=
  if s.Lastupdated ≠ "" then
    match E.parse "2006-01-02T15:04:05.999" s.Lastupdated with
    | none => []
    | some t => [("age_secs", .int .int64 (E.seconds (Env.sub E.now t)))]
  else []

/-- The loop body of `mergeFields`: `if _, ok := p[k]; !ok { p[k] = e }`. -/
def mergeEntry (p : FieldMap) (entry : String × FieldValue) : FieldMap :=
  if (p.get entry.1).isSome then p else p.set entry.1 entry.2

/-- The function `mergeFields` on the entries of two maps that are not nil, as
the `Fields` methods call it (`State.Fields` always returns a map literal): all
entries of `p` and `s`, the value of `p` taking precedence.  The call on map
values that may be nil, with its panic, is `mergeFieldsRef`. -/
def mergeFields (p s : FieldMap) : FieldMap :=
  s.foldl mergeEntry p

/-- ZHAThermostat represents the state of a thermostat. -/
structure ZHAThermostat where
  State : State
  Temperature : Int
  Valve : Int
  deriving DecidableEq, Repr

/-- The method `(*ZHAThermostat).Fields`. -/
def ZHAThermostat.Fields (E : Env) (z : ZHAThermostat) : FieldMap :=
  mergeFields (z.State.Fields E)
    [("temperature", .float64 z.Temperature 100),
     ("valve", .int .int z.Valve)]

/-- ZHAVibration represents the state of a vibration sensor. -/
structure ZHAVibration where
  State : State
  Vibration : Bool
  Tiltangle : Int
  Vibrationstrength : Int
  Orientation : List Int
  deriving DecidableEq, Repr

/-- An index expression `xs[i]`. -/
def index (xs : List Int) (i : Nat) : Run Int :=
  match xs.get? i with
  | some x => .ret x
  | none => .panic (.indexOutOfRange i xs.length)

/-- The method `(*ZHAVibration).Fields`. -/
def ZHAVibration.Fields (E : Env) (z : ZHAVibration) : Run FieldMap :=
  (index z.Orientation 0).bind fun x =>
  (index z.Orientation 1).bind fun y =>
  (index z.Orientation 2).bind fun w =>
  .ret (mergeFields (z.State.Fields E)
    [("vibration", .bool z.Vibration),
     ("tiltangle", .int .int16 z.Tiltangle),
     ("vibrationstrength", .int .int16 z.Vibrationstrength),
     ("orientation_x", .int .int16 x),
     ("orientation_y", .int .int16 y),
     ("orientation_z", .int .int16 w)])

/-- The sensor state variants, in the order of the switch of `DecodeSensorState`. -/
inductive SensorKind where
  | CLIPPresence
  | Daylight
  | ZHAAirQuality
  | ZHABattery
  | ZHACarbonMonoxide
  | ZHAConsumption
  | ZHAFire
  | ZHAHumidity
  | ZHALightLevel
  | ZHAOpenClose
  | ZHAPower
  | ZHAPresence
  | ZHAPressure
  | ZHASwitch
  | ZHATemperature
  | ZHAVibration
  | ZHAWater
  | ZHAThermostat
  deriving DecidableEq, Repr

/-- The Go type name of a variant, which is also its sensor type string. -/
def SensorKind.name : SensorKind → String
  | .CLIPPresence => "CLIPPresence"
  | .Daylight => "Daylight"
  | .ZHAAirQuality => "ZHAAirQuality"
  | .ZHABattery => "ZHABattery"
  | .ZHACarbonMonoxide => "ZHACarbonMonoxide"
  | .ZHAConsumption => "ZHAConsumption"
  | .ZHAFire => "ZHAFire"
  | .ZHAHumidity => "ZHAHumidity"
  | .ZHALightLevel => "ZHALightLevel"
  | .ZHAOpenClose => "ZHAOpenClose"
  | .ZHAPower => "ZHAPower"
  | .ZHAPresence => "ZHAPresence"
  | .ZHAPressure => "ZHAPressure"
  | .ZHASwitch => "ZHASwitch"
  | .ZHATemperature => "ZHATemperature"
  | .ZHAVibration => "ZHAVibration"
  | .ZHAWater => "ZHAWater"
  | .ZHAThermostat => "ZHAThermostat"

/-- The enumerated sensor type strings. -/
def sensorTypes : List String :=
  ["CLIPPresence", "Daylight", "ZHAAirQuality", "ZHABattery", "ZHACarbonMonoxide",
   "ZHAConsumption", "ZHAFire", "ZHAHumidity", "ZHALightLevel", "ZHAOpenClose",
   "ZHAPower", "ZHAPresence", "ZHAPressure", "ZHASwitch", "ZHATemperature",
   "ZHAThermostat", "ZHAVibration", "ZHAWater"]

/-- The declarations of the variant structs that live outside `sensor.go`,
`zhathermostat.go` and `zhavibration.go`.  Every variant embeds `State` (so a
pointer to it has the promoted method `Fields` at least); `own k` lists the
fields the variant `k` declares itself, with names other than `Lastupdated` and
types among `GoType`, and `Fields k` is the method `Fields` of a pointer to it.
The entries for `ZHAThermostat` and `ZHAVibration` are not used: those two are
taken from their source files. -/
structure Decls where
  own : SensorKind → Schema
  Fields : SensorKind → Env → Record → Run FieldMap

/-- The fields of `ZHAThermostat` as `encoding/json` sees them. -/
def thermostatSchema : Schema :=
  [("Lastupdated", .scalar .string),
   ("Temperature", .scalar (.int 64)),
   ("Valve", .scalar (.int 64))]

/-- The fields of `ZHAVibration` as `encoding/json` sees them. -/
def vibrationSchema : Schema :=
  [("Lastupdated", .scalar .string),
   ("Vibration", .scalar .bool),
   ("Tiltangle", .scalar (.int 16)),
   ("Vibrationstrength", .scalar (.int 16)),
   ("Orientation", .sliceInt 16)]

/-- The fields of a variant as `encoding/json` sees them. -/
def schemaOf (D : Decls) : SensorKind → Schema
  | .ZHAThermostat => thermostatSchema
  | .ZHAVibration => vibrationSchema
  | k => ("Lastupdated", .scalar .string) :: D.own k

/-- The struct value of a `ZHAThermostat` held in a field store. -/
def ZHAThermostat.ofRecord (r : Record) : ZHAThermostat :=
  { State := { Lastupdated := r.getString "Lastupdated" },
    Temperature := r.getInt "Temperature",
    Valve := r.getInt "Valve" }

/-- The struct value of a `ZHAVibration` held in a field store. -/
def ZHAVibration.ofRecord (r : Record) : ZHAVibration :=
  { State := { Lastupdated := r.getString "Lastupdated" },
    Vibration := r.getBool "Vibration",
    Tiltangle := r.getInt "Tiltangle",
    Vibrationstrength := r.getInt "Vibrationstrength",
    Orientation := r.getInts "Orientation" }

/-- The values held in `Sensor.StateDef` (an `interface{}`): the nil interface,
the marker `EmptyState{}`, or a pointer to a variant struct as returned by
`DecodeSensorState`. -/
inductive StateDef where
  | nil
  | EmptyState
  | ptr (k : SensorKind) (s : Record)
  deriving DecidableEq, Repr

/-- The dynamic type of a state value, as `%T` prints it. -/
def StateDef.typeName : StateDef → String
  | .nil => "<nil>"
  | .EmptyState => "sensor.EmptyState"
  | .ptr k _ => "*sensor." ++ k.name

/-- The type assertion `s.StateDef.(Fielder)` followed by the call `f.Fields()`:
`none` when the value is not a `Fielder`, otherwise the outcome of the call. -/
def StateDef.Fields (D : Decls) (E : Env) : StateDef → Option (Run FieldMap)
  | .nil => none
  | .EmptyState => none
  | .ptr .ZHAThermostat r => some (.ret ((ZHAThermostat.ofRecord r).Fields E))
  | .ptr .ZHAVibration r => some ((ZHAVibration.ofRecord r).Fields E)
  | .ptr k r => some (D.Fields k E r)

/-- One case of the switch of `DecodeSensorState`:
`var s T; err = json.Unmarshal(rawState, &s); return &s, err`. -/
def decodeVariant (D : Decls) (k : SensorKind) (rawState : RawMessage) :
    StateDef × Option Error :=
  let r := Unmarshal (schemaOf D k) rawState (schemaOf D k).zero
  (.ptr k r.1, r.2.map Error.json)

/-- DecodeSensorState tries to unmarshal the appropriate state based on the
given sensor type. -/
def DecodeSensorState (D : Decls) (rawState : RawMessage) (sensorType : String) :
    StateDef × Option Error :=
  match sensorType with
  | "CLIPPresence" => decodeVariant D .CLIPPresence rawState
  | "Daylight" => decodeVariant D .Daylight rawState
  | "ZHAAirQuality" => decodeVariant D .ZHAAirQuality rawState
  | "ZHABattery" => decodeVariant D .ZHABattery rawState
  | "ZHACarbonMonoxide" => decodeVariant D .ZHACarbonMonoxide rawState
  | "ZHAConsumption" => decodeVariant D .ZHAConsumption rawState
  | "ZHAFire" => decodeVariant D .ZHAFire rawState
  | "ZHAHumidity" => decodeVariant D .ZHAHumidity rawState
  | "ZHALightLevel" => decodeVariant D .ZHALightLevel rawState
  | "ZHAOpenClose" => decodeVariant D .ZHAOpenClose rawState
  | "ZHAPower" => decodeVariant D .ZHAPower rawState
  | "ZHAPresence" => decodeVariant D .ZHAPresence rawState
  | "ZHAPressure" => decodeVariant D .ZHAPressure rawState
  | "ZHASwitch" => decodeVariant D .ZHASwitch rawState
  | "ZHATemperature" => decodeVariant D .ZHATemperature rawState
  | "ZHAVibration" => decodeVariant D .ZHAVibration rawState
  | "ZHAWater" => decodeVariant D .ZHAWater rawState
  | "ZHAThermostat" => decodeVariant D .ZHAThermostat rawState
  | _ => (.nil, some (.errorf (sensorType ++ " is not a known sensor type")))

/-- Config represents the sensor configuration as retrieved from the API.
`Battery` is a `uint32`; the four pointers are `none` when nil. -/
structure Config where
  Battery : Nat
  HeatSetpoint : Option Int
  Mode : Option String
  Offset : Option Int
  ExternalSensorTemp : Option Int
  deriving DecidableEq, Repr

/-- The fields of `Config` as `encoding/json` sees them (named by their tags). -/
def configSchema : Schema :=
  [("battery", .scalar (.uint 32)),
   ("heatsetpoint", .ptr (.int 64)),
   ("mode", .ptr .string),
   ("offset", .ptr (.int 64)),
   ("externalsensortemp", .ptr (.int 64))]

/-- The field store of a `Config`. -/
def Config.toRecord (c : Config) : Record :=
  [("battery", .scalar (.int (c.Battery : Int))),
   ("heatsetpoint", .ptr (c.HeatSetpoint.map ScalarVal.int)),
   ("mode", .ptr (c.Mode.map ScalarVal.str)),
   ("offset", .ptr (c.Offset.map ScalarVal.int)),
   ("externalsensortemp", .ptr (c.ExternalSensorTemp.map ScalarVal.int))]

/-- The `Config` held in a field store. -/
def Config.ofRecord (r : Record) : Config :=
  { Battery := (r.getInt "battery").toNat,
    HeatSetpoint := r.getIntPtr "heatsetpoint",
    Mode := r.getStringPtr "mode",
    Offset := r.getIntPtr "offset",
    ExternalSensorTemp := r.getIntPtr "externalsensortemp" }

/-- Sensor is a deCONZ sensor. -/
structure Sensor where
  Type' : String
  Name : String
  LastSeen : Int
  StateDef : StateDef
  Config : Config
  ID : Int
  deriving DecidableEq, Repr

/-- The auxiliary struct of `Sensor.UnmarshalJSON`. -/
structure Aux where
  Type' : String
  Name : String
  LastSeen : String
  State : RawMessage
  Config : Config

/-- The zero value `var aux struct ...`: the nil `RawMessage` is the empty
message. -/
def Aux.zero : Aux :=
  { Type' := "", Name := "", LastSeen := "", State := .malformed,
    Config := { Battery := 0, HeatSetpoint := none, Mode := none, Offset := none,
                ExternalSensorTemp := none } }

/-- The JSON names of the fields of the auxiliary struct, in declaration order. -/
def auxNames : List String :=
  ["type", "name", "lastseen", "state", "Config"]

/-- The field name a member name selects among `names`. -/
def findName (names : List String) (key : String) : Option String :=
  match names.find? (fun n => n == key) with
  | some n => some n
  | none => names.find? (fun n => foldName n == foldName key)

/-- Store a JSON value into a string field. -/
def storeString (field : String) (cur : String) (j : JSON) : String × Option JsonError :=
  match literalStore field .string (.str cur) j with
  | (.str v, e) => (v, e)
  | (_, e) => (cur, e)

/-- Decode one member of the sensor document into the auxiliary struct.  The
`state` member is kept as raw JSON; the `Config` member is decoded as a struct. -/
def Aux.decodeMember (acc : Aux × Option JsonError) (m : String × JSON) :
    Aux × Option JsonError :=
  match findName auxNames m.1 with
  | some "type" =>
    let r := storeString "type" acc.1.Type' m.2
    ({ acc.1 with Type' := r.1 }, saveError acc.2 r.2)
  | some "name" =>
    let r := storeString "name" acc.1.Name m.2
    ({ acc.1 with Name := r.1 }, saveError acc.2 r.2)
  | some "lastseen" =>
    let r := storeString "lastseen" acc.1.LastSeen m.2
    ({ acc.1 with LastSeen := r.1 }, saveError acc.2 r.2)
  | some "state" => ({ acc.1 with State := .valid m.2 }, acc.2)
  | some "Config" =>
    let r := unmarshalStruct configSchema acc.1.Config.toRecord m.2
    ({ acc.1 with Config := Config.ofRecord r.1 }, saveError acc.2 r.2)
  | _ => acc

/-- The call `json.Unmarshal(b, &aux)`. -/
def Aux.Unmarshal (b : RawMessage) : Aux × Option JsonError :=
  match b with
  | .malformed => (Aux.zero, some .SyntaxError)
  | .valid .null => (Aux.zero, none)
  | .valid (.obj members) => members.foldl Aux.decodeMember (Aux.zero, none)
  | .valid j => (Aux.zero, some (.UnmarshalTypeError j.kind ""))

/-- Lines 89 to 101 of `Sensor.UnmarshalJSON`: the fields are assigned and the
state is decoded; a decoding error is logged and replaced by `EmptyState`. -/
def Sensor.assign (D : Decls) (s : Sensor) (aux : Aux) : Sensor × Option Error :=
  let s := { s with Type' := aux.Type', Name := aux.Name, Config := aux.Config }
  match DecodeSensorState D aux.State aux.Type' with
  | (state, none) => ({ s with StateDef := state }, none)
  | (_, some _) => ({ s with StateDef := .EmptyState }, none)

/-- UnmarshalJSON converts a JSON representation of a Sensor into the Sensor
struct: the receiver after the call and the returned error. -/
def Sensor.UnmarshalJSON (D : Decls) (E : Env) (s : Sensor) (b : RawMessage) :
    Sensor × Option Error :=
  match Aux.Unmarshal b with
  | (_, some err) => (s, some (.json err))
  | (aux, none) =>
    if aux.LastSeen ≠ "" then
      match E.parse "2006-01-02T15:04Z" aux.LastSeen with
      | none => (s, some (.timeParse "2006-01-02T15:04Z" aux.LastSeen))
      | some t => Sensor.assign D { s with LastSeen := t } aux
    else Sensor.assign D s aux

/-- A pointer dereference `*p`. -/
def deref {α : Type} (p : Option α) : Run α :=
  match p with
  | some v => .ret v
  | none => .panic .nilDereference

/-- The function `strconv.Itoa`. -/
def Itoa (n : Int) : String :=
  toString n

/-- Lines 113 to 115 of `Sensor.Timeseries`:
`if _, ok := fields["battery"]; !ok { fields["battery"] = int(s.Config.Battery) }`. -/
def injectBattery (s : Sensor) (fields : FieldMap) : FieldMap :=
  if (fields.get "battery").isSome then fields
  else fields.set "battery" (.int .int (s.Config.Battery : Int))

/-- The tag map returned by `Sensor.Timeseries`. -/
def Sensor.tags (s : Sensor) : TagMap :=
  [("name", s.Name), ("type", s.Type'), ("id", Itoa s.ID), ("source", "rest")]

/-- The special cases of `Sensor.Timeseries` (the switch on `s.Type`). -/
def specialCases (s : Sensor) (fields : FieldMap) : Run FieldMap :=
  if s.Type' = "ZHAThermostat" then
    (deref s.Config.HeatSetpoint).bind fun heatSetpoint =>
    let fields := fields.set "heatsetpoint" (.float64 heatSetpoint 100)
    (deref s.Config.Mode).bind fun mode =>
    let fields := fields.set "mode" (.string mode)
    (deref s.Config.Offset).bind fun offset =>
    let fields := fields.set "offset" (.float64 offset 100)
    (deref s.Config.ExternalSensorTemp).bind fun externalSensorTemp =>
    .ret (fields.set "externalsensortemp" (.float64 externalSensorTemp 100))
  else .ret fields

/-- The three results of `Sensor.Timeseries`: tags, fields, error (`none` is nil). -/
structure Results where
  tags : Option TagMap
  fields : Option FieldMap
  err : Option Error
  deriving DecidableEq, Repr

/-- Timeseries returns tags and fields for use in InfluxDB: the three results
(tags, fields, error), or a panic. -/
def Sensor.Timeseries (D : Decls) (E : Env) (s : Sensor) : Run Results :=
  match s.StateDef.Fields D E with
  | none =>
    .ret { tags := none, fields := none, err := some (.errorf
      ("this sensor (" ++ s.StateDef.typeName ++ ":" ++ s.Name ++ ") has no time series data")) }
  | some call =>
    call.bind fun fields =>
    let fields := injectBattery s fields
    (specialCases s fields).bind fun fields =>
    .ret { tags := some s.tags, fields := some fields, err := none }

/-- Modelled from the spec: the declarations of the variant structs that are
absent from the source files, as far as the specification (section 3) and the
tests name their fields: an integer `Temperature`, `Humidity`, `Pressure` and
`Buttonevent`, a boolean `Fire` and `Water`, for `ZHAAirQuality` a string
`Airquality` and an integer `AirqualityPPB`, and a battery state that supplies
`battery` itself; every variant embeds `State`.  For the method `Fields` only
what the specification fixes is modelled: the fields of the embedded `State`,
and for `ZHABattery` the entry `battery`. -/
def specDecls : Decls where
  own := fun k =>
    match k with
    | .ZHATemperature => [("Temperature", .scalar (.int 64))]
    | .ZHAHumidity => [("Humidity", .scalar (.int 64))]
    | .ZHAPressure => [("Pressure", .scalar (.int 64))]
    | .ZHASwitch => [("Buttonevent", .scalar (.int 64))]
    | .ZHAFire => [("Fire", .scalar .bool)]
    | .ZHAWater => [("Water", .scalar .bool)]
    | .ZHAAirQuality => [("Airquality", .scalar .string), ("AirqualityPPB", .scalar (.int 64))]
    | .ZHABattery => [("Battery", .scalar (.int 64))]
    | _ => []
  Fields := fun k E r =>
    match k with
    | .ZHABattery =>
      .ret (mergeFields (State.Fields E { Lastupdated := r.getString "Lastupdated" })
        [("battery", .int .int (r.getInt "Battery"))])
    | _ => .ret (State.Fields E { Lastupdated := r.getString "Lastupdated" })

/-- A clock for the examples: the reading is 2018-03-08T19:36:00 UTC, the two
timestamps of the sensor documents used below parse, and a duration is cut to
whole seconds. -/
def testEnv : Env where
  now := 1520537760000000000
  parse := fun layout value =>
    if layout = "2006-01-02T15:04:05.999" ∧ value = "2018-03-08T19:35:24" then
      some 1520537724000000000
    else if layout = "2006-01-02T15:04Z" ∧ value = "2018-03-08T19:35Z" then
      some 1520537700000000000
    else none
  seconds := fun d => Int.tdiv d 1000000000

/-! ## Well-formed payloads -/

/-- The Go value that a JSON literal denotes at a scalar type: the same boolean,
the same string, the same integer when it is in the range of the type; `none`
for a value of another kind, `null` included. -/
def exactScalar : Scalar → JSON → Option ScalarVal
  | .bool, .bool b => some (.bool b)
  | .string, .str s => some (.str s)
  | .int bits, .int neg mag =>
    if fitsInt bits (JSON.intValue neg mag) then some (.int (JSON.intValue neg mag)) else none
  | .uint bits, .int neg mag =>
    if !neg && fitsUint bits mag then some (.int (mag : Int)) else none
  | _, _ => none

/-- The integers that the elements of a JSON array denote, each in range. -/
def exactScalars (bits : Nat) : List JSON → Option (List ScalarVal)
  | [] => some []
  | j :: js =>
    match exactScalar (.int bits) j, exactScalars bits js with
    | some v, some vs => some (v :: vs)
    | _, _ => none

/-- The Go value that a JSON value denotes at a field type. -/
def exactValue : GoType → JSON → Option GoVal
  | .scalar s, j => (exactScalar s j).map GoVal.scalar
  | .sliceInt bits, .arr xs => (exactScalars bits xs).map GoVal.slice
  | .sliceInt _, _ => none
  | .ptr s, j => (exactScalar s j).map (fun v => GoVal.ptr (some v))

/-- A member is well formed for a struct when it names no field, or names a
field and carries a value of that field's type. -/
def wellFormedMember (schema : Schema) (m : String × JSON) : Bool :=
  match findField schema m.1 with
  | none => true
  | some f => (exactValue f.2 m.2).isSome

/-- A well-formed payload of a struct: the text of a JSON object all of whose
members are well formed. -/
def wellFormed (schema : Schema) : RawMessage → Bool
  | .valid (.obj members) => members.all (wellFormedMember schema)
  | _ => false

/-- The fields that the members of an object select, in document order. -/
def resolved (schema : Schema) (members : List (String × JSON)) : List String :=
  members.filterMap (fun m => (findField schema m.1).map (fun f => f.1))

/-! ## Sample documents (from `event_test.go`) -/

/-- The state of `temperatureEventPayload`. -/
def temperatureState : List (String × JSON) :=
  [("lastupdated", .str "2018-03-08T19:35:24"), ("temperature", .int false 2062)]

/-- The state of `humidityEventPayload`. -/
def humidityState : List (String × JSON) :=
  [("humidity", .int false 2985), ("lastupdated", .str "2018-03-08T19:35:24")]

/-- The state of `pressureEventPayload`. -/
def pressureState : List (String × JSON) :=
  [("lastupdated", .str "2018-03-08T19:35:24"), ("pressure", .int false 993)]

/-- The state of `smokeDetectorNoFireEventPayload`. -/
def smokeState : List (String × JSON) :=
  [("fire", .bool false), ("lastupdated", .str "2018-03-13T19:46:03"),
   ("lowbattery", .bool false), ("tampered", .bool false)]

/-- The state of `switchSensorEventPayload`. -/
def switchState : List (String × JSON) :=
  [("buttonevent", .int false 1000), ("lastupdated", .str "2018-03-20T20:52:18")]

/-- A receiver for `UnmarshalJSON`: a sensor with id 7 and nothing else set. -/
def newSensor : Sensor :=
  { Type' := "", Name := "", LastSeen := 0, StateDef := .nil, Config := Aux.zero.Config, ID := 7 }

/-- A sensor document of an unknown type. -/
def unknownDoc : RawMessage :=
  .valid (.obj [("type", .str "ZHAFoo"), ("name", .str "foo"),
    ("lastseen", .str "2018-03-08T19:35Z"),
    ("state", .obj temperatureState),
    ("config", .obj [("battery", .int false 80)])])

/-- A sensor document of a known type whose state payload is malformed: the
temperature is a string. -/
def badStateDoc : RawMessage :=
  .valid (.obj [("type", .str "ZHAThermostat"), ("name", .str "bad"),
    ("state", .obj [("temperature", .str "hot")]),
    ("config", .obj [("battery", .int false 80)])])

/-- A thermostat document with a complete configuration. -/
def thermostatDoc : RawMessage :=
  .valid (.obj [("type", .str "ZHAThermostat"), ("name", .str "t1"),
    ("lastseen", .str "2018-03-08T19:35Z"),
    ("state", .obj [("lastupdated", .str "2018-03-08T19:35:24"),
                    ("temperature", .int false 2062), ("valve", .int false 30)]),
    ("config", .obj [("battery", .int false 80), ("heatsetpoint", .int false 2100),
                     ("mode", .str "auto"), ("offset", .int false 0),
                     ("externalsensortemp", .int false 1950)])])

/-- The sensor decoded from `thermostatDoc`. -/
def thermostatSensor : Sensor :=
  (Sensor.UnmarshalJSON specDecls testEnv newSensor thermostatDoc).1

/-- A thermostat document whose configuration has no `mode`. -/
def thermostatNoModeDoc : RawMessage :=
  .valid (.obj [("type", .str "ZHAThermostat"), ("name", .str "t2"),
    ("state", .obj [("lastupdated", .str "2018-03-08T19:35:24"),
                    ("temperature", .int false 2062), ("valve", .int false 30)]),
    ("config", .obj [("battery", .int false 80), ("heatsetpoint", .int false 2100),
                     ("offset", .int false 0), ("externalsensortemp", .int false 1950)])])

/-- The sensor decoded from `thermostatNoModeDoc`. -/
def thermostatNoModeSensor : Sensor :=
  (Sensor.UnmarshalJSON specDecls testEnv newSensor thermostatNoModeDoc).1

/-- A vibration sensor document whose state has no `orientation`. -/
def vibrationDoc : RawMessage :=
  .valid (.obj [("type", .str "ZHAVibration"), ("name", .str "v1"),
    ("state", .obj [("lastupdated", .str "2018-03-08T19:35:24"), ("vibration", .bool true)]),
    ("config", .obj [("battery", .int false 80)])])

/-- The sensor decoded from `vibrationDoc`. -/
def vibrationSensor : Sensor :=
  (Sensor.UnmarshalJSON specDecls testEnv newSensor vibrationDoc).1

/-- A vibration sensor document with a three-component orientation. -/
def vibrationFullDoc : RawMessage :=
  .valid (.obj [("type", .str "ZHAVibration"), ("name", .str "v2"),
    ("state", .obj [("vibration", .bool false), ("tiltangle", .int false 12),
                    ("vibrationstrength", .int false 3),
                    ("orientation", .arr [.int false 1, .int true 2, .int false 88])]),
    ("config", .obj [("battery", .int false 55)])])

/-- The sensor decoded from `vibrationFullDoc`. -/
def vibrationFullSensor : Sensor :=
  (Sensor.UnmarshalJSON specDecls testEnv newSensor vibrationFullDoc).1

/-- A battery sensor document: the state reports 64, the configuration 80. -/
def batteryDoc : RawMessage :=
  .valid (.obj [("type", .str "ZHABattery"), ("name", .str "b1"),
    ("state", .obj [("battery", .int false 64)]),
    ("config", .obj [("battery", .int false 80)])])

/-- The sensor decoded from `batteryDoc`. -/
def batterySensor : Sensor :=
  (Sensor.UnmarshalJSON specDecls testEnv newSensor batteryDoc).1

/-- The results of `Timeseries` on `thermostatSensor` under `testEnv`. -/
def thermostatResults : Results :=
  { tags := some [("name", "t1"), ("type", "ZHAThermostat"), ("id", "7"), ("source", "rest")],
    fields := some [("age_secs", .int .int64 36), ("temperature", .float64 2062 100),
                    ("valve", .int .int 30), ("battery", .int .int 80),
                    ("heatsetpoint", .float64 2100 100), ("mode", .string "auto"),
                    ("offset", .float64 0 100), ("externalsensortemp", .float64 1950 100)],
    err := none }

/-- The results of `Timeseries` on `batterySensor` under `testEnv`. -/
def batteryResults : Results :=
  { tags := some [("name", "b1"), ("type", "ZHABattery"), ("id", "7"), ("source", "rest")],
    fields := some [("battery", .int .int 64)],
    err := none }

/-- The results of `Timeseries` on `vibrationFullSensor` under `testEnv`. -/
def vibrationFullResults : Results :=
  { tags := some [("name", "v2"), ("type", "ZHAVibration"), ("id", "7"), ("source", "rest")],
    fields := some [("vibration", .bool false), ("tiltangle", .int .int16 12),
                    ("vibrationstrength", .int .int16 3), ("orientation_x", .int .int16 1),
                    ("orientation_y", .int .int16 (-2)), ("orientation_z", .int .int16 88),
                    ("battery", .int .int 55)],
    err := none }

/-! ## `Duration.Seconds` -/

/-- The quotient `a / b` rounded to the nearest integer, ties to even. -/
def roundHalfEven (a b : Nat) : Nat :=
  if 2 * (a % b) < b then a / b
  else if b < 2 * (a % b) then a / b + 1
  else if (a / b) % 2 = 0 then a / b
  else a / b + 1

/-- The binary logarithm, with fuel: halve while the number is at least 2. -/
def binLogAux : Nat → Nat → Nat
  | 0, _ => 0
  | fuel + 1, n => if 2 ≤ n then binLogAux fuel (n / 2) + 1 else 0

/-- The binary logarithm of `n`, rounded down (0 for 0). -/
def binLog (n : Nat) : Nat :=
  binLogAux n n

/-- The float64 nearest to the positive rational `a / b` (round to nearest, ties
to even, 53 significant bits), as a fraction whose denominator is a power of
two.  With `la` and `lb` the binary logarithms of `a` and `b`, the quotient is
scaled by `2 ^ up / 2 ^ la` into the range from `2 ^ 52` to `2 ^ 53`, rounded to
an integer and scaled back.  Values in the normal range of float64 only. -/
def roundFloat64 (a b : Nat) : Nat × Nat :=
  if a = 0 then (0, 1)
  else
    let la := binLog a
    let lb := binLog b
    let up := if a * 2 ^ (52 + lb) < 2 ^ 52 * (b * 2 ^ la) then 53 + lb else 52 + lb
    (roundHalfEven (a * 2 ^ up) (b * 2 ^ la) * 2 ^ la, 2 ^ up)

/-- The conversion `int64(d.Seconds())` of a duration of `d` nanoseconds:
`Seconds` is `float64(sec) + float64(nsec)/1e9` with `sec := d / Second` and
`nsec := d % Second` (both exact as float64), the division and the sum are
rounded to float64, and the conversion to `int64` truncates toward zero.  The
computation is symmetric in the sign of `d`. -/
def Duration.secondsInt64 (d : Int) : Int :=
  let n := d.natAbs
  let quotient := roundFloat64 (n % 10 ^ 9) (10 ^ 9)
  let sum := roundFloat64 (n / 10 ^ 9 * quotient.2 + quotient.1) quotient.2
  let whole : Nat := sum.1 / sum.2
  if d < 0 then -(whole : Int) else (whole : Int)

/-- The layout of `lastupdated` in `State.Fields`. -/
def lastupdatedLayout : String := "2006-01-02T15:04:05.999"

/-- `time.Parse` on the timestamps used in the examples (nanoseconds since the
epoch, UTC); every other string is taken not to parse. -/
def sampleParse (layout value : String) : Option Int :=
  if layout = "2006-01-02T15:04:05.999" ∧ value = "2018-03-08T19:35:24" then
    some 1520537724000000000
  else if layout = "2006-01-02T15:04:05.999" ∧ value = "0001-01-01T00:00:00" then
    some (-62135596800000000000)
  else if layout = "2006-01-02T15:04Z" ∧ value = "2018-03-08T19:35Z" then
    some 1520537700000000000
  else none

/-- The environment with the clock reading `now`, `sampleParse`, and the float64
computation of `Duration.Seconds`. -/
def clockEnv (now : Int) : Env where
  now := now
  parse := sampleParse
  seconds := Duration.secondsInt64

/-- The clock reading 2018-09-18T23:55:40.999999999 UTC, which is
16777216.999999999 seconds after 2018-03-08T19:35:24. -/
def lateNow : Int := 1537314940999999999

/-- The clock reading 2018-03-08T19:36:00.5 UTC. -/
def soonNow : Int := 1520537760500000000

/-! ## `mergeFields` on map references -/

/-- Map objects by address.  A Go map value is a reference: `mergeFields` writes
through `p`, and `p` and `s` may be the same map. -/
abbrev MapHeap := Nat → FieldMap

/-- Replace the map at address `a`. -/
def MapHeap.write (h : MapHeap) (a : Nat) (m : FieldMap) : MapHeap :=
  fun b => if b = a then m else h b

/-- The loop body of `mergeFields` on the map at address `p`. -/
def mergeEntryAt (p : Nat) (h : MapHeap) (entry : String × FieldValue) : MapHeap :=
  if ((h p).get entry.1).isSome then h else h.write p ((h p).set entry.1 entry.2)

/-- The function `mergeFields` on the maps at addresses `p` and `s`: the loop
ranges over the entries of `s` and writes to `p` only; the heap after the call
and the returned reference, which is `p`. -/
def mergeFieldsAt (h : MapHeap) (p s : Nat) : MapHeap × Nat :=
  ((h s).foldl (mergeEntryAt p) h, p)

/-- A value of type `map[string]interface{}`: nil (`none`) or a reference to a
map object. -/
abbrev MapRef := Option Nat

/-- The entries that `range` visits and that a lookup sees: none for a nil map. -/
def MapHeap.entries (h : MapHeap) (s : MapRef) : FieldMap :=
  match s with
  | none => []
  | some b => h b

/-- The loop body of `mergeFields` for a `p` that may be nil: a lookup in a nil
map finds no key, so the assignment `p[k] = e` is reached, and it panics. -/
def mergeEntryRef (p : MapRef) (h : MapHeap) (entry : String × FieldValue) : Run MapHeap :=
  match p with
  | none => .panic .assignNilMap
  | some a => .ret (mergeEntryAt a h entry)

/-- The function `mergeFields` on map values that may be nil: the loop ranges
over the entries of `s` (none when `s` is nil) and the call returns `p`. -/
def mergeFieldsRef (h : MapHeap) (p s : MapRef) : Run (MapHeap × MapRef) :=
  ((h.entries s).foldl (fun (acc : Run MapHeap) entry => acc.bind fun h => mergeEntryRef p h entry)
    (.ret h)).bind fun h => .ret (h, p)

/-! ## `Sensor.Timeseries` on memory -/

/-- The memory that a call of `Timeseries` works on: the sensor that the
receiver points to, the map objects by address, and the address of the next new
map. -/
structure Memory where
  sensor : Sensor
  maps : MapHeap
  next : Nat

/-- A map literal: a new map object with the given entries; the memory after it
and the reference to the new map. -/
def Memory.alloc (m : Memory) (entries : FieldMap) : Memory × Nat :=
  ({ m with maps := m.maps.write m.next entries, next := m.next + 1 }, m.next)

/-- An assignment `fields[k] = v` through the reference `a`. -/
def Memory.store (m : Memory) (a : Nat) (k : String) (v : FieldValue) : Memory :=
  { m with maps := m.maps.write a ((m.maps a).set k v) }

/-- The method `State.Fields` on memory: each of its three returns is a map
literal. -/
def State.FieldsMem (E : Env) (s : State) (m : Memory) : Memory × Nat :=
  if s.Lastupdated ≠ "" then
    match E.parse "2006-01-02T15:04:05.999" s.Lastupdated with
    | none => m.alloc []
    | some t => m.alloc [("age_secs", .int .int64 (E.seconds (Env.sub E.now t)))]
  else m.alloc []

/-- The function `mergeFields` on memory: it writes through `p` and returns `p`. -/
def mergeFieldsMem (m : Memory) (p s : Nat) : Memory × Nat :=
  ({ m with maps := (mergeFieldsAt m.maps p s).1 }, (mergeFieldsAt m.maps p s).2)

/-- The method `(*ZHAThermostat).Fields` on memory: the map of `State.Fields()`,
then the map literal, then the merge of the second into the first. -/
def ZHAThermostat.FieldsMem (E : Env) (z : ZHAThermostat) (m : Memory) : Memory × Nat :=
  let p := z.State.FieldsMem E m
  let s := p.1.alloc
    [("temperature", .float64 z.Temperature 100),
     ("valve", .int .int z.Valve)]
  mergeFieldsMem s.1 p.2 s.2

/-- The method `(*ZHAVibration).Fields` on memory. -/
def ZHAVibration.FieldsMem (E : Env) (z : ZHAVibration) (m : Memory) : Run (Memory × Nat) :=
  let p := z.State.FieldsMem E m
  (index z.Orientation 0).bind fun x =>
  (index z.Orientation 1).bind fun y =>
  (index z.Orientation 2).bind fun w =>
  let s := p.1.alloc
    [("vibration", .bool z.Vibration),
     ("tiltangle", .int .int16 z.Tiltangle),
     ("vibrationstrength", .int .int16 z.Vibrationstrength),
     ("orientation_x", .int .int16 x),
     ("orientation_y", .int .int16 y),
     ("orientation_z", .int .int16 w)]
  .ret (mergeFieldsMem s.1 p.2 s.2)

/-- The type assertion `s.StateDef.(Fielder)` followed by the call `f.Fields()`
on memory.  The `Fields` methods of the variants declared elsewhere are taken to
return a new map holding the entries that `D.Fields` gives, as the two methods
above do. -/
def StateDef.FieldsMem (D : Decls) (E : Env) (sd : StateDef) (m : Memory) :
    Option (Run (Memory × Nat)) :=
  match sd with
  | .nil => none
  | .EmptyState => none
  | .ptr .ZHAThermostat r => some (.ret ((ZHAThermostat.ofRecord r).FieldsMem E m))
  | .ptr .ZHAVibration r => some ((ZHAVibration.ofRecord r).FieldsMem E m)
  | .ptr k r => some ((D.Fields k E r).bind fun entries => .ret (m.alloc entries))

/-- The special cases of `Sensor.Timeseries` on memory: the four assignments go
through the reference `fields`, the four values are read from the sensor. -/
def specialCasesMem (m : Memory) (fields : Nat) : Run Memory :=
  if m.sensor.Type' = "ZHAThermostat" then
    (deref m.sensor.Config.HeatSetpoint).bind fun heatSetpoint =>
    let m := m.store fields "heatsetpoint" (.float64 heatSetpoint 100)
    (deref m.sensor.Config.Mode).bind fun mode =>
    let m := m.store fields "mode" (.string mode)
    (deref m.sensor.Config.Offset).bind fun offset =>
    let m := m.store fields "offset" (.float64 offset 100)
    (deref m.sensor.Config.ExternalSensorTemp).bind fun externalSensorTemp =>
    .ret (m.store fields "externalsensortemp" (.float64 externalSensorTemp 100))
  else .ret m

/-- The three results of `Sensor.Timeseries` on memory: the tag map (a map
literal made by the return statement), the reference to the field map, and the
error. -/
structure ResultsAt where
  tags : Option TagMap
  fields : MapRef
  err : Option Error
  deriving DecidableEq, Repr

/-- The method `Sensor.Timeseries` on memory: the receiver is the sensor held in
the memory; the memory after the call and the results, or a panic. -/
def Sensor.TimeseriesMem (D : Decls) (E : Env) (m : Memory) : Run (Memory × ResultsAt) :=
  match m.sensor.StateDef.FieldsMem D E m with
  | none =>
    .ret (m, { tags := none, fields := none, err := some (.errorf
      ("this sensor (" ++ m.sensor.StateDef.typeName ++ ":" ++ m.sensor.Name
        ++ ") has no time series data")) })
  | some call =>
    call.bind fun r =>
    let fields := r.2
    let m := r.1
    let m := if ((m.maps fields).get "battery").isSome then m
      else m.store fields "battery" (.int .int (m.sensor.Config.Battery : Int))
    (specialCasesMem m fields).bind fun m =>
    .ret (m, { tags := some [("name", m.sensor.Name), ("type", m.sensor.Type'),
                             ("id", Itoa m.sensor.ID), ("source", "rest")],
               fields := some fields, err := none })

/-- The map literal of `ZHAThermostat.Fields`. -/
def ZHAThermostat.literal (z : ZHAThermostat) : FieldMap :=
  [("temperature", .float64 z.Temperature 100), ("valve", .int .int z.Valve)]

/-! ## The event loop (`deconz/sensoreventreader.go`) -/

/-- An `event.Event` as the loop uses it: the loop reads `Resource` and `ID`;
`Payload` stands for the other fields of the event. -/
structure Event where
  Resource : String
  ID : Int
  Payload : String
  deriving DecidableEq, Repr

/-- SensorEvent pairs an event with the sensor returned by the lookup (a
`*Sensor`, nil when `none`). -/
structure SensorEvent where
  Event : Event
  Sensor : Option Sensor
  deriving DecidableEq, Repr

/-- The interface `SensorLookup`: the two results of `LookupSensor(id)`, taken
to depend on the id only. -/
abbrev SensorLookup := Int → Option Sensor × Option Error

/-- SensorEventReader reads events from an event reader and returns
SensorEvents.  `lookup` and `reader` are interface values (`none` is nil); the
event reader itself is represented by a handle. -/
structure SensorEventReader where
  lookup : Option SensorLookup
  reader : Option Nat
  running : Bool

/-- The results of `Start`: the reader after the call, the returned error, and
whether the background loop was started. -/
structure StartResult where
  reader : SensorEventReader
  err : Option Error
  started : Bool

/-- The method `SensorEventReader.Start`, up to the `go` statement. -/
def SensorEventReader.Start (r : SensorEventReader) : StartResult :=
  if r.lookup.isNone then
    { reader := r, started := false, err := some
        (.errorf "Cannot run without a SensorLookup from which to lookup sensors") }
  else if r.reader.isNone then
    { reader := r, started := false, err := some
        (.errorf "Cannot run without a EventReader from which to read events") }
  else if r.running then
    { reader := r, started := false, err := some (.errorf "Reader is already running.") }
  else
    { reader := { r with running := true }, started := true, err := none }

/-- The method `StopReadEvents`. -/
def SensorEventReader.StopReadEvents (r : SensorEventReader) : SensorEventReader :=
  { r with running := false }

/-- The error of a failed `ReadEvent`: an `event.EventError` with its
`Recoverable()` answer, or an error of another type. -/
inductive ReadError where
  | eventError (recoverable : Bool)
  | other
  deriving DecidableEq, Repr

/-- The two results of `ReadEvent()`: an event and no error, an error, or
neither (a nil event with a nil error). -/
inductive ReadResult where
  | event (e : Event)
  | error (err : ReadError)
  | nilEvent
  deriving DecidableEq, Repr

/-- What the loop does to its collaborators, in order. -/
inductive Action where
  | Dial
  | Sleep
  | ReadEvent
  | Send (ev : SensorEvent)
  | Close
  deriving DecidableEq, Repr

/-- The places where the loop reads `r.running`: the outer loop (line 48), the
connection loop (line 50) and the read loop (line 61); `done` after `Close`,
`crashed` after a nil dereference. -/
inductive Place where
  | outer
  | dialLoop
  | readLoop
  | done
  | crashed
  deriving DecidableEq, Repr

/-- The surroundings of one run of the loop: `flag i` is the value of
`r.running` at the `i`-th read of it by the loop (the flag is written from
outside), `lookup` is the sensor lookup, `closeErr` is the result of `Close`. -/
structure LoopEnv where
  flag : Nat → Bool
  lookup : SensorLookup
  closeErr : Option Error

/-- The state of the loop: where it is, how many times it has read the flag, and
the results that the coming calls of `Dial` (`none` is success) and `ReadEvent`
will return; a call without a result does not return. -/
structure LoopState where
  place : Place
  flagReads : Nat
  dials : List (Option Error)
  reads : List ReadResult
  deriving DecidableEq, Repr

/-- The state in which the goroutine of `Start` begins. -/
def LoopState.initial (dials : List (Option Error)) (reads : List ReadResult) : LoopState :=
  { place := .outer, flagReads := 0, dials := dials, reads := reads }

/-- The body of the read loop after a successful `ReadEvent` (lines 70 to 82):
what is sent on the channel, if anything. -/
def deliver (lookup : SensorLookup) (e : Event) : List Action :=
  if e.Resource ≠ "sensors" then []
  else
    match lookup e.ID with
    | (_, some _) => []
    | (sensor, none) => [.Send { Event := e, Sensor := sensor }]

/-- One round of the loop: one read of `r.running` at the current place and the
body that follows it.  `none` when the loop has ended or the next call does not
return.  A send on the channel is taken to complete; logging is left out. -/
def loopStep (env : LoopEnv) (st : LoopState) : Option (LoopState × List Action) :=
  match st.place with
  | .outer =>
    if env.flag st.flagReads then
      some ({ st with place := .dialLoop, flagReads := st.flagReads + 1 }, [])
    else
      match env.closeErr with
      | some _ => some ({ st with place := .done, flagReads := st.flagReads + 1 }, [.Close])
      | none => some ({ st with place := .done, flagReads := st.flagReads + 1 }, [.Close])
  | .dialLoop =>
    if env.flag st.flagReads then
      match st.dials with
      | [] => none
      | some _ :: rest =>
        some ({ st with place := .dialLoop, flagReads := st.flagReads + 1, dials := rest },
              [.Dial, .Sleep])
      | none :: rest =>
        some ({ st with place := .readLoop, flagReads := st.flagReads + 1, dials := rest },
              [.Dial])
    else
      some ({ st with place := .readLoop, flagReads := st.flagReads + 1 }, [])
  | .readLoop =>
    if env.flag st.flagReads then
      match st.reads with
      | [] => none
      | .error (.eventError true) :: rest =>
        some ({ st with place := .readLoop, flagReads := st.flagReads + 1, reads := rest },
              [.ReadEvent])
      | .error _ :: rest =>
        some ({ st with place := .outer, flagReads := st.flagReads + 1, reads := rest },
              [.ReadEvent])
      | .nilEvent :: rest =>
        some ({ st with place := .crashed, flagReads := st.flagReads + 1, reads := rest },
              [.ReadEvent])
      | .event e :: rest =>
        some ({ st with place := .readLoop, flagReads := st.flagReads + 1, reads := rest },
              .ReadEvent :: deliver env.lookup e)
    else
      some ({ st with place := .outer, flagReads := st.flagReads + 1 }, [])
  | .done => none
  | .crashed => none

/-- The loop run for at most `fuel` rounds: the state reached and the actions
performed. -/
def loopRun (env : LoopEnv) : Nat → LoopState → LoopState × List Action
  | 0, st => (st, [])
  | fuel + 1, st =>
    match loopStep env st with
    | none => (st, [])
    | some (st', actions) =>
      let r := loopRun env fuel st'
      (r.1, actions ++ r.2)

/-- The events sent on the channel, in order. -/
def sent : List Action → List SensorEvent
  | [] => []
  | .Send ev :: rest => ev :: sent rest
  | _ :: rest => sent rest

/-- The sensor events that a sequence of events gives rise to: one for each event
whose `Resource` is "sensors" and whose id the lookup resolves without error. -/
def expected (lookup : SensorLookup) : List Event → List SensorEvent
  | [] => []
  | e :: rest =>
    if e.Resource = "sensors" ∧ (lookup e.ID).2 = none then
      { Event := e, Sensor := (lookup e.ID).1 } :: expected lookup rest
    else expected lookup rest

/-- A lookup for the examples: id 1 is the decoded thermostat, every other id
is not found. -/
def sampleLookup : SensorLookup := fun id =>
  if id = 1 then (some thermostatSensor, none) else (none, some (.errorf "not found"))

/-- Four events: a sensor event of id 1, an event of another resource, a sensor
event of the unknown id 9, and a second sensor event of id 1. -/
def sampleEvents : List Event :=
  [{ Resource := "sensors", ID := 1, Payload := "a" },
   { Resource := "lights", ID := 1, Payload := "b" },
   { Resource := "sensors", ID := 9, Payload := "c" },
   { Resource := "sensors", ID := 1, Payload := "d" }]

/-- Surroundings in which `r.running` is read as true `n` times and as false
from then on, and `Close` fails. -/
def sampleEnv (n : Nat) : LoopEnv where
  flag := fun i => decide (i < n)
  lookup := sampleLookup
  closeErr := some (.errorf "close failed")

/-- A loop in its read loop after three reads of the flag, about to read the
four sample events and then a connection error. -/
def connectedState : LoopState :=
  { place := .readLoop, flagReads := 3, dials := [none],
    reads := sampleEvents.map ReadResult.event ++ [.error .other] }

/-- A loop in its read loop whose next read fails with the given error and whose
read after that returns an event. -/
def failingState (err : ReadError) : LoopState :=
  { place := .readLoop, flagReads := 3, dials := [some (.errorf "refused"), none],
    reads := [.error err, .event { Resource := "sensors", ID := 1, Payload := "e" }] }

/-- A sensor document whose `lastseen` does not parse. -/
def badLastSeenDoc : RawMessage :=
  .valid (.obj [("type", .str "ZHAThermostat"), ("name", .str "t3"),
    ("lastseen", .str "yesterday"),
    ("state", .obj [("temperature", .int false 2062)])])

/-- A sensor document whose `name` is a number: it does not decode into the
auxiliary struct. -/
def badNameDoc : RawMessage :=
  .valid (.obj [("type", .str "ZHAThermostat"), ("name", .int false 5)])

/-- A reader with a lookup and an event reader that is not running. -/
def idleReader : SensorEventReader :=
  { lookup := some sampleLookup, reader := some 0, running := false }

/-- A heap with the fields of a state at address 0 and a map literal at
address 1. -/
def sampleHeap : MapHeap := fun a =>
  if a = 0 then [("age_secs", .int .int64 36), ("valve", .int .int 1)]
  else if a = 1 then [("temperature", .float64 2062 100), ("valve", .int .int 30)]
  else []

/-- A sensor value whose `Type` is "ZHAThermostat" and whose `StateDef` is the
state of the decoded vibration sensor (a `*ZHAVibration` without orientation);
the configuration is the complete one of the decoded thermostat. -/
def mixedSensor : Sensor :=
  { thermostatSensor with StateDef := vibrationSensor.StateDef }

/-- Surroundings in which `r.running` is read as false at read `n` only: a
`StopReadEvents` that the loop observes once, and a new `Start` before the loop
reads the flag again. -/
def restartEnv (n : Nat) : LoopEnv where
  flag := fun i => decide (i ≠ n)
  lookup := sampleLookup
  closeErr := none

/-- A loop about to check the flag before a dial attempt, after three reads of
the flag. -/
def dialingState : LoopState :=
  { place := .dialLoop, flagReads := 3, dials := [none],
    reads := sampleEvents.map ReadResult.event ++ [.error .other] }

/-- A memory that holds the given sensor and, at addresses 0 and 1, the two maps
of `sampleHeap`. -/
def sampleMemory (s : Sensor) : Memory :=
  { sensor := s, maps := sampleHeap, next := 2 }

/-- A heap whose map at address 0 has the one entry `a = true`. -/
def singleHeap : MapHeap := fun a =>
  if a = 0 then [("a", .bool true)] else []

/-! ## Lemmas on maps -/

theorem GoMap.get_set_eq {V : Type} (m : GoMap V) (k : String) (v : V) :
    (m.set k v).get k = some v := by
  induction m with
  | nil => simp [GoMap.set, GoMap.get]
  | cons e rest ih =>
    obtain ⟨n, w⟩ := e
    by_cases h : n = k
    · simp [GoMap.set, GoMap.get, h]
    · simp [GoMap.set, GoMap.get, h, ih]

theorem GoMap.get_set_ne {V : Type} (m : GoMap V) (k k' : String) (v : V) (hne : k' ≠ k) :
    (m.set k v).get k' = m.get k' := by
  induction m with
  | nil => simp [GoMap.set, GoMap.get, Ne.symm hne]
  | cons e rest ih =>
    obtain ⟨n, w⟩ := e
    by_cases h : n = k
    · subst h
      simp [GoMap.set, GoMap.get, Ne.symm hne]
    · by_cases h' : n = k'
      · subst h'
        simp [GoMap.set, GoMap.get, hne]
      · simp [GoMap.set, GoMap.get, h, h', ih]

/-! ## Lemmas on `json.Unmarshal` -/

theorem saveError_none (saved : Option JsonError) : saveError saved none = saved := by
  cases saved <;> rfl

theorem literalStore_exact (field : String) (s : Scalar) (cur : ScalarVal) (j : JSON)
    (v : ScalarVal) (h : exactScalar s j = some v) :
    literalStore field s cur j = (v, none) := by
  cases s <;> cases j <;> simp_all [exactScalar, literalStore]

theorem decodeElems_exact (field : String) (bits : Nat) (xs : List JSON) :
    ∀ (cur vs : List ScalarVal) (saved : Option JsonError),
      exactScalars bits xs = some vs → decodeElems field bits xs cur saved = (vs, saved) := by
  induction xs with
  | nil => intro cur vs saved h; simp_all [exactScalars, decodeElems]
  | cons j js ih =>
    intro cur vs saved h
    unfold exactScalars at h
    split at h
    · rename_i v vs' hv hvs
      simp only [Option.some.injEq] at h
      subst h
      simp [decodeElems, literalStore_exact field (.int bits) _ j v hv, saveError_none,
        ih cur.tail vs' saved hvs]
    · simp at h

theorem decodeValue_exact (field : String) (t : GoType) (cur : GoVal) (j : JSON) (v : GoVal)
    (h : exactValue t j = some v) : decodeValue field t cur j = (v, none) := by
  cases t with
  | scalar s =>
    simp only [exactValue, Option.map_eq_some'] at h
    obtain ⟨w, hw, rfl⟩ := h
    cases cur <;> simp [decodeValue, literalStore_exact field s _ j w hw]
  | sliceInt bits =>
    cases j <;> simp only [exactValue, Option.map_eq_some', reduceCtorEq] at h
    obtain ⟨w, hw, rfl⟩ := h
    simp [decodeValue, decodeElems_exact field bits _ _ w none hw]
  | ptr s =>
    simp only [exactValue, Option.map_eq_some'] at h
    obtain ⟨w, hw, rfl⟩ := h
    cases j <;> first
      | (cases s <;> simp [exactScalar] at hw; done)
      | simp [decodeValue, literalStore_exact field s _ _ w hw]

theorem decodeMember_ok (schema : Schema) (acc : Record × Option JsonError)
    (m : String × JSON) (hm : wellFormedMember schema m = true) (hacc : acc.2 = none) :
    (decodeMember schema acc m).2 = none := by
  unfold wellFormedMember at hm
  unfold decodeMember
  split
  · exact hacc
  · rename_i name t hf
    rw [hf] at hm
    simp only [Option.isSome_iff_exists] at hm
    obtain ⟨v, hv⟩ := hm
    simp [decodeValue_exact name t _ m.2 v hv, hacc, saveError]

theorem foldl_decodeMember_ok (schema : Schema) (members : List (String × JSON)) :
    ∀ acc : Record × Option JsonError,
      (∀ m ∈ members, wellFormedMember schema m = true) → acc.2 = none →
      (members.foldl (decodeMember schema) acc).2 = none := by
  induction members with
  | nil => intro acc _ hacc; simpa using hacc
  | cons m rest ih =>
    intro acc hwf hacc
    simp only [List.foldl_cons]
    apply ih
    · intro m' hm'
      exact hwf m' (List.mem_cons_of_mem _ hm')
    · exact decodeMember_ok schema acc m (hwf m (List.mem_cons_self _ _)) hacc

theorem foldl_decodeMember_get_other (schema : Schema) (name : String)
    (members : List (String × JSON)) :
    ∀ acc : Record × Option JsonError,
      name ∉ resolved schema members →
      (members.foldl (decodeMember schema) acc).1.get name = acc.1.get name := by
  induction members with
  | nil => intro acc _; rfl
  | cons m rest ih =>
    intro acc hnot
    simp only [List.foldl_cons]
    have hrest : name ∉ resolved schema rest := by
      intro hin
      apply hnot
      unfold resolved at hin ⊢
      rw [List.filterMap_cons]
      split
      · exact hin
      · exact List.mem_cons_of_mem _ hin
    rw [ih _ hrest]
    unfold decodeMember
    split
    · rfl
    · rename_i n t hf
      have hne : name ≠ n := by
        intro heq
        apply hnot
        unfold resolved
        rw [List.filterMap_cons]
        simp [hf, heq]
      simp [GoMap.get_set_ne _ n name _ hne]

theorem foldl_decodeMember_get (schema : Schema) (members : List (String × JSON)) :
    ∀ (acc : Record × Option JsonError) (key : String) (j : JSON) (name : String)
      (t : GoType) (v : GoVal),
      (resolved schema members).Nodup → (key, j) ∈ members →
      findField schema key = some (name, t) → exactValue t j = some v →
      (members.foldl (decodeMember schema) acc).1.get name = some v := by
  induction members with
  | nil => intro acc key j name t v _ hm; simp at hm
  | cons m rest ih =>
    intro acc key j name t v hnodup hm hf hv
    simp only [List.foldl_cons]
    rcases List.mem_cons.mp hm with heq | hin
    · subst heq
      have hres : resolved schema ((key, j) :: rest) = name :: resolved schema rest := by
        unfold resolved
        rw [List.filterMap_cons]
        simp [hf]
      rw [hres] at hnodup
      rw [foldl_decodeMember_get_other schema name rest _ (List.nodup_cons.mp hnodup).1]
      unfold decodeMember
      simp [hf, decodeValue_exact name t _ j v hv, GoMap.get_set_eq]
    · apply ih _ key j name t v _ hin hf hv
      unfold resolved at hnodup ⊢
      rw [List.filterMap_cons] at hnodup
      split at hnodup
      · exact hnodup
      · exact (List.nodup_cons.mp hnodup).2

/-! ## The switch of `DecodeSensorState` -/

theorem SensorKind.name_mem (k : SensorKind) : k.name ∈ sensorTypes := by
  cases k <;> decide

theorem SensorKind.exists_of_mem (ty : String) (h : ty ∈ sensorTypes) :
    ∃ k : SensorKind, k.name = ty := by
  simp only [sensorTypes, List.mem_cons, List.mem_singleton, List.mem_nil_iff, or_false] at h
  rcases h with h | h | h | h | h | h | h | h | h | h | h | h | h | h | h | h | h | h <;> subst h
  all_goals first
    | exact ⟨.CLIPPresence, rfl⟩ | exact ⟨.Daylight, rfl⟩ | exact ⟨.ZHAAirQuality, rfl⟩
    | exact ⟨.ZHABattery, rfl⟩ | exact ⟨.ZHACarbonMonoxide, rfl⟩ | exact ⟨.ZHAConsumption, rfl⟩
    | exact ⟨.ZHAFire, rfl⟩ | exact ⟨.ZHAHumidity, rfl⟩ | exact ⟨.ZHALightLevel, rfl⟩
    | exact ⟨.ZHAOpenClose, rfl⟩ | exact ⟨.ZHAPower, rfl⟩ | exact ⟨.ZHAPresence, rfl⟩
    | exact ⟨.ZHAPressure, rfl⟩ | exact ⟨.ZHASwitch, rfl⟩ | exact ⟨.ZHATemperature, rfl⟩
    | exact ⟨.ZHAThermostat, rfl⟩ | exact ⟨.ZHAVibration, rfl⟩ | exact ⟨.ZHAWater, rfl⟩

theorem SensorKind.name_injective (k k' : SensorKind) (h : k.name = k'.name) : k = k' := by
  cases k <;> cases k' <;> first | rfl | (exact absurd h (by decide))

theorem DecodeSensorState_name (D : Decls) (raw : RawMessage) (k : SensorKind) :
    DecodeSensorState D raw k.name = decodeVariant D k raw := by
  cases k <;> rfl

theorem typeName_ptr_injective (k k' : SensorKind) (r r' : Record)
    (h : (StateDef.ptr k r).typeName = (StateDef.ptr k' r').typeName) : k = k' := by
  apply SensorKind.name_injective
  simp only [StateDef.typeName] at h
  have h2 := congrArg String.data h
  simp only [String.data_append] at h2
  exact String.ext (List.append_cancel_left h2)

theorem decodeVariant_wellFormed (D : Decls) (k : SensorKind) (raw : RawMessage)
    (h : wellFormed (schemaOf D k) raw = true) :
    ∃ r, decodeVariant D k raw = (.ptr k r, none) := by
  unfold wellFormed at h
  split at h
  · rename_i members
    refine ⟨(members.foldl (decodeMember (schemaOf D k)) ((schemaOf D k).zero, none)).1, ?_⟩
    have hok := foldl_decodeMember_ok (schemaOf D k) members ((schemaOf D k).zero, none)
      (fun m hm => (List.all_eq_true.mp h) m hm) rfl
    simp [decodeVariant, Unmarshal, unmarshalStruct, hok]
  · simp at h

/-- C1: for every sensor type string that is not one of the 18 enumerated type
strings and for every raw payload, `DecodeSensorState` returns the nil state
value together with the error "<type> is not a known sensor type". -/
theorem DecodeSensorState_unknown_type (D : Decls) (rawState : RawMessage)
    (sensorType : String) (h : sensorType ∉ sensorTypes) :
    DecodeSensorState D rawState sensorType
      = (StateDef.nil, some (Error.errorf (sensorType ++ " is not a known sensor type"))) := by
  simp only [sensorTypes, List.mem_cons, List.mem_singleton, not_or, List.mem_nil_iff,
    not_false_eq_true, and_true] at h
  unfold DecodeSensorState
  split <;> simp_all

/-- Witness of C1: the type string "ZHAFoo" with the state of the temperature
test event. -/
theorem DecodeSensorState_unknown_type_witness :
    "ZHAFoo" ∉ sensorTypes ∧
    DecodeSensorState specDecls (.valid (.obj temperatureState)) "ZHAFoo"
      = (StateDef.nil, some (Error.errorf ("ZHAFoo" ++ " is not a known sensor type"))) :=
  ⟨by decide,
   DecodeSensorState_unknown_type specDecls (.valid (.obj temperatureState)) "ZHAFoo"
     (by decide)⟩

/-- C2: for every enumerated sensor type string there is a variant of that name
such that `DecodeSensorState` returns, for a well-formed payload of the variant,
a pointer to that variant and no error; the dynamic type of the returned value
is the one the type string names, and two distinct enumerated type strings
never yield values of the same dynamic type. -/
theorem DecodeSensorState_variant (D : Decls) (ty : String) (raw : RawMessage)
    (hty : ty ∈ sensorTypes) :
    ∃ k : SensorKind, k.name = ty ∧
      (wellFormed (schemaOf D k) raw = true →
        ∃ r, DecodeSensorState D raw ty = (StateDef.ptr k r, none)) ∧
      (DecodeSensorState D raw ty).1.typeName = "*sensor." ++ ty ∧
      ∀ (ty' : String) (raw' : RawMessage), ty' ∈ sensorTypes → ty' ≠ ty →
        (DecodeSensorState D raw' ty').1.typeName ≠ (DecodeSensorState D raw ty).1.typeName := by
  obtain ⟨k, rfl⟩ := SensorKind.exists_of_mem ty hty
  refine ⟨k, rfl, ?_, ?_, ?_⟩
  · intro hwf
    rw [DecodeSensorState_name]
    exact decodeVariant_wellFormed D k raw hwf
  · rw [DecodeSensorState_name]
    rfl
  · intro ty' raw' hty' hne heq
    obtain ⟨k', rfl⟩ := SensorKind.exists_of_mem ty' hty'
    rw [DecodeSensorState_name, DecodeSensorState_name] at heq
    exact hne (congrArg SensorKind.name (typeName_ptr_injective k' k _ _ heq))

/-- Witness of C2: the type string "ZHAFire" with the state of the smoke
detector test event, which is a well-formed payload of `ZHAFire`. -/
theorem DecodeSensorState_variant_witness :
    "ZHAFire" ∈ sensorTypes ∧
    wellFormed (schemaOf specDecls .ZHAFire) (.valid (.obj smokeState)) = true ∧
    ∃ k : SensorKind, k.name = "ZHAFire" ∧
      (wellFormed (schemaOf specDecls k) (.valid (.obj smokeState)) = true →
        ∃ r, DecodeSensorState specDecls (.valid (.obj smokeState)) "ZHAFire"
          = (StateDef.ptr k r, none)) ∧
      (DecodeSensorState specDecls (.valid (.obj smokeState)) "ZHAFire").1.typeName
        = "*sensor." ++ "ZHAFire" ∧
      ∀ (ty' : String) (raw' : RawMessage), ty' ∈ sensorTypes → ty' ≠ "ZHAFire" →
        (DecodeSensorState specDecls raw' ty').1.typeName
          ≠ (DecodeSensorState specDecls (.valid (.obj smokeState)) "ZHAFire").1.typeName :=
  ⟨by decide, by decide,
   DecodeSensorState_variant specDecls "ZHAFire" (.valid (.obj smokeState)) (by decide)⟩

/-- C3: for every variant and every well-formed payload whose members select
pairwise different fields, each member that selects a field is decoded into
that field exactly: the field holds the Go value that the JSON value denotes
(the same integer, boolean or string), and the call returns no error. -/
theorem DecodeSensorState_fields (D : Decls) (k : SensorKind)
    (members : List (String × JSON)) (key : String) (j : JSON) (name : String)
    (t : GoType) (v : GoVal)
    (hwf : wellFormed (schemaOf D k) (.valid (.obj members)) = true)
    (hnodup : (resolved (schemaOf D k) members).Nodup)
    (hm : (key, j) ∈ members)
    (hf : findField (schemaOf D k) key = some (name, t))
    (hv : exactValue t j = some v) :
    ∃ r, DecodeSensorState D (.valid (.obj members)) k.name = (StateDef.ptr k r, none) ∧
      r.get name = some v := by
  obtain ⟨r, hr⟩ := decodeVariant_wellFormed D k _ hwf
  refine ⟨r, by rw [DecodeSensorState_name]; exact hr, ?_⟩
  have hget := foldl_decodeMember_get (schemaOf D k) members ((schemaOf D k).zero, none)
    key j name t v hnodup hm hf hv
  simp only [decodeVariant, Unmarshal, unmarshalStruct, Prod.mk.injEq, StateDef.ptr.injEq,
    true_and] at hr
  rw [← hr.1]
  exact hget

/-- Witness of C3: the states of the temperature, pressure, humidity and switch
test events decode to 2062, 993, 2985 and 1000, and `lastupdated` is carried
over unchanged. -/
theorem DecodeSensorState_fields_witness :
    (wellFormed (schemaOf specDecls .ZHATemperature) (.valid (.obj temperatureState)) = true ∧
     (resolved (schemaOf specDecls .ZHATemperature) temperatureState).Nodup ∧
     findField (schemaOf specDecls .ZHATemperature) "temperature"
       = some ("Temperature", .scalar (.int 64)) ∧
     exactValue (.scalar (.int 64)) (.int false 2062) = some (.scalar (.int 2062))) ∧
    (∃ r, DecodeSensorState specDecls (.valid (.obj temperatureState)) "ZHATemperature"
        = (StateDef.ptr .ZHATemperature r, none) ∧
      r.get "Temperature" = some (.scalar (.int 2062))) ∧
    (∃ r, DecodeSensorState specDecls (.valid (.obj pressureState)) "ZHAPressure"
        = (StateDef.ptr .ZHAPressure r, none) ∧
      r.get "Pressure" = some (.scalar (.int 993))) ∧
    (∃ r, DecodeSensorState specDecls (.valid (.obj humidityState)) "ZHAHumidity"
        = (StateDef.ptr .ZHAHumidity r, none) ∧
      r.get "Humidity" = some (.scalar (.int 2985))) ∧
    (∃ r, DecodeSensorState specDecls (.valid (.obj switchState)) "ZHASwitch"
        = (StateDef.ptr .ZHASwitch r, none) ∧
      r.get "Buttonevent" = some (.scalar (.int 1000))) ∧
    (∃ r, DecodeSensorState specDecls (.valid (.obj switchState)) "ZHASwitch"
        = (StateDef.ptr .ZHASwitch r, none) ∧
      r.get "Lastupdated" = some (.scalar (.str "2018-03-20T20:52:18"))) :=
  ⟨⟨by decide, by decide, by decide, by decide⟩,
   DecodeSensorState_fields specDecls .ZHATemperature temperatureState "temperature"
     (.int false 2062) "Temperature" (.scalar (.int 64)) (.scalar (.int 2062))
     (by decide) (by decide) (by simp [temperatureState]) (by decide) (by decide),
   DecodeSensorState_fields specDecls .ZHAPressure pressureState "pressure"
     (.int false 993) "Pressure" (.scalar (.int 64)) (.scalar (.int 993))
     (by decide) (by decide) (by simp [pressureState]) (by decide) (by decide),
   DecodeSensorState_fields specDecls .ZHAHumidity humidityState "humidity"
     (.int false 2985) "Humidity" (.scalar (.int 64)) (.scalar (.int 2985))
     (by decide) (by decide) (by simp [humidityState]) (by decide) (by decide),
   DecodeSensorState_fields specDecls .ZHASwitch switchState "buttonevent"
     (.int false 1000) "Buttonevent" (.scalar (.int 64)) (.scalar (.int 1000))
     (by decide) (by decide) (by simp [switchState]) (by decide) (by decide),
   DecodeSensorState_fields specDecls .ZHASwitch switchState "lastupdated"
     (.str "2018-03-20T20:52:18") "Lastupdated" (.scalar .string)
     (.scalar (.str "2018-03-20T20:52:18"))
     (by decide) (by decide) (by simp [switchState]) (by decide) (by decide)⟩

/-! ## `Sensor.UnmarshalJSON` -/

/-- C4: when the sensor document decodes into the auxiliary struct without
error, its `lastseen` is empty or parses, and decoding the state fails, then
`Sensor.UnmarshalJSON` returns no error, the receiver has the `Type`, `Name`
and `Config` of the document, and its state is `EmptyState`. -/
theorem Sensor.UnmarshalJSON_degrades (D : Decls) (E : Env) (s : Sensor) (b : RawMessage)
    (aux : Aux)
    (hparse : Aux.Unmarshal b = (aux, none))
    (hseen : aux.LastSeen = "" ∨ ∃ t, E.parse "2006-01-02T15:04Z" aux.LastSeen = some t)
    (hfail : (DecodeSensorState D aux.State aux.Type').2 ≠ none) :
    (Sensor.UnmarshalJSON D E s b).2 = none ∧
    (Sensor.UnmarshalJSON D E s b).1.Type' = aux.Type' ∧
    (Sensor.UnmarshalJSON D E s b).1.Name = aux.Name ∧
    (Sensor.UnmarshalJSON D E s b).1.Config = aux.Config ∧
    (Sensor.UnmarshalJSON D E s b).1.StateDef = StateDef.EmptyState := by
  have hassign : ∀ s0 : Sensor,
      (Sensor.assign D s0 aux).2 = none ∧ (Sensor.assign D s0 aux).1.Type' = aux.Type' ∧
      (Sensor.assign D s0 aux).1.Name = aux.Name ∧
      (Sensor.assign D s0 aux).1.Config = aux.Config ∧
      (Sensor.assign D s0 aux).1.StateDef = StateDef.EmptyState := by
    intro s0
    unfold Sensor.assign
    split
    · rename_i state hdec
      rw [hdec] at hfail
      exact absurd rfl hfail
    · simp
  unfold Sensor.UnmarshalJSON
  rw [hparse]
  rcases hseen with hempty | ⟨t, ht⟩
  · simp only [hempty, ne_eq, not_true_eq_false, if_false]
    exact hassign s
  · by_cases hempty : aux.LastSeen = ""
    · simp only [hempty, ne_eq, not_true_eq_false, if_false]
      exact hassign s
    · simp only [ne_eq, hempty, not_false_eq_true, if_true, ht]
      exact hassign _

/-- Witness of C4: a document of the unknown type "ZHAFoo" (with a `lastseen`
that parses) and a thermostat document whose temperature is a string (without
`lastseen`). -/
theorem Sensor.UnmarshalJSON_degrades_witness :
    ((Aux.Unmarshal unknownDoc).2 = none ∧
     (DecodeSensorState specDecls (Aux.Unmarshal unknownDoc).1.State
        (Aux.Unmarshal unknownDoc).1.Type').2 ≠ none) ∧
    ((Sensor.UnmarshalJSON specDecls testEnv newSensor unknownDoc).2 = none ∧
     (Sensor.UnmarshalJSON specDecls testEnv newSensor unknownDoc).1.Type'
       = (Aux.Unmarshal unknownDoc).1.Type' ∧
     (Sensor.UnmarshalJSON specDecls testEnv newSensor unknownDoc).1.Name
       = (Aux.Unmarshal unknownDoc).1.Name ∧
     (Sensor.UnmarshalJSON specDecls testEnv newSensor unknownDoc).1.Config
       = (Aux.Unmarshal unknownDoc).1.Config ∧
     (Sensor.UnmarshalJSON specDecls testEnv newSensor unknownDoc).1.StateDef
       = StateDef.EmptyState) ∧
    ((Sensor.UnmarshalJSON specDecls testEnv newSensor badStateDoc).2 = none ∧
     (Sensor.UnmarshalJSON specDecls testEnv newSensor badStateDoc).1.Type'
       = (Aux.Unmarshal badStateDoc).1.Type' ∧
     (Sensor.UnmarshalJSON specDecls testEnv newSensor badStateDoc).1.Name
       = (Aux.Unmarshal badStateDoc).1.Name ∧
     (Sensor.UnmarshalJSON specDecls testEnv newSensor badStateDoc).1.Config
       = (Aux.Unmarshal badStateDoc).1.Config ∧
     (Sensor.UnmarshalJSON specDecls testEnv newSensor badStateDoc).1.StateDef
       = StateDef.EmptyState) :=
  ⟨⟨by decide, by decide⟩,
   Sensor.UnmarshalJSON_degrades specDecls testEnv newSensor unknownDoc
     (Aux.Unmarshal unknownDoc).1 rfl (Or.inr ⟨1520537700000000000, by decide⟩) (by decide),
   Sensor.UnmarshalJSON_degrades specDecls testEnv newSensor badStateDoc
     (Aux.Unmarshal badStateDoc).1 rfl (Or.inl (by decide)) (by decide)⟩

/-! ## `Sensor.Timeseries` -/

theorem Sensor.Timeseries_not_fielder (D : Decls) (E : Env) (s : Sensor)
    (h : s.StateDef.Fields D E = none) :
    s.Timeseries D E = .ret { tags := none, fields := none, err := some (.errorf
      ("this sensor (" ++ s.StateDef.typeName ++ ":" ++ s.Name ++ ") has no time series data")) } := by
  unfold Sensor.Timeseries
  rw [h]

theorem Sensor.Timeseries_fielder (D : Decls) (E : Env) (s : Sensor) (call : Run FieldMap)
    (h : s.StateDef.Fields D E = some call) :
    s.Timeseries D E = call.bind fun fields =>
      (specialCases s (injectBattery s fields)).bind fun fields =>
        .ret { tags := some s.tags, fields := some fields, err := none } := by
  unfold Sensor.Timeseries
  rw [h]

theorem Sensor.Timeseries_fielder_ret (D : Decls) (E : Env) (s : Sensor) (call : Run FieldMap)
    (res : Results) (h : s.StateDef.Fields D E = some call) (hres : s.Timeseries D E = .ret res) :
    ∃ base fields, call = .ret base ∧ specialCases s (injectBattery s base) = .ret fields ∧
      res = { tags := some s.tags, fields := some fields, err := none } := by
  rw [Sensor.Timeseries_fielder D E s call h] at hres
  cases call with
  | panic p => simp [Run.bind] at hres
  | ret base =>
    simp only [Run.bind] at hres
    cases hsc : specialCases s (injectBattery s base) with
    | panic p => rw [hsc] at hres; simp at hres
    | ret fields =>
      rw [hsc] at hres
      simp only [Run.ret.injEq] at hres
      exact ⟨base, fields, rfl, hsc, hres.symm⟩

theorem specialCases_other (s : Sensor) (fields : FieldMap) (h : s.Type' ≠ "ZHAThermostat") :
    specialCases s fields = .ret fields := by
  simp [specialCases, h]

theorem specialCases_thermostat (s : Sensor) (fields : FieldMap) (hs : Int) (m : String)
    (o x : Int) (hty : s.Type' = "ZHAThermostat")
    (h1 : s.Config.HeatSetpoint = some hs) (h2 : s.Config.Mode = some m)
    (h3 : s.Config.Offset = some o) (h4 : s.Config.ExternalSensorTemp = some x) :
    specialCases s fields =
      .ret ((((fields.set "heatsetpoint" (.float64 hs 100)).set "mode" (.string m)).set
        "offset" (.float64 o 100)).set "externalsensortemp" (.float64 x 100)) := by
  simp [specialCases, hty, h1, h2, h3, h4, deref, Run.bind]

theorem specialCases_incomplete (s : Sensor) (fields : FieldMap)
    (hty : s.Type' = "ZHAThermostat")
    (h : s.Config.HeatSetpoint = none ∨ s.Config.Mode = none ∨ s.Config.Offset = none ∨
      s.Config.ExternalSensorTemp = none) :
    specialCases s fields = .panic .nilDereference := by
  unfold specialCases
  rw [if_pos hty]
  cases h1 : s.Config.HeatSetpoint <;> cases h2 : s.Config.Mode <;>
    cases h3 : s.Config.Offset <;> cases h4 : s.Config.ExternalSensorTemp <;>
    simp_all [deref, Run.bind]

theorem specialCases_get (s : Sensor) (fields fields' : FieldMap) (k : String)
    (h : specialCases s fields = .ret fields')
    (hk : k ∉ ["heatsetpoint", "mode", "offset", "externalsensortemp"]) :
    fields'.get k = fields.get k := by
  simp only [List.mem_cons, List.mem_singleton, List.mem_nil_iff, or_false, not_or] at hk
  obtain ⟨k1, k2, k3, k4⟩ := hk
  by_cases hty : s.Type' = "ZHAThermostat"
  · cases h1 : s.Config.HeatSetpoint with
    | none => rw [specialCases_incomplete s fields hty (Or.inl h1)] at h; cases h
    | some hs =>
      cases h2 : s.Config.Mode with
      | none => rw [specialCases_incomplete s fields hty (Or.inr (Or.inl h2))] at h; cases h
      | some m =>
        cases h3 : s.Config.Offset with
        | none =>
          rw [specialCases_incomplete s fields hty (Or.inr (Or.inr (Or.inl h3)))] at h; cases h
        | some o =>
          cases h4 : s.Config.ExternalSensorTemp with
          | none =>
            rw [specialCases_incomplete s fields hty (Or.inr (Or.inr (Or.inr h4)))] at h
            cases h
          | some x =>
            rw [specialCases_thermostat s fields hs m o x hty h1 h2 h3 h4] at h
            simp only [Run.ret.injEq] at h
            rw [← h, GoMap.get_set_ne _ _ _ _ k4, GoMap.get_set_ne _ _ _ _ k3,
              GoMap.get_set_ne _ _ _ _ k2, GoMap.get_set_ne _ _ _ _ k1]
  · rw [specialCases_other s fields hty] at h
    simp only [Run.ret.injEq] at h
    rw [h]

/-- C5: `Sensor.Timeseries` returns the "has no time series data" error, with
neither tags nor fields, exactly when the state is not a `Fielder`; when the
state is a `Fielder` every result it returns carries tags and fields and no
error.  The nil state and `EmptyState` are not `Fielder`s; a pointer to a
variant (`ZHAThermostat` and `ZHAVibration` among them) is. -/
theorem Sensor.Timeseries_no_data_iff (D : Decls) (E : Env) (s : Sensor) :
    (s.Timeseries D E = .ret { tags := none, fields := none, err := some (.errorf
        ("this sensor (" ++ s.StateDef.typeName ++ ":" ++ s.Name ++ ") has no time series data")) }
      ↔ s.StateDef.Fields D E = none) ∧
    (∀ res, s.Timeseries D E = .ret res →
      (res.err ≠ none ↔ s.StateDef.Fields D E = none) ∧
      (res.err ≠ none → res.tags = none ∧ res.fields = none)) ∧
    (s.StateDef = .nil ∨ s.StateDef = .EmptyState → s.StateDef.Fields D E = none) ∧
    (∀ k r, s.StateDef = .ptr k r → s.StateDef.Fields D E ≠ none) := by
  have hfielder : ∀ call res, s.StateDef.Fields D E = some call →
      s.Timeseries D E = .ret res → res.err = none := by
    intro call res hcall hres
    obtain ⟨base, fields, _, _, hr⟩ := Sensor.Timeseries_fielder_ret D E s call res hcall hres
    rw [hr]
  refine ⟨⟨?_, Sensor.Timeseries_not_fielder D E s⟩, ?_, ?_, ?_⟩
  · intro h
    cases hf : s.StateDef.Fields D E with
    | none => rfl
    | some call =>
      have := hfielder call _ hf h
      simp at this
  · intro res hres
    cases hf : s.StateDef.Fields D E with
    | none =>
      rw [Sensor.Timeseries_not_fielder D E s hf] at hres
      simp only [Run.ret.injEq] at hres
      subst hres
      simp
    | some call =>
      have herr := hfielder call res hf hres
      simp [herr]
  · rintro (h | h) <;> rw [h] <;> rfl
  · intro k r h
    rw [h]
    cases k <;> simp [StateDef.Fields]

/-- Witness of C5: a sensor without state, the sensor decoded from a document of
unknown type (state `EmptyState`), and the decoded thermostat. -/
theorem Sensor.Timeseries_no_data_iff_witness :
    newSensor.Timeseries specDecls testEnv
      = .ret { tags := none, fields := none,
               err := some (.errorf "this sensor (<nil>:) has no time series data") } ∧
    (Sensor.UnmarshalJSON specDecls testEnv newSensor unknownDoc).1.Timeseries specDecls testEnv
      = .ret { tags := none, fields := none,
               err := some (.errorf
                 "this sensor (sensor.EmptyState:foo) has no time series data") } ∧
    thermostatSensor.StateDef.Fields specDecls testEnv ≠ none :=
  ⟨((Sensor.Timeseries_no_data_iff specDecls testEnv newSensor).1).2 (by decide),
   ((Sensor.Timeseries_no_data_iff specDecls testEnv
      (Sensor.UnmarshalJSON specDecls testEnv newSensor unknownDoc).1).1).2 (by decide),
   (Sensor.Timeseries_no_data_iff specDecls testEnv thermostatSensor).2.2.2
     .ZHAThermostat
     [("Lastupdated", .scalar (.str "2018-03-08T19:35:24")),
      ("Temperature", .scalar (.int 2062)), ("Valve", .scalar (.int 30))]
     (by decide)⟩

/-- C6: when `Sensor.Timeseries` returns without error, the tag map is the map
literal of the four keys `name`, `type`, `id`, `source`, holding the sensor's
`Name`, its `Type`, the decimal rendering of its `ID`, and "rest"; no other key
is present. -/
theorem Sensor.Timeseries_tags (D : Decls) (E : Env) (s : Sensor) (res : Results)
    (h : s.Timeseries D E = .ret res) (hok : res.err = none) :
    ∃ tags : TagMap, res.tags = some tags ∧
      tags = [("name", s.Name), ("type", s.Type'), ("id", Itoa s.ID), ("source", "rest")] ∧
      tags.get "name" = some s.Name ∧
      tags.get "type" = some s.Type' ∧
      tags.get "id" = some (toString s.ID) ∧
      tags.get "source" = some "rest" ∧
      ∀ k, k ∉ ["name", "type", "id", "source"] → tags.get k = none := by
  cases hf : s.StateDef.Fields D E with
  | none =>
    rw [Sensor.Timeseries_not_fielder D E s hf] at h
    simp only [Run.ret.injEq] at h
    subst h
    simp at hok
  | some call =>
    obtain ⟨base, fields, _, _, hr⟩ := Sensor.Timeseries_fielder_ret D E s call res hf h
    refine ⟨s.tags, by rw [hr], rfl, ?_, ?_, ?_, ?_, ?_⟩
    · simp [Sensor.tags, GoMap.get]
    · simp [Sensor.tags, GoMap.get]
    · simp [Sensor.tags, GoMap.get, Itoa]
    · simp [Sensor.tags, GoMap.get]
    · intro k hk
      simp only [List.mem_cons, List.mem_singleton, List.mem_nil_iff, or_false, not_or] at hk
      obtain ⟨k1, k2, k3, k4⟩ := hk
      simp [Sensor.tags, GoMap.get, Ne.symm k1, Ne.symm k2, Ne.symm k3, Ne.symm k4]

/-- C7: when `Sensor.Timeseries` returns without error, the state's `Fields()`
returned some base fields `base`, and the returned fields keep a `battery` entry
of `base` unchanged; when `base` has none they hold `battery` as the `int`
conversion of the config's `Battery`. -/
theorem Sensor.Timeseries_battery (D : Decls) (E : Env) (s : Sensor) (res : Results)
    (h : s.Timeseries D E = .ret res) (hok : res.err = none) :
    ∃ base fields : FieldMap,
      s.StateDef.Fields D E = some (.ret base) ∧ res.fields = some fields ∧
      (∀ v, base.get "battery" = some v → fields.get "battery" = some v) ∧
      (base.get "battery" = none →
        fields.get "battery" = some (.int .int (s.Config.Battery : Int))) := by
  cases hf : s.StateDef.Fields D E with
  | none =>
    rw [Sensor.Timeseries_not_fielder D E s hf] at h
    simp only [Run.ret.injEq] at h
    subst h
    simp at hok
  | some call =>
    obtain ⟨base, fields, hb, hsc, hr⟩ := Sensor.Timeseries_fielder_ret D E s call res hf h
    subst hb
    have hget := specialCases_get s _ fields "battery" hsc (by decide)
    refine ⟨base, fields, rfl, by rw [hr], ?_, ?_⟩
    · intro v hv
      rw [hget]
      simp [injectBattery, hv]
    · intro hv
      rw [hget]
      simp [injectBattery, hv, GoMap.get_set_eq]

/-- Witness of C6: the decoded thermostat (id 7). -/
theorem Sensor.Timeseries_tags_witness :
    (thermostatSensor.Timeseries specDecls testEnv = .ret thermostatResults ∧
     thermostatResults.err = none) ∧
    ∃ tags : TagMap, thermostatResults.tags = some tags ∧
      tags = [("name", thermostatSensor.Name), ("type", thermostatSensor.Type'),
              ("id", Itoa thermostatSensor.ID), ("source", "rest")] ∧
      tags.get "name" = some thermostatSensor.Name ∧
      tags.get "type" = some thermostatSensor.Type' ∧
      tags.get "id" = some (toString thermostatSensor.ID) ∧
      tags.get "source" = some "rest" ∧
      ∀ k, k ∉ ["name", "type", "id", "source"] → tags.get k = none :=
  ⟨⟨by decide, rfl⟩,
   Sensor.Timeseries_tags specDecls testEnv thermostatSensor thermostatResults (by decide) rfl⟩

/-- Witness of C7: the decoded battery sensor, whose state supplies `battery`
(64, kept although the config says 80), and the decoded vibration sensor, whose
state does not (55 is taken from the config). -/
theorem Sensor.Timeseries_battery_witness :
    (batterySensor.Timeseries specDecls testEnv = .ret batteryResults ∧
     vibrationFullSensor.Timeseries specDecls testEnv = .ret vibrationFullResults) ∧
    (∃ base fields : FieldMap,
      batterySensor.StateDef.Fields specDecls testEnv = some (.ret base) ∧
      batteryResults.fields = some fields ∧
      (∀ v, base.get "battery" = some v → fields.get "battery" = some v) ∧
      (base.get "battery" = none →
        fields.get "battery" = some (.int .int (batterySensor.Config.Battery : Int)))) ∧
    (∃ base fields : FieldMap,
      vibrationFullSensor.StateDef.Fields specDecls testEnv = some (.ret base) ∧
      vibrationFullResults.fields = some fields ∧
      (∀ v, base.get "battery" = some v → fields.get "battery" = some v) ∧
      (base.get "battery" = none →
        fields.get "battery" = some (.int .int (vibrationFullSensor.Config.Battery : Int)))) :=
  ⟨⟨by decide, by decide⟩,
   Sensor.Timeseries_battery specDecls testEnv batterySensor batteryResults (by decide) rfl,
   Sensor.Timeseries_battery specDecls testEnv vibrationFullSensor vibrationFullResults
     (by decide) rfl⟩

theorem Sensor.Timeseries_incomplete (D : Decls) (E : Env) (s : Sensor) (base : FieldMap)
    (hty : s.Type' = "ZHAThermostat")
    (hbase : s.StateDef.Fields D E = some (.ret base))
    (h : s.Config.HeatSetpoint = none ∨ s.Config.Mode = none ∨ s.Config.Offset = none ∨
      s.Config.ExternalSensorTemp = none) :
    s.Timeseries D E = .panic .nilDereference := by
  rw [Sensor.Timeseries_fielder D E s _ hbase]
  simp [Run.bind, specialCases_incomplete s _ hty h]

theorem Sensor.Timeseries_other (D : Decls) (E : Env) (s : Sensor) (base : FieldMap)
    (hty : s.Type' ≠ "ZHAThermostat")
    (hbase : s.StateDef.Fields D E = some (.ret base)) :
    s.Timeseries D E
      = .ret { tags := some s.tags, fields := some (injectBattery s base), err := none } := by
  rw [Sensor.Timeseries_fielder D E s _ hbase]
  simp [Run.bind, specialCases_other s _ hty]

theorem Sensor.Timeseries_fields_panic (D : Decls) (E : Env) (s : Sensor) (p : Panic)
    (hbase : s.StateDef.Fields D E = some (.panic p)) :
    s.Timeseries D E = .panic p := by
  rw [Sensor.Timeseries_fielder D E s _ hbase]
  rfl

theorem ZHAThermostat_state_Fields (D : Decls) (E : Env) (r : Record) :
    (StateDef.ptr .ZHAThermostat r).Fields D E
      = some (.ret ((ZHAThermostat.ofRecord r).Fields E)) := rfl

/-- C8 (the code at the failing input): the thermostat document whose config has
no `mode` decodes without error into a sensor of type "ZHAThermostat" whose
state is a `Fielder` and whose `Mode` pointer is nil; `Timeseries` on it ends in
a nil dereference instead of returning an error. -/
theorem Sensor.Timeseries_nil_config_panics :
    (Sensor.UnmarshalJSON specDecls testEnv newSensor thermostatNoModeDoc).2 = none ∧
    thermostatNoModeSensor.Type' = "ZHAThermostat" ∧
    thermostatNoModeSensor.StateDef.Fields specDecls testEnv ≠ none ∧
    thermostatNoModeSensor.Config.Mode = none ∧
    thermostatNoModeSensor.Timeseries specDecls testEnv = .panic .nilDereference := by
  refine ⟨by decide, by decide, by decide, by decide, by decide⟩

/-- C9 (counterexample): the sensor value of type "ZHAThermostat" whose state is
a `*ZHAVibration` without orientation has a state that is a `Fielder` and a
config with all four values, and `Timeseries` on it does not succeed: it ends
in the index panic of `ZHAVibration.Fields`. -/
theorem Sensor.Timeseries_thermostat_fielder_panics :
    mixedSensor.Type' = "ZHAThermostat" ∧
    mixedSensor.StateDef.Fields specDecls testEnv ≠ none ∧
    mixedSensor.Config.HeatSetpoint = some 2100 ∧
    mixedSensor.Config.Mode = some "auto" ∧
    mixedSensor.Config.Offset = some 0 ∧
    mixedSensor.Config.ExternalSensorTemp = some 1950 ∧
    mixedSensor.Timeseries specDecls testEnv = .panic (.indexOutOfRange 0 0) ∧
    ¬ ∃ res, mixedSensor.Timeseries specDecls testEnv = .ret res := by
  refine ⟨by decide, by decide, by decide, by decide, by decide, by decide, by decide, ?_⟩
  rintro ⟨res, hres⟩
  have hp : mixedSensor.Timeseries specDecls testEnv = .panic (.indexOutOfRange 0 0) := by
    decide
  rw [hp] at hres
  exact Run.noConfusion hres

/-- C9 (amended): for a sensor of type "ZHAThermostat" whose config has all four
values, whenever the state's `Fields()` returns base fields `base`, `Timeseries`
returns without error the four tags and a field map in which `heatsetpoint`,
`mode`, `offset` and `externalsensortemp` hold `float64(HeatSetpoint)/100`, the
`Mode` string, `float64(Offset)/100` and `float64(ExternalSensorTemp)/100`,
`battery` holds the value of `base` if `base` has one and `int(Config.Battery)`
otherwise, and every other key is present exactly when `base` has it, with the
value of `base`.  The `Fields()` of a `ZHAThermostat` state always returns. -/
theorem Sensor.Timeseries_thermostat (D : Decls) (E : Env) (s : Sensor)
    (hs : Int) (m : String) (o x : Int)
    (hty : s.Type' = "ZHAThermostat")
    (h1 : s.Config.HeatSetpoint = some hs) (h2 : s.Config.Mode = some m)
    (h3 : s.Config.Offset = some o) (h4 : s.Config.ExternalSensorTemp = some x) :
    (∀ base, s.StateDef.Fields D E = some (.ret base) →
      ∃ fields : FieldMap,
        s.Timeseries D E
          = .ret { tags := some [("name", s.Name), ("type", "ZHAThermostat"),
                                 ("id", Itoa s.ID), ("source", "rest")],
                   fields := some fields, err := none } ∧
        fields.get "heatsetpoint" = some (.float64 hs 100) ∧
        fields.get "mode" = some (.string m) ∧
        fields.get "offset" = some (.float64 o 100) ∧
        fields.get "externalsensortemp" = some (.float64 x 100) ∧
        fields.get "battery" = (match base.get "battery" with
          | some v => some v
          | none => some (.int .int (s.Config.Battery : Int))) ∧
        ∀ k, k ∉ ["heatsetpoint", "mode", "offset", "externalsensortemp", "battery"] →
          fields.get k = base.get k) ∧
    (∀ r, s.StateDef = .ptr .ZHAThermostat r →
      s.StateDef.Fields D E = some (.ret ((ZHAThermostat.ofRecord r).Fields E))) := by
  constructor
  · intro base hbase
    have hsc := specialCases_thermostat s (injectBattery s base) hs m o x hty h1 h2 h3 h4
    refine ⟨((((injectBattery s base).set "heatsetpoint" (.float64 hs 100)).set "mode"
      (.string m)).set "offset" (.float64 o 100)).set "externalsensortemp" (.float64 x 100),
      ?_, ?_, ?_, ?_, ?_, ?_, ?_⟩
    · rw [Sensor.Timeseries_fielder D E s _ hbase]
      simp only [Run.bind, hsc, Sensor.tags, hty]
    · rw [GoMap.get_set_ne _ _ _ _ (by decide), GoMap.get_set_ne _ _ _ _ (by decide),
        GoMap.get_set_ne _ _ _ _ (by decide), GoMap.get_set_eq]
    · rw [GoMap.get_set_ne _ _ _ _ (by decide), GoMap.get_set_ne _ _ _ _ (by decide),
        GoMap.get_set_eq]
    · rw [GoMap.get_set_ne _ _ _ _ (by decide), GoMap.get_set_eq]
    · rw [GoMap.get_set_eq]
    · rw [specialCases_get s _ _ "battery" hsc (by decide)]
      unfold injectBattery
      cases hb : base.get "battery" with
      | some v => simp [hb]
      | none => simp [GoMap.get_set_eq]
    · intro k hk
      have hk4 : k ∉ ["heatsetpoint", "mode", "offset", "externalsensortemp"] := by
        intro hmem
        apply hk
        simp only [List.mem_cons, List.mem_singleton, List.not_mem_nil, or_false] at hmem ⊢
        tauto
      have hkb : k ≠ "battery" := by
        intro heq
        apply hk
        simp [heq]
      rw [specialCases_get s _ _ k hsc hk4]
      unfold injectBattery
      split
      · rfl
      · exact GoMap.get_set_ne _ _ _ _ hkb
  · intro r hr
    rw [hr]
    exact ZHAThermostat_state_Fields D E r

/-- Witness of C9: the decoded thermostat (heat setpoint 2100, mode "auto",
offset 0, external sensor temperature 1950, battery 80), whose state gives
`age_secs`, `temperature` and `valve`; `Timeseries` returns the eight fields of
`thermostatResults`. -/
theorem Sensor.Timeseries_thermostat_witness :
    (thermostatSensor.Type' = "ZHAThermostat" ∧
     thermostatSensor.Config.HeatSetpoint = some 2100 ∧
     thermostatSensor.Config.Mode = some "auto" ∧
     thermostatSensor.Config.Offset = some 0 ∧
     thermostatSensor.Config.ExternalSensorTemp = some 1950 ∧
     thermostatSensor.StateDef.Fields specDecls testEnv
       = some (.ret [("age_secs", .int .int64 36), ("temperature", .float64 2062 100),
                     ("valve", .int .int 30)]) ∧
     thermostatSensor.Timeseries specDecls testEnv = .ret thermostatResults) ∧
    ∃ fields : FieldMap,
      thermostatSensor.Timeseries specDecls testEnv
        = .ret { tags := some [("name", thermostatSensor.Name), ("type", "ZHAThermostat"),
                               ("id", Itoa thermostatSensor.ID), ("source", "rest")],
                 fields := some fields, err := none } ∧
      fields.get "heatsetpoint" = some (.float64 2100 100) ∧
      fields.get "mode" = some (.string "auto") ∧
      fields.get "offset" = some (.float64 0 100) ∧
      fields.get "externalsensortemp" = some (.float64 1950 100) ∧
      fields.get "battery" = (match
          GoMap.get [("age_secs", FieldValue.int .int64 36), ("temperature", .float64 2062 100),
            ("valve", .int .int 30)] "battery" with
        | some v => some v
        | none => some (.int .int (thermostatSensor.Config.Battery : Int))) ∧
      ∀ k, k ∉ ["heatsetpoint", "mode", "offset", "externalsensortemp", "battery"] →
        fields.get k = GoMap.get [("age_secs", FieldValue.int .int64 36),
          ("temperature", .float64 2062 100), ("valve", .int .int 30)] k :=
  ⟨⟨by decide, by decide, by decide, by decide, by decide, by decide, by decide⟩,
   (Sensor.Timeseries_thermostat specDecls testEnv thermostatSensor 2100 "auto" 0 1950
      (by decide) (by decide) (by decide) (by decide) (by decide)).1
      [("age_secs", .int .int64 36), ("temperature", .float64 2062 100), ("valve", .int .int 30)]
      (by decide)⟩

/-- C10 (the code at the failing input): the vibration sensor document whose
state has no `orientation` decodes without error into a sensor whose type is
not "ZHAThermostat" and whose state is a `Fielder`; `Timeseries` on it ends in
an index-out-of-range panic raised by `ZHAVibration.Fields` instead of
returning. -/
theorem Sensor.Timeseries_vibration_panics :
    (Sensor.UnmarshalJSON specDecls testEnv newSensor vibrationDoc).2 = none ∧
    vibrationSensor.Type' ≠ "ZHAThermostat" ∧
    vibrationSensor.StateDef
      = .ptr .ZHAVibration
          [("Lastupdated", .scalar (.str "2018-03-08T19:35:24")),
           ("Vibration", .scalar (.bool true)), ("Tiltangle", .scalar (.int 0)),
           ("Vibrationstrength", .scalar (.int 0)), ("Orientation", .slice [])] ∧
    vibrationSensor.StateDef.Fields specDecls testEnv
      = some (.panic (.indexOutOfRange 0 0)) ∧
    vibrationSensor.Timeseries specDecls testEnv = .panic (.indexOutOfRange 0 0) := by
  refine ⟨by decide, by decide, by decide, by decide, by decide⟩

/-! ## `mergeFields` -/

theorem GoMap.get_isSome_of_mem {V : Type} (m : GoMap V) (k : String) (v : V)
    (h : (k, v) ∈ m) : (m.get k).isSome = true := by
  induction m with
  | nil => simp at h
  | cons e rest ih =>
    obtain ⟨n, w⟩ := e
    by_cases hn : n = k
    · simp [GoMap.get, hn]
    · have hrest : (k, v) ∈ rest := by
        rcases List.mem_cons.mp h with heq | hin
        · exact absurd (congrArg Prod.fst heq).symm hn
        · exact hin
      simp [GoMap.get, hn, ih hrest]

theorem mergeFields_get (s : FieldMap) :
    ∀ (p : FieldMap) (k : String),
      (mergeFields p s).get k = match p.get k with
        | some v => some v
        | none => s.get k := by
  induction s with
  | nil =>
    intro p k
    cases h : p.get k <;> simp [mergeFields, h, GoMap.get]
  | cons e rest ih =>
    intro p k
    obtain ⟨n, w⟩ := e
    have hstep : mergeFields p ((n, w) :: rest) = mergeFields (mergeEntry p (n, w)) rest := rfl
    rw [hstep, ih]
    by_cases hp : (p.get n).isSome = true
    · have hme : mergeEntry p (n, w) = p := by simp [mergeEntry, hp]
      rw [hme]
      cases hk : p.get k with
      | some v => rfl
      | none =>
        have hne : n ≠ k := by
          intro heq
          rw [heq, hk] at hp
          simp at hp
        simp [GoMap.get, hne]
    · have hme : mergeEntry p (n, w) = p.set n w := by simp [mergeEntry, hp]
      rw [hme]
      by_cases hkn : k = n
      · subst hkn
        have hnone : p.get k = none := by
          cases h : p.get k with
          | none => rfl
          | some v => rw [h] at hp; simp at hp
        simp [GoMap.get_set_eq, hnone, GoMap.get]
      · rw [GoMap.get_set_ne _ _ _ _ hkn]
        cases hk : p.get k with
        | some v => rfl
        | none => simp [GoMap.get, Ne.symm hkn]

theorem foldl_mergeEntryAt_ne (p : Nat) (entries : List (String × FieldValue)) :
    ∀ (h : MapHeap) (c : Nat), c ≠ p → (entries.foldl (mergeEntryAt p) h) c = h c := by
  induction entries with
  | nil => intro h c _; rfl
  | cons e rest ih =>
    intro h c hc
    simp only [List.foldl_cons]
    rw [ih _ c hc]
    unfold mergeEntryAt
    split
    · rfl
    · simp [MapHeap.write, hc]

theorem foldl_mergeEntryAt_self (p : Nat) (entries : List (String × FieldValue)) :
    ∀ (h : MapHeap), (entries.foldl (mergeEntryAt p) h) p = entries.foldl mergeEntry (h p) := by
  induction entries with
  | nil => intro h; rfl
  | cons e rest ih =>
    intro h
    simp only [List.foldl_cons]
    rw [ih]
    congr 1
    unfold mergeEntryAt mergeEntry
    split <;> simp [MapHeap.write]

theorem foldl_mergeEntry_present (entries : List (String × FieldValue)) :
    ∀ (p : FieldMap), (∀ e ∈ entries, (p.get e.1).isSome = true) →
      entries.foldl mergeEntry p = p := by
  induction entries with
  | nil => intro p _; rfl
  | cons e rest ih =>
    intro p hall
    simp only [List.foldl_cons]
    have he : mergeEntry p e = p := by
      simp [mergeEntry, hall e (List.mem_cons_self _ _)]
    rw [he]
    exact ih p (fun e' he' => hall e' (List.mem_cons_of_mem _ he'))

theorem mergeFields_allocated (p s : FieldMap) :
    (∀ k, ((mergeFields p s).get k).isSome = true ↔
      ((p.get k).isSome = true ∨ (s.get k).isSome = true)) ∧
    (∀ k v, p.get k = some v → (mergeFields p s).get k = some v) ∧
    (∀ k, p.get k = none → (mergeFields p s).get k = s.get k) ∧
    (∀ (h : MapHeap) (a b : Nat), h a = p → h b = s →
      (mergeFieldsAt h a b).2 = a ∧
      (mergeFieldsAt h a b).1 a = mergeFields p s ∧
      (mergeFieldsAt h a b).1 b = s ∧
      ∀ c, c ≠ a → (mergeFieldsAt h a b).1 c = h c) := by
  refine ⟨?_, ?_, ?_, ?_⟩
  · intro k
    rw [mergeFields_get]
    cases hp : p.get k <;> simp
  · intro k v hv
    rw [mergeFields_get, hv]
  · intro k hk
    rw [mergeFields_get, hk]
  · intro h a b ha hb
    have hself : (mergeFieldsAt h a b).1 a = mergeFields p s := by
      simp only [mergeFieldsAt]
      rw [foldl_mergeEntryAt_self, ha, hb]
      rfl
    refine ⟨rfl, hself, ?_, ?_⟩
    · by_cases hab : b = a
      · subst hab
        rw [hself]
        have hps : p = s := by rw [← ha, ← hb]
        subst hps
        exact foldl_mergeEntry_present p p
          (fun e he => GoMap.get_isSome_of_mem p e.1 e.2 he)
      · simp only [mergeFieldsAt]
        rw [foldl_mergeEntryAt_ne a _ h b hab, hb]
    · intro c hc
      simp only [mergeFieldsAt]
      exact foldl_mergeEntryAt_ne a _ h c hc

theorem foldl_mergeEntryRef_some (a : Nat) (entries : List (String × FieldValue)) :
    ∀ h : MapHeap,
      entries.foldl
          (fun (acc : Run MapHeap) entry => acc.bind fun h => mergeEntryRef (some a) h entry)
          (.ret h)
        = .ret (entries.foldl (mergeEntryAt a) h) := by
  induction entries with
  | nil => intro h; rfl
  | cons e rest ih =>
    intro h
    simp only [List.foldl_cons]
    exact ih (mergeEntryAt a h e)

theorem foldl_bind_panic (f : MapHeap → String × FieldValue → Run MapHeap) (p : Panic)
    (entries : List (String × FieldValue)) :
    entries.foldl (fun (acc : Run MapHeap) entry => acc.bind fun h => f h entry) (.panic p)
      = .panic p := by
  induction entries with
  | nil => rfl
  | cons e rest ih =>
    simp only [List.foldl_cons]
    exact ih

/-- The call `mergeFields(nil, s)`: it returns nil when `s` has no entry and
panics otherwise. -/
theorem mergeFieldsRef_nil (h : MapHeap) (s : MapRef) :
    (h.entries s = [] → mergeFieldsRef h none s = .ret (h, none)) ∧
    (h.entries s ≠ [] → mergeFieldsRef h none s = .panic .assignNilMap) := by
  constructor
  · intro hs
    unfold mergeFieldsRef
    rw [hs]
    rfl
  · intro hs
    unfold mergeFieldsRef
    cases hentries : h.entries s with
    | nil => exact absurd hentries hs
    | cons e rest =>
      simp only [List.foldl_cons]
      have hfirst : (Run.ret h).bind (fun h => mergeEntryRef none h e)
          = .panic .assignNilMap := rfl
      rw [hfirst, foldl_bind_panic]
      rfl

/-- C11 (counterexample): with `p` nil and `s` the map with the one entry
`a = true`, `mergeFields(p, s)` does not return a map: it panics on the
assignment to an entry of the nil map. -/
theorem mergeFields_nil_panics :
    singleHeap.entries (some 0) = [("a", .bool true)] ∧
    mergeFieldsRef singleHeap none (some 0) = .panic .assignNilMap ∧
    ¬ ∃ r, mergeFieldsRef singleHeap none (some 0) = .ret r := by
  have hp : mergeFieldsRef singleHeap none (some 0) = .panic .assignNilMap := rfl
  refine ⟨by decide, hp, ?_⟩
  rintro ⟨r, hr⟩
  rw [hp] at hr
  exact Run.noConfusion hr

/-- C11 (amended): for every map `p` that is not nil (the map at address `a`)
and every `s` (nil, another map, or the same map as `p`), `mergeFields(p, s)`
returns without panic the reference `p`, whose map now has a key exactly when
`p` or `s` had it, maps every key of `p` to the value of `p` and every key that
only `s` has to the value of `s`; it is the map that `mergeFields` on entries
gives.  The entries of `s` and every map other than `p` are as they were. -/
theorem mergeFields_nonnil (h : MapHeap) (a : Nat) (s : MapRef) :
    ∃ h' : MapHeap,
      mergeFieldsRef h (some a) s = .ret (h', some a) ∧
      (∀ k, ((h' a).get k).isSome = true ↔
        (((h a).get k).isSome = true ∨ ((h.entries s).get k).isSome = true)) ∧
      (∀ k v, (h a).get k = some v → (h' a).get k = some v) ∧
      (∀ k, (h a).get k = none → (h' a).get k = (h.entries s).get k) ∧
      h' a = mergeFields (h a) (h.entries s) ∧
      h'.entries s = h.entries s ∧
      ∀ c, c ≠ a → h' c = h c := by
  have hself : ((h.entries s).foldl (mergeEntryAt a) h) a = mergeFields (h a) (h.entries s) := by
    rw [foldl_mergeEntryAt_self]
    rfl
  obtain ⟨hkeys, hp, hs, _⟩ := mergeFields_allocated (h a) (h.entries s)
  refine ⟨(h.entries s).foldl (mergeEntryAt a) h, ?_, ?_, ?_, ?_, hself, ?_, ?_⟩
  · unfold mergeFieldsRef
    rw [foldl_mergeEntryRef_some]
    rfl
  · intro k
    rw [hself]
    exact hkeys k
  · intro k v hv
    rw [hself]
    exact hp k v hv
  · intro k hk
    rw [hself]
    exact hs k hk
  · cases s with
    | none => rfl
    | some b =>
      show ((h b).foldl (mergeEntryAt a) h) b = h b
      by_cases hab : b = a
      · subst hab
        rw [foldl_mergeEntryAt_self]
        exact foldl_mergeEntry_present (h b) (h b)
          (fun e he => GoMap.get_isSome_of_mem (h b) e.1 e.2 he)
      · exact foldl_mergeEntryAt_ne a _ h b hab
  · intro c hc
    exact foldl_mergeEntryAt_ne a _ h c hc

/-! ## `Duration.Seconds` and `State.Fields` -/

theorem binLogAux_spec (fuel : Nat) :
    ∀ n, n ≤ fuel → 0 < n → 2 ^ binLogAux fuel n ≤ n ∧ n < 2 ^ (binLogAux fuel n + 1) := by
  induction fuel with
  | zero => intro n h1 h2; omega
  | succ f ih =>
    intro n hn hpos
    unfold binLogAux
    by_cases h2 : 2 ≤ n
    · rw [if_pos h2]
      have hdiv := Nat.div_add_mod n 2
      have hmod := Nat.mod_lt n (show 0 < 2 by decide)
      obtain ⟨ih1, ih2⟩ := ih (n / 2) (by omega) (by omega)
      rw [pow_succ] at ih2
      constructor
      · rw [pow_succ]; omega
      · rw [pow_succ, pow_succ]; omega
    · rw [if_neg h2]
      constructor <;> simp <;> omega

theorem binLog_spec (n : Nat) (h : 0 < n) : 2 ^ binLog n ≤ n ∧ n < 2 ^ (binLog n + 1) :=
  binLogAux_spec n n (le_refl n) h

theorem roundHalfEven_ge (a b n : Nat) (hb : 0 < b) (h : n * b ≤ a) :
    n ≤ roundHalfEven a b := by
  have hq : n ≤ a / b := (Nat.le_div_iff_mul_le hb).mpr h
  unfold roundHalfEven
  split
  · exact hq
  · split
    · omega
    · split <;> omega

theorem roundHalfEven_le (a b n : Nat) (hb : 0 < b) (h : 2 * a < (2 * n + 1) * b) :
    roundHalfEven a b ≤ n := by
  have hdm := Nat.div_add_mod a b
  have hr := Nat.mod_lt a hb
  have hq : a / b ≤ n := by
    by_contra hcon
    have h1 : n + 1 ≤ a / b := by omega
    have h2 : b * (n + 1) ≤ b * (a / b) := Nat.mul_le_mul_left b h1
    have h3 : b * (n + 1) = b * n + b := by ring
    have h4 : (2 * n + 1) * b = 2 * (b * n) + b := by ring
    rw [h4] at h
    rw [h3] at h2
    omega
  unfold roundHalfEven
  split
  · exact hq
  · rename_i hlt
    have hne : a / b ≠ n := by
      intro heq
      rw [heq] at hdm
      have h4 : (2 * n + 1) * b = 2 * (b * n) + b := by ring
      rw [h4] at h
      omega
    split
    · omega
    · split <;> omega

theorem roundFloat64_pos (a b : Nat) (ha : 0 < a) (hb : 0 < b) :
    ∃ up la, roundFloat64 a b = (roundHalfEven (a * 2 ^ up) (b * 2 ^ la) * 2 ^ la, 2 ^ up) ∧
      2 ^ 52 * (b * 2 ^ la) ≤ a * 2 ^ up := by
  obtain ⟨hla, _⟩ := binLog_spec a ha
  obtain ⟨_, hlb⟩ := binLog_spec b hb
  by_cases hadj : a * 2 ^ (52 + binLog b) < 2 ^ 52 * (b * 2 ^ binLog a)
  · refine ⟨53 + binLog b, binLog a, ?_, ?_⟩
    · simp only [roundFloat64, Nat.ne_of_gt ha, hadj, ↓reduceIte]
    · have h1 : b * 2 ^ binLog a ≤ 2 ^ (binLog b + 1) * a :=
        Nat.mul_le_mul (Nat.le_of_lt hlb) hla
      have h2 : 2 ^ 52 * (b * 2 ^ binLog a) ≤ 2 ^ 52 * (2 ^ (binLog b + 1) * a) :=
        Nat.mul_le_mul_left _ h1
      have h3 : 2 ^ 52 * (2 ^ (binLog b + 1) * a) = a * 2 ^ (53 + binLog b) := by
        rw [show 53 + binLog b = 52 + (binLog b + 1) by omega, pow_add]
        ring
      rw [h3] at h2
      exact h2
  · refine ⟨52 + binLog b, binLog a, ?_, ?_⟩
    · simp only [roundFloat64, Nat.ne_of_gt ha, hadj, ↓reduceIte]
    · exact Nat.le_of_not_lt hadj

theorem exponent_gap (a b up la k : Nat)
    (hnorm : 2 ^ 52 * (b * 2 ^ la) ≤ a * 2 ^ up) (hlt : a < b * 2 ^ k) :
    52 + la < k + up := by
  have hpos : 0 < 2 ^ up := Nat.two_pow_pos _
  have h1 : a * 2 ^ up < b * 2 ^ k * 2 ^ up := Nat.mul_lt_mul_of_pos_right hlt hpos
  have h2 : b * 2 ^ (52 + la) = 2 ^ 52 * (b * 2 ^ la) := by rw [pow_add]; ring
  have h3 : b * 2 ^ (k + up) = b * 2 ^ k * 2 ^ up := by rw [pow_add]; ring
  have h4 : b * 2 ^ (52 + la) < b * 2 ^ (k + up) := by
    rw [h2, h3]
    exact Nat.lt_of_le_of_lt hnorm h1
  exact (Nat.pow_lt_pow_iff_right (by decide)).mp (Nat.lt_of_mul_lt_mul_left h4)

theorem roundFloat64_le (a b n p k : Nat) (ha : 0 < a) (hb : 0 < b)
    (hlt : a < b * 2 ^ k) (hkp : k + p ≤ 53) (hle : a * 2 ^ p ≤ n * b) :
    (roundFloat64 a b).1 * 2 ^ p ≤ n * (roundFloat64 a b).2 := by
  obtain ⟨up, la, heq, hnorm⟩ := roundFloat64_pos a b ha hb
  have hgap := exponent_gap a b up la k hnorm hlt
  obtain ⟨j, hj⟩ : ∃ j, up = la + p + j := ⟨up - la - p, by omega⟩
  have hL : 0 < 2 ^ la := Nat.two_pow_pos _
  have hup : 2 ^ up = 2 ^ la * 2 ^ p * 2 ^ j := by rw [hj, pow_add, pow_add]
  have hm : roundHalfEven (a * 2 ^ up) (b * 2 ^ la) ≤ n * 2 ^ j := by
    apply roundHalfEven_le _ _ _ (Nat.mul_pos hb hL)
    have h1 : a * 2 ^ up = a * 2 ^ p * (2 ^ la * 2 ^ j) := by rw [hup]; ring
    have h2 : a * 2 ^ p * (2 ^ la * 2 ^ j) ≤ n * b * (2 ^ la * 2 ^ j) :=
      Nat.mul_le_mul_right _ hle
    have h3 : (2 * (n * 2 ^ j) + 1) * (b * 2 ^ la)
        = 2 * (n * b * (2 ^ la * 2 ^ j)) + b * 2 ^ la := by ring
    have h4 : 0 < b * 2 ^ la := Nat.mul_pos hb hL
    rw [h1, h3]
    omega
  rw [heq]
  simp only
  calc roundHalfEven (a * 2 ^ up) (b * 2 ^ la) * 2 ^ la * 2 ^ p
      ≤ n * 2 ^ j * 2 ^ la * 2 ^ p :=
        Nat.mul_le_mul_right _ (Nat.mul_le_mul_right _ hm)
    _ = n * 2 ^ up := by rw [hup]; ring

theorem roundFloat64_floor (a b sec f : Nat) (hb : 0 < b)
    (ha : a = sec * b + f) (hsec : sec + 1 ≤ 2 ^ 24)
    (hf : 2 ^ 30 * f + b < 2 ^ 30 * b) :
    (roundFloat64 a b).1 / (roundFloat64 a b).2 = sec := by
  by_cases hzero : a = 0
  · have hs : sec = 0 := by
      rcases Nat.eq_zero_or_pos sec with h | h
      · exact h
      · have : 0 < sec * b := Nat.mul_pos h hb
        omega
    simp [roundFloat64, hzero, hs]
  · have hapos : 0 < a := Nat.pos_of_ne_zero hzero
    obtain ⟨up, la, heq, hnorm⟩ := roundFloat64_pos a b hapos hb
    have hfb : f < b := by omega
    have hlt : a < b * 2 ^ 24 := by
      have h1 : (sec + 1) * b ≤ 2 ^ 24 * b := Nat.mul_le_mul_right b hsec
      have h2 : (sec + 1) * b = sec * b + b := by ring
      have h3 : b * 2 ^ 24 = 2 ^ 24 * b := by ring
      rw [h3]
      omega
    have hgap := exponent_gap a b up la 24 hnorm hlt
    obtain ⟨j, hj⟩ : ∃ j, up = la + 29 + j := ⟨up - la - 29, by omega⟩
    have hL : 0 < 2 ^ la := Nat.two_pow_pos _
    have hJ : 0 < 2 ^ j := Nat.two_pow_pos _
    have hup : 2 ^ up = 2 ^ la * (2 ^ 29 * 2 ^ j) := by rw [hj, pow_add, pow_add]; ring
    have hP : 0 < 2 ^ 29 * 2 ^ j := Nat.mul_pos (by decide) hJ
    have hlo : sec * (2 ^ 29 * 2 ^ j) ≤ roundHalfEven (a * 2 ^ up) (b * 2 ^ la) := by
      apply roundHalfEven_ge _ _ _ (Nat.mul_pos hb hL)
      have h1 : sec * (2 ^ 29 * 2 ^ j) * (b * 2 ^ la)
          = sec * b * (2 ^ la * (2 ^ 29 * 2 ^ j)) := by ring
      rw [h1, hup, ha]
      exact Nat.mul_le_mul_right _ (Nat.le_add_right _ _)
    have hhi : roundHalfEven (a * 2 ^ up) (b * 2 ^ la) ≤ (sec + 1) * (2 ^ 29 * 2 ^ j) - 1 := by
      apply roundHalfEven_le _ _ _ (Nat.mul_pos hb hL)
      have hge : 1 ≤ (sec + 1) * (2 ^ 29 * 2 ^ j) := Nat.mul_pos (Nat.succ_pos _) hP
      have h1 : 2 * ((sec + 1) * (2 ^ 29 * 2 ^ j) - 1) + 1
          = 2 * ((sec + 1) * (2 ^ 29 * 2 ^ j)) - 1 := by omega
      rw [h1, hup, ha]
      have h2 : (2 ^ 30 * f + b) * (2 ^ j * 2 ^ la) < 2 ^ 30 * b * (2 ^ j * 2 ^ la) :=
        Nat.mul_lt_mul_of_pos_right hf (Nat.mul_pos hJ hL)
      have h3 : b * 2 ^ la ≤ b * (2 ^ j * 2 ^ la) := by
        apply Nat.mul_le_mul_left
        exact Nat.le_mul_of_pos_left _ hJ
      have e1 : 2 * ((sec * b + f) * (2 ^ la * (2 ^ 29 * 2 ^ j)))
          = 2 ^ 30 * (sec * b * (2 ^ j * 2 ^ la)) + 2 ^ 30 * f * (2 ^ j * 2 ^ la) := by ring
      have e2 : 2 * ((sec + 1) * (2 ^ 29 * 2 ^ j)) * (b * 2 ^ la)
          = 2 ^ 30 * (sec * b * (2 ^ j * 2 ^ la)) + 2 ^ 30 * b * (2 ^ j * 2 ^ la) := by ring
      have e3 : (2 ^ 30 * f + b) * (2 ^ j * 2 ^ la)
          = 2 ^ 30 * f * (2 ^ j * 2 ^ la) + b * (2 ^ j * 2 ^ la) := by ring
      have e4 : (2 * ((sec + 1) * (2 ^ 29 * 2 ^ j)) - 1) * (b * 2 ^ la)
          = 2 * ((sec + 1) * (2 ^ 29 * 2 ^ j)) * (b * 2 ^ la) - b * 2 ^ la := by
        rw [Nat.sub_mul, Nat.one_mul]
      rw [e4, e1, e2]
      rw [e3] at h2
      omega
    rw [heq]
    simp only
    generalize roundHalfEven (a * 2 ^ up) (b * 2 ^ la) = m at hlo hhi ⊢
    rw [hup, Nat.mul_comm m (2 ^ la), Nat.mul_div_mul_left _ _ hL]
    apply Nat.div_eq_of_lt_le hlo
    have hge : 1 ≤ (sec + 1) * (2 ^ 29 * 2 ^ j) := Nat.mul_pos (Nat.succ_pos _) hP
    omega

theorem roundFloat64_den_pos (a b : Nat) : 0 < (roundFloat64 a b).2 := by
  unfold roundFloat64
  split
  · decide
  · exact Nat.two_pow_pos _

theorem quotient_bound (nsec : Nat) (h : nsec < 10 ^ 9) :
    2 ^ 30 * (roundFloat64 nsec (10 ^ 9)).1 + (roundFloat64 nsec (10 ^ 9)).2
      < 2 ^ 30 * (roundFloat64 nsec (10 ^ 9)).2 := by
  have hden := roundFloat64_den_pos nsec (10 ^ 9)
  by_cases hz : nsec = 0
  · subst hz
    simp [roundFloat64]
  · have hle := roundFloat64_le nsec (10 ^ 9) (2 ^ 53 - 2 ^ 23 - 1) 53 0
      (Nat.pos_of_ne_zero hz) (by norm_num) (by norm_num; omega) (by norm_num)
      (by norm_num; omega)
    generalize roundFloat64 nsec (10 ^ 9) = q at hden hle ⊢
    norm_num at hle ⊢
    omega

theorem Duration.secondsInt64_natAbs (d : Int) (h : d.natAbs < 2 ^ 24 * 10 ^ 9) :
    (roundFloat64 (d.natAbs / 10 ^ 9 * (roundFloat64 (d.natAbs % 10 ^ 9) (10 ^ 9)).2
        + (roundFloat64 (d.natAbs % 10 ^ 9) (10 ^ 9)).1)
      (roundFloat64 (d.natAbs % 10 ^ 9) (10 ^ 9)).2).1 /
    (roundFloat64 (d.natAbs / 10 ^ 9 * (roundFloat64 (d.natAbs % 10 ^ 9) (10 ^ 9)).2
        + (roundFloat64 (d.natAbs % 10 ^ 9) (10 ^ 9)).1)
      (roundFloat64 (d.natAbs % 10 ^ 9) (10 ^ 9)).2).2 = d.natAbs / 10 ^ 9 := by
  apply roundFloat64_floor _ _ (d.natAbs / 10 ^ 9) _ (roundFloat64_den_pos _ _) rfl
  · have : d.natAbs / 10 ^ 9 < 2 ^ 24 := by
      apply Nat.div_lt_of_lt_mul
      rw [Nat.mul_comm]
      exact h
    omega
  · exact quotient_bound _ (Nat.mod_lt _ (by norm_num))

theorem Duration.secondsInt64_small (d : Int) (h : d.natAbs < 2 ^ 24 * 10 ^ 9) :
    Duration.secondsInt64 d = Int.tdiv d (10 ^ 9) := by
  have hfloor := Duration.secondsInt64_natAbs d h
  have key : ∀ n : Nat, ((n / 10 ^ 9 : Nat) : Int) = Int.tdiv (n : Int) (10 ^ 9) := by
    intro n
    norm_cast
  unfold Duration.secondsInt64
  simp only [hfloor]
  rw [key]
  by_cases hneg : d < 0
  · rw [if_pos hneg]
    have hd : ((d.natAbs : Nat) : Int) = -d := by omega
    rw [hd, Int.neg_tdiv, neg_neg]
  · rw [if_neg hneg]
    have hd : ((d.natAbs : Nat) : Int) = d := by omega
    rw [hd]

theorem Env.sub_small (now t : Int) (h : (now - t).natAbs < 2 ^ 24 * 10 ^ 9) :
    Env.sub now t = now - t := by
  unfold Env.sub
  have h1 : (2 : Int) ^ 63 = 9223372036854775808 := by norm_num
  have h2 : (2 : Nat) ^ 24 * 10 ^ 9 = 16777216000000000 := by norm_num
  rw [h1]
  rw [h2] at h
  split
  · omega
  · split <;> omega

/-- C12 (counterexample): with the clock at 2018-09-18T23:55:40.999999999 UTC,
the state last updated at 2018-03-08T19:35:24 is 16777216.999999999 seconds
old, yet `State.Fields` returns `age_secs = 16777217` (the float64 sum of
`Duration.Seconds` rounds up); and the state last updated at
0001-01-01T00:00:00 is 63672911740 seconds old, yet `State.Fields` returns
`age_secs = 9223372036` (`Time.Sub` saturates).  In both cases the value is not
the whole number of seconds of the difference truncated toward zero. -/
theorem State.Fields_age_not_truncated :
    sampleParse lastupdatedLayout "2018-03-08T19:35:24" = some 1520537724000000000 ∧
    Int.tdiv (lateNow - 1520537724000000000) (10 ^ 9) = 16777216 ∧
    State.Fields (clockEnv lateNow) { Lastupdated := "2018-03-08T19:35:24" }
      = [("age_secs", .int .int64 16777217)] ∧
    State.Fields (clockEnv lateNow) { Lastupdated := "2018-03-08T19:35:24" }
      ≠ [("age_secs", .int .int64 (Int.tdiv (lateNow - 1520537724000000000) (10 ^ 9)))] ∧
    sampleParse lastupdatedLayout "0001-01-01T00:00:00" = some (-62135596800000000000) ∧
    Int.tdiv (lateNow - (-62135596800000000000)) (10 ^ 9) = 63672911740 ∧
    State.Fields (clockEnv lateNow) { Lastupdated := "0001-01-01T00:00:00" }
      = [("age_secs", .int .int64 9223372036)] := by
  set_option maxRecDepth 8000 in
  refine ⟨by decide, by decide, by decide, by decide, by decide, by decide, by decide⟩

/-- C12 (amended): with `Duration.Seconds` computed in float64, `State.Fields`
returns the empty map when `Lastupdated` is empty or does not parse in the
layout 2006-01-02T15:04:05.999; when it parses to `t` the result is the single
entry `age_secs = int64(now.Sub(t).Seconds())`, and this is the whole number of
seconds of `now − t` truncated toward zero whenever `now − t` is less than
2^24 seconds in absolute value. -/
theorem State.Fields_age (E : Env) (s : State) (hE : E.seconds = Duration.secondsInt64) :
    (s.Lastupdated = "" ∨ E.parse lastupdatedLayout s.Lastupdated = none →
      State.Fields E s = []) ∧
    (∀ t, s.Lastupdated ≠ "" → E.parse lastupdatedLayout s.Lastupdated = some t →
      State.Fields E s
        = [("age_secs", .int .int64 (Duration.secondsInt64 (Env.sub E.now t)))] ∧
      ((E.now - t).natAbs < 2 ^ 24 * 10 ^ 9 →
        State.Fields E s = [("age_secs", .int .int64 (Int.tdiv (E.now - t) (10 ^ 9)))])) := by
  constructor
  · rintro (h | h)
    · simp [State.Fields, h]
    · unfold State.Fields
      split
      · unfold lastupdatedLayout at h
        rw [h]
      · rfl
  · intro t hne hparse
    have hval : State.Fields E s
        = [("age_secs", .int .int64 (Duration.secondsInt64 (Env.sub E.now t)))] := by
      unfold State.Fields
      unfold lastupdatedLayout at hparse
      rw [if_pos hne, hparse, hE]
    refine ⟨hval, ?_⟩
    intro hsmall
    rw [hval, Env.sub_small E.now t hsmall, Duration.secondsInt64_small _ hsmall]

/-- Witness of C12 (amended): with the clock at 2018-03-08T19:36:00.5 UTC the
state last updated at 2018-03-08T19:35:24 is 36.5 seconds old and `age_secs` is
36; an empty and an unparsable `Lastupdated` give the empty map. -/
theorem State.Fields_age_witness :
    ((clockEnv soonNow).seconds = Duration.secondsInt64 ∧
     (clockEnv soonNow).parse lastupdatedLayout "2018-03-08T19:35:24"
       = some 1520537724000000000 ∧
     ((clockEnv soonNow).now - 1520537724000000000).natAbs < 2 ^ 24 * 10 ^ 9 ∧
     Int.tdiv ((clockEnv soonNow).now - 1520537724000000000) (10 ^ 9) = 36) ∧
    State.Fields (clockEnv soonNow) { Lastupdated := "2018-03-08T19:35:24" }
      = [("age_secs", .int .int64
          (Int.tdiv ((clockEnv soonNow).now - 1520537724000000000) (10 ^ 9)))] ∧
    State.Fields (clockEnv soonNow) { Lastupdated := "" } = [] ∧
    State.Fields (clockEnv soonNow) { Lastupdated := "none" } = [] :=
  ⟨⟨rfl, by decide, by decide, by decide⟩,
   ((State.Fields_age (clockEnv soonNow) { Lastupdated := "2018-03-08T19:35:24" } rfl).2
      1520537724000000000 (by decide) (by decide)).2 (by decide),
   (State.Fields_age (clockEnv soonNow) { Lastupdated := "" } rfl).1 (Or.inl rfl),
   (State.Fields_age (clockEnv soonNow) { Lastupdated := "none" } rfl).1
     (Or.inr (by decide))⟩

/-! ## Idempotence of `Sensor.Timeseries` -/

theorem GoMap.get_perm {V : Type} (m m' : GoMap V) (h : List.Perm m m')
    (hnodup : (m.map Prod.fst).Nodup) (k : String) : m.get k = m'.get k := by
  induction h with
  | nil => rfl
  | cons x hp ih =>
    obtain ⟨n, v⟩ := x
    simp only [List.map_cons, List.nodup_cons] at hnodup
    simp [GoMap.get, ih hnodup.2]
  | swap x y l =>
    obtain ⟨n, v⟩ := x
    obtain ⟨n', v'⟩ := y
    simp only [List.map_cons, List.nodup_cons, List.mem_cons, not_or] at hnodup
    have hne : n' ≠ n := hnodup.1.1
    by_cases h1 : n = k
    · subst h1
      simp [GoMap.get, hne]
    · simp [GoMap.get, h1]
  | trans h1 h2 ih1 ih2 =>
    rw [ih1 hnodup]
    exact ih2 ((List.Perm.nodup_iff (List.Perm.map Prod.fst h1)).mp hnodup)

theorem mergeFields_order (p s order : FieldMap) (hperm : List.Perm s order)
    (hnodup : (s.map Prod.fst).Nodup) (k : String) :
    (mergeFields p order).get k = (mergeFields p s).get k := by
  rw [mergeFields_get, mergeFields_get, GoMap.get_perm s order hperm hnodup k]

theorem State.FieldsMem_alloc (E : Env) (s : State) (m : Memory) :
    s.FieldsMem E m = m.alloc (s.Fields E) := by
  unfold State.FieldsMem State.Fields
  by_cases h : s.Lastupdated ≠ ""
  · cases hp : E.parse "2006-01-02T15:04:05.999" s.Lastupdated <;> simp [h]
  · simp [h]

/-- A merge of a new map literal into the map that `State.Fields()` returns, as
the `Fields` methods of the variants do it: the result is a new map that holds
the merged entries; the maps that existed before are as they were. -/
theorem mergeFieldsMem_literal (E : Env) (st : State) (lit : FieldMap) (m : Memory) :
    (mergeFieldsMem ((st.FieldsMem E m).1.alloc lit).1 (st.FieldsMem E m).2
        ((st.FieldsMem E m).1.alloc lit).2).2 = m.next ∧
    (mergeFieldsMem ((st.FieldsMem E m).1.alloc lit).1 (st.FieldsMem E m).2
        ((st.FieldsMem E m).1.alloc lit).2).1.sensor = m.sensor ∧
    (mergeFieldsMem ((st.FieldsMem E m).1.alloc lit).1 (st.FieldsMem E m).2
        ((st.FieldsMem E m).1.alloc lit).2).1.next = m.next + 2 ∧
    (mergeFieldsMem ((st.FieldsMem E m).1.alloc lit).1 (st.FieldsMem E m).2
        ((st.FieldsMem E m).1.alloc lit).2).1.maps m.next = mergeFields (st.Fields E) lit ∧
    ∀ b, b < m.next →
      (mergeFieldsMem ((st.FieldsMem E m).1.alloc lit).1 (st.FieldsMem E m).2
        ((st.FieldsMem E m).1.alloc lit).2).1.maps b = m.maps b := by
  rw [State.FieldsMem_alloc]
  simp only [Memory.alloc, mergeFieldsMem, mergeFieldsAt]
  refine ⟨trivial, trivial, trivial, ?_, ?_⟩
  · rw [foldl_mergeEntryAt_self]
    simp [MapHeap.write, mergeFields]
  · intro b hb
    rw [foldl_mergeEntryAt_ne _ _ _ b (by omega)]
    have h1 : b ≠ m.next + 1 := by omega
    have h2 : b ≠ m.next := by omega
    simp [MapHeap.write, h1, h2]

/-- The call `f.Fields()` on memory gives what the call on values gives: the
same failed assertion, the same panic, or a reference to a map made during the
call that holds the same entries, with the sensor and the maps that existed
before as they were. -/
theorem StateDef.FieldsMem_refines (D : Decls) (E : Env) (sd : StateDef) (m : Memory) :
    (sd.Fields D E = none → sd.FieldsMem D E m = none) ∧
    (∀ p, sd.Fields D E = some (.panic p) → sd.FieldsMem D E m = some (.panic p)) ∧
    (∀ base, sd.Fields D E = some (.ret base) →
      ∃ r : Memory × Nat, sd.FieldsMem D E m = some (.ret r) ∧ r.1.sensor = m.sensor ∧
        r.1.maps r.2 = base ∧ m.next ≤ r.2 ∧ r.2 < r.1.next ∧
        ∀ b, b < m.next → r.1.maps b = m.maps b) := by
  have hother : ∀ (call : Run FieldMap),
      (∀ p, some call = some (.panic p) →
        some (call.bind fun entries => Run.ret (m.alloc entries)) = some (.panic p)) ∧
      (∀ base, some call = some (.ret base) →
        ∃ r : Memory × Nat,
          some (call.bind fun entries => Run.ret (m.alloc entries)) = some (.ret r) ∧
          r.1.sensor = m.sensor ∧ r.1.maps r.2 = base ∧ m.next ≤ r.2 ∧ r.2 < r.1.next ∧
          ∀ b, b < m.next → r.1.maps b = m.maps b) := by
    intro call
    cases call with
    | panic q =>
      refine ⟨fun p hp => ?_, fun base hb => ?_⟩
      · simp only [Option.some.injEq, Run.panic.injEq] at hp
        subst hp
        rfl
      · simp at hb
    | ret entries =>
      refine ⟨fun p hp => ?_, fun base hb => ?_⟩
      · simp at hp
      · simp only [Option.some.injEq, Run.ret.injEq] at hb
        subst hb
        refine ⟨m.alloc entries, rfl, rfl, ?_, le_refl _, ?_, ?_⟩
        · simp [Memory.alloc, MapHeap.write]
        · simp [Memory.alloc]
        · intro b hb
          have h1 : b ≠ m.next := by omega
          simp [Memory.alloc, MapHeap.write, h1]
  cases sd with
  | nil => exact ⟨fun _ => rfl, fun p hp => by simp [StateDef.Fields] at hp,
      fun base hb => by simp [StateDef.Fields] at hb⟩
  | EmptyState => exact ⟨fun _ => rfl, fun p hp => by simp [StateDef.Fields] at hp,
      fun base hb => by simp [StateDef.Fields] at hb⟩
  | ptr k r =>
    cases k
    case ZHAThermostat =>
      refine ⟨fun h => by simp [StateDef.Fields] at h, fun p hp => by simp [StateDef.Fields] at hp,
        fun base hb => ?_⟩
      simp only [StateDef.Fields, Option.some.injEq, Run.ret.injEq] at hb
      subst hb
      obtain ⟨h1, h2, h3, h4, h5⟩ := mergeFieldsMem_literal E (ZHAThermostat.ofRecord r).State
        [("temperature", .float64 (ZHAThermostat.ofRecord r).Temperature 100),
         ("valve", .int .int (ZHAThermostat.ofRecord r).Valve)] m
      refine ⟨(ZHAThermostat.ofRecord r).FieldsMem E m, rfl, h2, ?_, ?_, ?_, h5⟩
      · show (ZHAThermostat.FieldsMem E _ m).1.maps (ZHAThermostat.FieldsMem E _ m).2 = _
        unfold ZHAThermostat.FieldsMem
        simp only []
        rw [h1, h4]
        rfl
      · show m.next ≤ (ZHAThermostat.FieldsMem E _ m).2
        unfold ZHAThermostat.FieldsMem
        simp only []
        rw [h1]
      · show (ZHAThermostat.FieldsMem E _ m).2 < (ZHAThermostat.FieldsMem E _ m).1.next
        unfold ZHAThermostat.FieldsMem
        simp only []
        rw [h1, h3]
        omega
    case ZHAVibration =>
      refine ⟨fun h => by simp [StateDef.Fields] at h, ?_, ?_⟩
      · intro p hp
        simp only [StateDef.Fields, Option.some.injEq] at hp
        simp only [StateDef.FieldsMem, Option.some.injEq]
        unfold ZHAVibration.Fields at hp
        unfold ZHAVibration.FieldsMem
        cases h0 : index (ZHAVibration.ofRecord r).Orientation 0 with
        | panic q => rw [h0] at hp; simpa [Run.bind] using hp
        | ret x =>
          cases h1 : index (ZHAVibration.ofRecord r).Orientation 1 with
          | panic q => rw [h0, h1] at hp; simpa [Run.bind] using hp
          | ret y =>
            cases h2 : index (ZHAVibration.ofRecord r).Orientation 2 with
            | panic q => rw [h0, h1, h2] at hp; simpa [Run.bind] using hp
            | ret w => rw [h0, h1, h2] at hp; simp [Run.bind] at hp
      · intro base hb
        simp only [StateDef.Fields, Option.some.injEq] at hb
        simp only [StateDef.FieldsMem, Option.some.injEq]
        unfold ZHAVibration.Fields at hb
        unfold ZHAVibration.FieldsMem
        cases h0 : index (ZHAVibration.ofRecord r).Orientation 0 with
        | panic q => rw [h0] at hb; simp [Run.bind] at hb
        | ret x =>
          cases h1 : index (ZHAVibration.ofRecord r).Orientation 1 with
          | panic q => rw [h0, h1] at hb; simp [Run.bind] at hb
          | ret y =>
            cases h2 : index (ZHAVibration.ofRecord r).Orientation 2 with
            | panic q => rw [h0, h1, h2] at hb; simp [Run.bind] at hb
            | ret w =>
              rw [h0, h1, h2] at hb
              simp only [Run.bind, Run.ret.injEq] at hb
              subst hb
              obtain ⟨g1, g2, g3, g4, g5⟩ :=
                mergeFieldsMem_literal E (ZHAVibration.ofRecord r).State
                  [("vibration", .bool (ZHAVibration.ofRecord r).Vibration),
                   ("tiltangle", .int .int16 (ZHAVibration.ofRecord r).Tiltangle),
                   ("vibrationstrength", .int .int16 (ZHAVibration.ofRecord r).Vibrationstrength),
                   ("orientation_x", .int .int16 x),
                   ("orientation_y", .int .int16 y),
                   ("orientation_z", .int .int16 w)] m
              simp only [Run.bind]
              refine ⟨_, rfl, g2, ?_, ?_, ?_, g5⟩
              · rw [g1, g4]
              · rw [g1]
              · rw [g1, g3]
                omega
    all_goals
      exact ⟨fun h => by simp [StateDef.Fields] at h,
        fun p hp => (hother _).1 p hp, fun base hb => (hother _).2 base hb⟩

/-- The special cases on memory give what the special cases on values give, in
the map at the reference; the sensor and every other map are as they were. -/
theorem specialCasesMem_refines (m : Memory) (a : Nat) :
    (∀ p, specialCases m.sensor (m.maps a) = .panic p → specialCasesMem m a = .panic p) ∧
    (∀ f, specialCases m.sensor (m.maps a) = .ret f →
      ∃ m' : Memory, specialCasesMem m a = .ret m' ∧ m'.sensor = m.sensor ∧
        m'.next = m.next ∧ m'.maps a = f ∧ ∀ b, b ≠ a → m'.maps b = m.maps b) := by
  unfold specialCases specialCasesMem
  by_cases hty : m.sensor.Type' = "ZHAThermostat"
  · simp only [hty, if_true]
    cases h1 : m.sensor.Config.HeatSetpoint with
    | none => simp [deref, Run.bind]
    | some hs =>
      cases h2 : m.sensor.Config.Mode with
      | none => simp [deref, Run.bind, Memory.store, h2]
      | some mode =>
        cases h3 : m.sensor.Config.Offset with
        | none => simp [deref, Run.bind, Memory.store, h2, h3]
        | some o =>
          cases h4 : m.sensor.Config.ExternalSensorTemp with
          | none => simp [deref, Run.bind, Memory.store, h2, h3, h4]
          | some x =>
            simp only [deref, Run.bind, Memory.store, h2, h3, h4]
            refine ⟨fun p hp => by simp at hp, fun f hf => ?_⟩
            simp only [Run.ret.injEq] at hf
            subst hf
            refine ⟨_, rfl, rfl, rfl, ?_, ?_⟩
            · simp [MapHeap.write]
            · intro b hb
              simp [MapHeap.write, hb]
  · simp only [hty, if_false]
    refine ⟨fun p hp => by simp at hp, fun f hf => ?_⟩
    simp only [Run.ret.injEq] at hf
    exact ⟨m, rfl, rfl, rfl, hf, fun _ _ => rfl⟩

/-- C13: a call of `Timeseries` that returns leaves the sensor (state and config
included) and every map that existed before the call as they were, and returns
what the method on values returns, the fields in a map made during the call; a
second call on the same sensor under the same clock reading returns the same
error and the same tags, and a field map of its own with the same entries as
the map of the first call, which the second call does not change.  A call that
panics does so again, with the same panic.  The result does not depend on the
order in which `mergeFields` ranges over the map literal of
`ZHAThermostat.Fields`. -/
theorem Sensor.Timeseries_idempotent (D : Decls) (E : Env) (m : Memory) :
    (∀ m1 r1, Sensor.TimeseriesMem D E m = .ret (m1, r1) →
      m1.sensor = m.sensor ∧ m1.sensor.StateDef = m.sensor.StateDef ∧
      m1.sensor.Config = m.sensor.Config ∧
      (∀ b, b < m.next → m1.maps b = m.maps b) ∧
      (∀ a, r1.fields = some a → m.next ≤ a) ∧
      m.sensor.Timeseries D E
        = .ret { tags := r1.tags, fields := r1.fields.map m1.maps, err := r1.err } ∧
      ∃ (m2 : Memory) (r2 : ResultsAt), Sensor.TimeseriesMem D E m1 = .ret (m2, r2) ∧
        m2.sensor = m.sensor ∧
        r2.err = r1.err ∧ r2.tags = r1.tags ∧
        r2.fields.map m2.maps = r1.fields.map m1.maps ∧
        r1.fields.map m2.maps = r1.fields.map m1.maps ∧
        (r1.fields = none ↔ r2.fields = none) ∧
        (∀ a1 a2, r1.fields = some a1 → r2.fields = some a2 → a1 < a2)) ∧
    (∀ p, Sensor.TimeseriesMem D E m = .panic p →
      ∀ m' : Memory, m'.sensor = m.sensor → Sensor.TimeseriesMem D E m' = .panic p) ∧
    (∀ (z : ZHAThermostat) (order : FieldMap), List.Perm z.literal order →
      ∀ k, (mergeFields (z.State.Fields E) order).get k = (z.Fields E).get k) := by
  have href : ∀ m : Memory,
      (∀ p, m.sensor.Timeseries D E = .panic p → Sensor.TimeseriesMem D E m = .panic p) ∧
      (∀ res, m.sensor.Timeseries D E = .ret res →
        ∃ (m' : Memory) (rr : ResultsAt), Sensor.TimeseriesMem D E m = .ret (m', rr) ∧
          m'.sensor = m.sensor ∧ m.next ≤ m'.next ∧
          (∀ b, b < m.next → m'.maps b = m.maps b) ∧
          rr.tags = res.tags ∧ rr.err = res.err ∧
          rr.fields.map m'.maps = res.fields ∧
          ∀ a, rr.fields = some a → m.next ≤ a ∧ a < m'.next) := by
    intro m
    obtain ⟨hnone, hpanic, hret⟩ := StateDef.FieldsMem_refines D E m.sensor.StateDef m
    unfold Sensor.Timeseries Sensor.TimeseriesMem
    cases hf : m.sensor.StateDef.Fields D E with
    | none =>
      rw [hnone hf]
      refine ⟨fun p hp => by simp at hp, fun res hres => ?_⟩
      simp only [Run.ret.injEq] at hres
      subst hres
      exact ⟨m, _, rfl, rfl, le_refl _, fun _ _ => rfl, rfl, rfl, rfl,
        fun a ha => by simp at ha⟩
    | some call =>
      cases call with
      | panic q =>
        rw [hpanic q hf]
        refine ⟨fun p hp => ?_, fun res hres => by simp [Run.bind] at hres⟩
        simpa [Run.bind] using hp
      | ret base =>
        obtain ⟨r, hr, hsensor, hmaps, hle, hlt, hold⟩ := hret base hf
        rw [hr]
        simp only [Run.bind]
        generalize hm1 : (if ((r.1.maps r.2).get "battery").isSome = true then r.1
          else r.1.store r.2 "battery" (.int .int (r.1.sensor.Config.Battery : Int))) = m1
        have h1s : m1.sensor = m.sensor := by
          rw [← hm1]
          split
          · exact hsensor
          · exact hsensor
        have h1n : m1.next = r.1.next := by
          rw [← hm1]
          split <;> rfl
        have h1m : m1.maps r.2 = injectBattery m.sensor base := by
          rw [← hm1]
          unfold injectBattery
          rw [← hmaps, ← hsensor]
          split
          · rfl
          · simp [Memory.store, MapHeap.write]
        have h1o : ∀ b, b ≠ r.2 → m1.maps b = r.1.maps b := by
          intro b hb
          rw [← hm1]
          split
          · rfl
          · simp [Memory.store, MapHeap.write, hb]
        obtain ⟨hsp, hsr⟩ := specialCasesMem_refines m1 r.2
        rw [h1s, h1m] at hsp hsr
        cases hsc : specialCases m.sensor (injectBattery m.sensor base) with
        | panic q =>
          rw [hsp q hsc]
          refine ⟨fun p hp => ?_, fun res hres => by simp at hres⟩
          simpa using hp
        | ret fields =>
          obtain ⟨m2, h2, h2s, h2n, h2m, h2o⟩ := hsr fields hsc
          rw [h2]
          refine ⟨fun p hp => by simp at hp, fun res hres => ?_⟩
          simp only [Run.ret.injEq] at hres
          subst hres
          refine ⟨m2, _, rfl, h2s, ?_, ?_, ?_, rfl, ?_, ?_⟩
          · rw [h2n, h1n]
            omega
          · intro b hb
            have hne : b ≠ r.2 := by omega
            rw [h2o b hne, h1o b hne]
            exact hold b hb
          · simp [Sensor.tags, h2s]
          · simp [h2m]
          · intro a ha
            simp only [Option.some.injEq] at ha
            subst ha
            rw [h2n, h1n]
            exact ⟨hle, hlt⟩
  obtain ⟨hp0, hr0⟩ := href m
  refine ⟨?_, ?_, ?_⟩
  · intro m1 r1 h
    cases hts : m.sensor.Timeseries D E with
    | panic p =>
      rw [hp0 p hts] at h
      exact Run.noConfusion h
    | ret res =>
      obtain ⟨m', rr, hcall, hs, hn, hold, htags, herr, hfields, hfresh⟩ := hr0 res hts
      rw [hcall] at h
      simp only [Run.ret.injEq, Prod.mk.injEq] at h
      obtain ⟨hm, hrr⟩ := h
      subst hm hrr
      have hres : res = { tags := rr.tags, fields := rr.fields.map m'.maps, err := rr.err } := by
        cases res
        simp only [Results.mk.injEq]
        exact ⟨htags.symm, hfields.symm, herr.symm⟩
      refine ⟨hs, by rw [hs], by rw [hs], hold, fun a ha => (hfresh a ha).1,
        congrArg Run.ret hres, ?_⟩
      obtain ⟨_, hr1⟩ := href m'
      rw [hs, hts] at hr1
      obtain ⟨m2, r2, hcall2, hs2, hn2, hold2, htags2, herr2, hfields2, hfresh2⟩ := hr1 res rfl
      refine ⟨m2, r2, hcall2, hs2, by rw [herr2, herr], by rw [htags2, htags],
        by rw [hfields2, hfields], ?_, ?_, ?_⟩
      · cases hf : rr.fields with
        | none => rfl
        | some a =>
          simp only [Option.map_some']
          rw [hold2 a (hfresh a hf).2]
      · rw [← hfields2] at hfields
        cases hf : rr.fields <;> cases hf2 : r2.fields <;> simp [hf, hf2] at hfields ⊢
      · intro a1 a2 h1 h2
        have := (hfresh a1 h1).2
        have := (hfresh2 a2 h2).1
        omega
  · intro p h m' hm'
    cases hts : m.sensor.Timeseries D E with
    | panic q =>
      rw [hp0 q hts] at h
      simp only [Run.panic.injEq] at h
      subst h
      exact (href m').1 q (by rw [hm', hts])
    | ret res =>
      obtain ⟨m1, rr, hcall, _⟩ := hr0 res hts
      rw [hcall] at h
      exact Run.noConfusion h
  · intro z order hperm k
    have hnodup : (z.literal.map Prod.fst).Nodup := by
      simp [ZHAThermostat.literal]
    exact mergeFields_order (z.State.Fields E) z.literal order hperm hnodup k

/-! ## The event loop -/

/-- C14: `Start` returns an error exactly when the lookup is nil, the event
reader is nil, or the reader is already running; in that case the reader is
left as it was and no loop is started; otherwise it returns no error, sets
`running`, keeps `lookup` and `reader`, starts the loop, and a second `Start`
right after it fails with "Reader is already running." without starting
another loop. -/
theorem SensorEventReader.Start_spec (r : SensorEventReader) :
    (r.Start.err ≠ none ↔
      (r.lookup.isNone = true ∨ r.reader.isNone = true ∨ r.running = true)) ∧
    (r.Start.err ≠ none → r.Start.reader = r ∧ r.Start.started = false) ∧
    (r.Start.err = none →
      r.Start.reader.running = true ∧ r.Start.reader.lookup = r.lookup ∧
      r.Start.reader.reader = r.reader ∧ r.Start.started = true ∧
      r.Start.reader.Start.err = some (.errorf "Reader is already running.") ∧
      r.Start.reader.Start.started = false ∧
      r.Start.reader.Start.reader = r.Start.reader) := by
  unfold SensorEventReader.Start
  by_cases h1 : r.lookup.isNone = true
  · simp [h1]
  · by_cases h2 : r.reader.isNone = true
    · simp [h1, h2]
    · by_cases h3 : r.running = true
      · simp [h1, h2, h3]
      · simp [h1, h2, h3]

theorem sent_append (a b : List Action) : sent (a ++ b) = sent a ++ sent b := by
  induction a with
  | nil => rfl
  | cons x rest ih =>
    cases x <;> simp [sent, ih]

theorem sent_deliver (lookup : SensorLookup) (e : Event) :
    sent (.ReadEvent :: deliver lookup e) = expected lookup [e] := by
  unfold deliver expected
  by_cases h1 : e.Resource = "sensors"
  · cases h2 : lookup e.ID with
    | mk sensor err =>
      cases err <;> simp [h1, h2, sent, expected]
  · simp [h1, sent, expected]

theorem expected_cons (lookup : SensorLookup) (e : Event) (rest : List Event) :
    expected lookup (e :: rest) = expected lookup [e] ++ expected lookup rest := by
  by_cases h : e.Resource = "sensors" ∧ (lookup e.ID).2 = none
  · simp [expected, h]
  · simp [expected, h]

theorem deliver_no_calls (lookup : SensorLookup) (e : Event) (a : Action)
    (h : a ∈ deliver lookup e) : ∃ ev, a = .Send ev := by
  unfold deliver at h
  split at h
  · simp at h
  · split at h
    · simp at h
    · simp only [List.mem_singleton] at h
      exact ⟨_, h⟩

theorem loopStep_event (env : LoopEnv) (st : LoopState) (e : Event) (rest : List ReadResult)
    (hplace : st.place = .readLoop) (hflag : env.flag st.flagReads = true)
    (hreads : st.reads = .event e :: rest) :
    loopStep env st
      = some ({ st with place := .readLoop, flagReads := st.flagReads + 1, reads := rest },
              .ReadEvent :: deliver env.lookup e) := by
  unfold loopStep
  simp [hplace, hflag, hreads]

/-- C15: from the read loop, while `r.running` is read as true and `ReadEvent`
returns the events `events` one after the other, the loop performs exactly
`events.length` reads, stays in the read loop without `Dial` or `Close`, and
sends exactly the sensor events of those events whose `Resource` is "sensors"
and whose id the lookup resolves, in the order read, each with the sensor that
the lookup returned. -/
theorem loopRun_delivers (env : LoopEnv) (events : List Event) :
    ∀ (st : LoopState) (rest : List ReadResult),
      st.place = .readLoop →
      st.reads = events.map ReadResult.event ++ rest →
      (∀ i, i < events.length → env.flag (st.flagReads + i) = true) →
      (loopRun env events.length st).1
        = { st with flagReads := st.flagReads + events.length, reads := rest } ∧
      sent (loopRun env events.length st).2 = expected env.lookup events ∧
      (loopRun env events.length st).2.count .ReadEvent = events.length ∧
      Action.Dial ∉ (loopRun env events.length st).2 ∧
      Action.Close ∉ (loopRun env events.length st).2 := by
  induction events with
  | nil =>
    intro st rest hplace hreads _
    simp only [List.map_nil, List.nil_append] at hreads
    simp [loopRun, sent, expected, ← hreads]
  | cons e es ih =>
    intro st rest hplace hreads hflag
    have hstep := loopStep_event env st e (es.map ReadResult.event ++ rest) hplace
      (by simpa using hflag 0 (by simp)) (by simpa using hreads)
    generalize hst1 : LoopState.mk .readLoop (st.flagReads + 1) st.dials
      (es.map ReadResult.event ++ rest) = st1 at hstep
    have hp1 : st1.place = .readLoop := by rw [← hst1]
    have hr1 : st1.reads = es.map ReadResult.event ++ rest := by rw [← hst1]
    have hf1 : st1.flagReads = st.flagReads + 1 := by rw [← hst1]
    have hd1 : st1.dials = st.dials := by rw [← hst1]
    obtain ⟨h1, h2, h3, h4, h5⟩ := ih st1 rest hp1 hr1
      (by
        intro i hi
        have := hflag (i + 1) (by simp; omega)
        rw [hf1]
        simpa [Nat.add_assoc, Nat.add_comm 1 i] using this)
    have hrun : loopRun env (e :: es).length st
        = ((loopRun env es.length st1).1,
           (.ReadEvent :: deliver env.lookup e) ++ (loopRun env es.length st1).2) := by
      simp only [List.length_cons, loopRun, hstep]
    rw [hrun]
    refine ⟨?_, ?_, ?_, ?_, ?_⟩
    · simp only [h1, List.length_cons, hp1, hf1, hd1]
      cases st
      simp only [LoopState.mk.injEq, true_and, and_true] at hplace ⊢
      refine ⟨hplace.symm, ?_⟩
      omega
    · rw [sent_append, sent_deliver, h2, ← expected_cons]
    · have hd : (deliver env.lookup e).count .ReadEvent = 0 := by
        apply List.count_eq_zero.mpr
        intro hmem
        obtain ⟨ev, hev⟩ := deliver_no_calls _ _ _ hmem
        cases hev
      simp only [List.cons_append, List.count_cons_self, List.count_append, hd, h3,
        List.length_cons]
      omega
    · intro hmem
      rcases List.mem_append.mp hmem with hm | hm
      · rcases List.mem_cons.mp hm with hm | hm
        · cases hm
        · obtain ⟨ev, hev⟩ := deliver_no_calls _ _ _ hm
          cases hev
      · exact h4 hm
    · intro hmem
      rcases List.mem_append.mp hmem with hm | hm
      · rcases List.mem_cons.mp hm with hm | hm
        · cases hm
        · obtain ⟨ev, hev⟩ := deliver_no_calls _ _ _ hm
          cases hev
      · exact h5 hm

/-- Witness of C15: the four sample events, read while the flag stays true; the
first and the last are sent, each with the thermostat sensor. -/
theorem loopRun_delivers_witness :
    (connectedState.place = .readLoop ∧
     connectedState.reads = sampleEvents.map ReadResult.event ++ [.error .other] ∧
     expected (sampleEnv 100).lookup sampleEvents
       = [{ Event := { Resource := "sensors", ID := 1, Payload := "a" },
            Sensor := some thermostatSensor },
          { Event := { Resource := "sensors", ID := 1, Payload := "d" },
            Sensor := some thermostatSensor }]) ∧
    ((loopRun (sampleEnv 100) sampleEvents.length connectedState).1
        = { connectedState with flagReads := connectedState.flagReads + sampleEvents.length,
                                reads := [.error .other] } ∧
     sent (loopRun (sampleEnv 100) sampleEvents.length connectedState).2
        = expected (sampleEnv 100).lookup sampleEvents ∧
     (loopRun (sampleEnv 100) sampleEvents.length connectedState).2.count .ReadEvent
        = sampleEvents.length ∧
     Action.Dial ∉ (loopRun (sampleEnv 100) sampleEvents.length connectedState).2 ∧
     Action.Close ∉ (loopRun (sampleEnv 100) sampleEvents.length connectedState).2) :=
  ⟨⟨rfl, rfl, by decide⟩,
   loopRun_delivers (sampleEnv 100) sampleEvents connectedState [.error .other] rfl rfl
     (by intro i hi; simp only [sampleEvents, List.length_cons, List.length_nil] at hi
         simp only [sampleEnv, connectedState, decide_eq_true_eq]; omega)⟩

theorem loopRun_succ (env : LoopEnv) (n : Nat) (s s' : LoopState) (actions : List Action)
    (h : loopStep env s = some (s', actions)) :
    loopRun env (n + 1) s = ((loopRun env n s').1, actions ++ (loopRun env n s').2) := by
  simp only [loopRun, h]

theorem loopRun_ended (env : LoopEnv) (fuel : Nat) (st : LoopState)
    (h : st.place = .done ∨ st.place = .crashed) : loopRun env fuel st = (st, []) := by
  cases fuel with
  | zero => rfl
  | succ n =>
    rcases h with h | h <;> simp [loopRun, loopStep, h]

/-- C16: in the read loop with the flag read as true, a failed `ReadEvent`
sends nothing.  When the error is a recoverable `EventError` the loop stays in
the read loop with the same pending `Dial` results, and with the flag still
true its next action is the next `ReadEvent` (no `Dial`).  For any other error
the loop goes back to the outer loop, and with the flag still true its next
action is a `Dial`, performed before any further `ReadEvent`. -/
theorem loopStep_read_error (env : LoopEnv) (st : LoopState) (err : ReadError)
    (rest : List ReadResult)
    (hplace : st.place = .readLoop) (hflag : env.flag st.flagReads = true)
    (hreads : st.reads = .error err :: rest) :
    ∃ st1, loopStep env st = some (st1, [.ReadEvent]) ∧
      st1.reads = rest ∧ st1.dials = st.dials ∧ st1.flagReads = st.flagReads + 1 ∧
      (err = .eventError true →
        st1.place = .readLoop ∧
        (env.flag st1.flagReads = true → ∀ r rest', rest = r :: rest' →
          ∃ st2 actions, loopStep env st1 = some (st2, .ReadEvent :: actions) ∧
            st2.dials = st.dials ∧ Action.Dial ∉ actions)) ∧
      (err ≠ .eventError true →
        st1.place = .outer ∧
        (env.flag st1.flagReads = true → env.flag (st1.flagReads + 1) = true →
          ∀ d ds, st.dials = d :: ds →
            ∃ st2 actions, loopRun env 2 st1 = (st2, .Dial :: actions) ∧
              st2.reads = rest ∧ st2.dials = ds ∧ Action.ReadEvent ∉ actions ∧
              (∀ ev, Action.Send ev ∉ actions))) := by
  by_cases hrec : err = .eventError true
  · subst hrec
    refine ⟨LoopState.mk .readLoop (st.flagReads + 1) st.dials rest, ?_, rfl, rfl, rfl, ?_, ?_⟩
    · unfold loopStep
      simp [hplace, hflag, hreads]
    · intro _
      refine ⟨rfl, ?_⟩
      intro hflag1 r rest' hrest
      subst hrest
      simp only at hflag1
      cases r with
      | event e =>
        refine ⟨LoopState.mk .readLoop (st.flagReads + 1 + 1) st.dials rest',
          deliver env.lookup e, ?_, rfl, ?_⟩
        · unfold loopStep
          simp [hflag1]
        · intro hmem
          obtain ⟨ev, hev⟩ := deliver_no_calls _ _ _ hmem
          cases hev
      | nilEvent =>
        refine ⟨LoopState.mk .crashed (st.flagReads + 1 + 1) st.dials rest', [], ?_, rfl,
          by simp⟩
        unfold loopStep
        simp [hflag1]
      | error err' =>
        by_cases hrec' : err' = .eventError true
        · subst hrec'
          refine ⟨LoopState.mk .readLoop (st.flagReads + 1 + 1) st.dials rest', [], ?_, rfl,
            by simp⟩
          unfold loopStep
          simp [hflag1]
        · refine ⟨LoopState.mk .outer (st.flagReads + 1 + 1) st.dials rest', [], ?_, rfl,
            by simp⟩
          unfold loopStep
          cases err' with
          | other => simp [hflag1]
          | eventError b =>
            cases b
            · simp [hflag1]
            · exact absurd rfl hrec'
    · intro h
      exact absurd rfl h
  · refine ⟨LoopState.mk .outer (st.flagReads + 1) st.dials rest, ?_, rfl, rfl, rfl, ?_, ?_⟩
    · unfold loopStep
      cases err with
      | other => simp [hplace, hflag, hreads]
      | eventError b =>
        cases b
        · simp [hplace, hflag, hreads]
        · exact absurd rfl hrec
    · intro h
      exact absurd h hrec
    · intro _
      refine ⟨rfl, ?_⟩
      intro hflag1 hflag2 d ds hdials
      simp only at hflag1 hflag2
      cases d with
      | none =>
        refine ⟨LoopState.mk .readLoop (st.flagReads + 1 + 1 + 1) ds rest, [], ?_, rfl, rfl,
          by simp, by simp⟩
        simp [loopRun, loopStep, hflag1, hflag2, hdials]
      | some e =>
        refine ⟨LoopState.mk .dialLoop (st.flagReads + 1 + 1 + 1) ds rest, [.Sleep], ?_, rfl,
          rfl, by simp, by simp⟩
        simp [loopRun, loopStep, hflag1, hflag2, hdials]

/-- Witness of C16: a recoverable error is followed by the read of the next
event; a connection error is followed by a (failing) `Dial` and a sleep. -/
theorem loopStep_read_error_witness :
    ((failingState (.eventError true)).place = .readLoop ∧
     (sampleEnv 100).flag (failingState (.eventError true)).flagReads = true) ∧
    (∃ st1, loopStep (sampleEnv 100) (failingState (.eventError true))
        = some (st1, [.ReadEvent]) ∧ st1.place = .readLoop ∧
      ∃ st2 actions, loopStep (sampleEnv 100) st1 = some (st2, .ReadEvent :: actions) ∧
        Action.Dial ∉ actions) ∧
    (∃ st1, loopStep (sampleEnv 100) (failingState .other) = some (st1, [.ReadEvent]) ∧
      st1.place = .outer ∧
      ∃ st2 actions, loopRun (sampleEnv 100) 2 st1 = (st2, .Dial :: actions) ∧
        Action.ReadEvent ∉ actions) := by
  refine ⟨⟨rfl, by decide⟩, ?_, ?_⟩
  · obtain ⟨st1, h1, _, _, hfr, hrec, _⟩ :=
      loopStep_read_error (sampleEnv 100) (failingState (.eventError true)) (.eventError true)
        [.event { Resource := "sensors", ID := 1, Payload := "e" }] rfl (by decide) rfl
    obtain ⟨hp, hnext⟩ := hrec rfl
    obtain ⟨st2, actions, h2, _, hnd⟩ := hnext (by rw [hfr]; decide) _ _ rfl
    exact ⟨st1, h1, hp, st2, actions, h2, hnd⟩
  · obtain ⟨st1, h1, _, _, hfr, _, hoth⟩ :=
      loopStep_read_error (sampleEnv 100) (failingState .other) .other
        [.event { Resource := "sensors", ID := 1, Payload := "e" }] rfl (by decide) rfl
    obtain ⟨hp, hnext⟩ := hoth (by decide)
    obtain ⟨st2, actions, h2, _, _, hnr, _⟩ :=
      hnext (by rw [hfr]; decide) (by rw [hfr]; decide) _ _ rfl
    exact ⟨st1, h1, hp, st2, actions, h2, hnr⟩

/-- C17 (counterexample): a loop in its read loop reads the flag as false at a
loop boundary and, the flag being true again at every later read, goes on to
dial, to read all five results and to send two events, and does not call
`Close`: it is in the connection loop, not done.  A loop that reads the flag as
false before a dial attempt goes on to read an event without a dial. -/
theorem loopRun_restarted :
    connectedState.place = .readLoop ∧
    (restartEnv 3).flag connectedState.flagReads = false ∧
    (loopRun (restartEnv 3) 10 connectedState).2
      = [.Dial, .ReadEvent,
         .Send { Event := { Resource := "sensors", ID := 1, Payload := "a" },
                 Sensor := some thermostatSensor },
         .ReadEvent, .ReadEvent, .ReadEvent,
         .Send { Event := { Resource := "sensors", ID := 1, Payload := "d" },
                 Sensor := some thermostatSensor },
         .ReadEvent] ∧
    Action.Close ∉ (loopRun (restartEnv 3) 10 connectedState).2 ∧
    (loopRun (restartEnv 3) 10 connectedState).1.place = .dialLoop ∧
    dialingState.place = .dialLoop ∧
    (restartEnv 3).flag dialingState.flagReads = false ∧
    (loopRun (restartEnv 3) 2 dialingState).2
      = [.ReadEvent,
         .Send { Event := { Resource := "sensors", ID := 1, Payload := "a" },
                 Sensor := some thermostatSensor }] := by
  refine ⟨by decide, by decide, by decide, by decide, by decide, by decide, by decide,
    by decide⟩

/-- C17 (amended): at any of the three places where the loop reads `r.running`,
if the flag is read as false there and at every later read, the loop ends
within three rounds: it performs no `Dial`, no `ReadEvent` and no send, calls
`Close` exactly once, and is done, whatever `Close` returns; more rounds change
nothing. -/
theorem loopRun_stops (env : LoopEnv) (st : LoopState) (k : Nat)
    (hplace : st.place = .outer ∨ st.place = .dialLoop ∨ st.place = .readLoop)
    (hflag : ∀ i, st.flagReads ≤ i → env.flag i = false) :
    (loopRun env (k + 3) st).2 = [.Close] ∧
    (loopRun env (k + 3) st).1.place = .done ∧
    (loopRun env (k + 3) st).1.dials = st.dials ∧
    (loopRun env (k + 3) st).1.reads = st.reads ∧
    loopStep env (loopRun env (k + 3) st).1 = none := by
  have h0 := hflag st.flagReads (le_refl _)
  have h1 := hflag (st.flagReads + 1) (by omega)
  have h2 := hflag (st.flagReads + 1 + 1) (by omega)
  have hclose : ∀ (n : Nat) (s : LoopState), s.place = .outer → env.flag s.flagReads = false →
      loopRun env (n + 1) s
        = (LoopState.mk .done (s.flagReads + 1) s.dials s.reads, [.Close]) := by
    intro n s hp hf
    have hstep : loopStep env s
        = some (LoopState.mk .done (s.flagReads + 1) s.dials s.reads, [.Close]) := by
      unfold loopStep
      cases hc : env.closeErr <;> simp [hp, hf]
    rw [loopRun_succ env n s _ _ hstep, loopRun_ended env n _ (Or.inl rfl)]
    rfl
  rcases hplace with hp | hp | hp
  · rw [hclose (k + 2) st hp h0]
    exact ⟨rfl, rfl, rfl, rfl, rfl⟩
  · have hstep1 : loopStep env st
        = some (LoopState.mk .readLoop (st.flagReads + 1) st.dials st.reads, []) := by
      unfold loopStep
      simp [hp, h0]
    have hstep2 : loopStep env (LoopState.mk .readLoop (st.flagReads + 1) st.dials st.reads)
        = some (LoopState.mk .outer (st.flagReads + 1 + 1) st.dials st.reads, []) := by
      unfold loopStep
      simp [h1]
    have hrun : loopRun env (k + 3) st
        = (LoopState.mk .done (st.flagReads + 1 + 1 + 1) st.dials st.reads, [.Close]) := by
      rw [show k + 3 = (k + 2) + 1 from rfl, loopRun_succ env (k + 2) st _ _ hstep1,
        show k + 2 = (k + 1) + 1 from rfl, loopRun_succ env (k + 1) _ _ _ hstep2,
        hclose k _ rfl h2]
      rfl
    rw [hrun]
    exact ⟨rfl, rfl, rfl, rfl, rfl⟩
  · have hstep1 : loopStep env st
        = some (LoopState.mk .outer (st.flagReads + 1) st.dials st.reads, []) := by
      unfold loopStep
      simp [hp, h0]
    have hrun : loopRun env (k + 3) st
        = (LoopState.mk .done (st.flagReads + 1 + 1) st.dials st.reads, [.Close]) := by
      rw [show k + 3 = (k + 2) + 1 from rfl, loopRun_succ env (k + 2) st _ _ hstep1,
        hclose (k + 1) _ rfl h1]
      rfl
    rw [hrun]
    exact ⟨rfl, rfl, rfl, rfl, rfl⟩

/-- Witness of C17: a loop connected and about to read events, with the flag
false from its next read on and a failing `Close`; and a loop about to dial. -/
theorem loopRun_stops_witness :
    (connectedState.place = .readLoop ∧
     ∀ i, connectedState.flagReads ≤ i → (sampleEnv 3).flag i = false) ∧
    ((loopRun (sampleEnv 3) (0 + 3) connectedState).2 = [.Close] ∧
     (loopRun (sampleEnv 3) (0 + 3) connectedState).1.place = .done ∧
     (loopRun (sampleEnv 3) (0 + 3) connectedState).1.dials = connectedState.dials ∧
     (loopRun (sampleEnv 3) (0 + 3) connectedState).1.reads = connectedState.reads ∧
     loopStep (sampleEnv 3) (loopRun (sampleEnv 3) (0 + 3) connectedState).1 = none) ∧
    (loopRun (sampleEnv 0) (7 + 3) (LoopState.initial [none] [])).2 = [.Close] :=
  ⟨⟨rfl, by intro i hi; simp only [connectedState] at hi
            simp only [sampleEnv, decide_eq_false_iff_not]; omega⟩,
   loopRun_stops (sampleEnv 3) connectedState 0 (Or.inr (Or.inr rfl))
     (by intro i hi; simp only [connectedState] at hi
         simp only [sampleEnv, decide_eq_false_iff_not]; omega),
   (loopRun_stops (sampleEnv 0) (LoopState.initial [none] []) 7 (Or.inl rfl)
     (by intro i _; simp [sampleEnv])).1⟩

/-! ## The `Fields` methods of the two variants -/

theorem State.Fields_get_other (E : Env) (s : State) (k : String) (hk : k ≠ "age_secs") :
    (State.Fields E s).get k = none := by
  unfold State.Fields
  split
  · split
    · rfl
    · simp [GoMap.get, Ne.symm hk]
  · rfl

/-- C18: for every `ZHAThermostat` state, `Fields()` holds `temperature` as the
float64 quotient of the stored `Temperature` by 100 and `valve` as the stored
`Valve`; every other key is as in the fields of the embedded `State`, which are
empty when `Lastupdated` is empty or does not parse and the single entry
`age_secs` when it parses. -/
theorem ZHAThermostat.Fields_temperature_valve (E : Env) (z : ZHAThermostat) :
    (z.Fields E).get "temperature" = some (.float64 z.Temperature 100) ∧
    (z.Fields E).get "valve" = some (.int .int z.Valve) ∧
    (∀ k, k ≠ "temperature" → k ≠ "valve" → (z.Fields E).get k = (z.State.Fields E).get k) ∧
    (∀ k, k ∉ ["temperature", "valve", "age_secs"] → (z.Fields E).get k = none) ∧
    (z.State.Lastupdated = "" ∨ E.parse lastupdatedLayout z.State.Lastupdated = none →
      z.State.Fields E = [] ∧ (z.Fields E).get "age_secs" = none) ∧
    (∀ t, z.State.Lastupdated ≠ "" →
      E.parse lastupdatedLayout z.State.Lastupdated = some t →
      (z.Fields E).get "age_secs" = some (.int .int64 (E.seconds (Env.sub E.now t)))) := by
  have hget : ∀ k, (z.Fields E).get k = match (z.State.Fields E).get k with
      | some v => some v
      | none => GoMap.get
          [("temperature", FieldValue.float64 z.Temperature 100),
           ("valve", FieldValue.int .int z.Valve)] k := by
    intro k
    unfold ZHAThermostat.Fields
    exact mergeFields_get _ _ k
  refine ⟨?_, ?_, ?_, ?_, ?_, ?_⟩
  · rw [hget, State.Fields_get_other E _ _ (by decide)]
    simp [GoMap.get]
  · rw [hget, State.Fields_get_other E _ _ (by decide)]
    simp [GoMap.get]
  · intro k h1 h2
    rw [hget]
    cases hs : (z.State.Fields E).get k with
    | some v => rfl
    | none => simp [GoMap.get, Ne.symm h1, Ne.symm h2]
  · intro k hk
    simp only [List.mem_cons, List.mem_singleton, List.mem_nil_iff, or_false, not_or] at hk
    obtain ⟨k1, k2, k3⟩ := hk
    rw [hget, State.Fields_get_other E _ _ k3]
    simp [GoMap.get, Ne.symm k1, Ne.symm k2]
  · intro h
    have hempty : z.State.Fields E = [] := by
      rcases h with h | h
      · simp [State.Fields, h]
      · unfold State.Fields
        unfold lastupdatedLayout at h
        split
        · rw [h]
        · rfl
    refine ⟨hempty, ?_⟩
    rw [hget, hempty]
    simp [GoMap.get]
  · intro t hne hparse
    have hstate : z.State.Fields E
        = [("age_secs", .int .int64 (E.seconds (Env.sub E.now t)))] := by
      unfold State.Fields
      unfold lastupdatedLayout at hparse
      rw [if_pos hne, hparse]
    rw [hget, hstate]
    simp [GoMap.get]

theorem index_of_get (xs : List Int) (i : Nat) (x : Int) (h : xs.get? i = some x) :
    index xs i = .ret x := by
  unfold index
  rw [h]

/-- C19: for a `ZHAVibration` state whose `Orientation` has at least three
components, `Fields()` returns a map holding `vibration`, `tiltangle` and
`vibrationstrength` as stored and `orientation_x`, `orientation_y`,
`orientation_z` as the components 0, 1 and 2, every other key being as in the
fields of the embedded `State`; with fewer than three components the call
panics with an index out of range; and a well-formed payload without an
`orientation` member is decoded without error by `DecodeSensorState` into a
state on which `Fields()` panics. -/
theorem ZHAVibration.Fields_orientation (E : Env) (z : ZHAVibration) :
    (∀ x y w rest, z.Orientation = x :: y :: w :: rest →
      ∃ m, z.Fields E = .ret m ∧
        m.get "vibration" = some (.bool z.Vibration) ∧
        m.get "tiltangle" = some (.int .int16 z.Tiltangle) ∧
        m.get "vibrationstrength" = some (.int .int16 z.Vibrationstrength) ∧
        m.get "orientation_x" = some (.int .int16 x) ∧
        m.get "orientation_y" = some (.int .int16 y) ∧
        m.get "orientation_z" = some (.int .int16 w) ∧
        ∀ k, k ∉ ["vibration", "tiltangle", "vibrationstrength", "orientation_x",
                  "orientation_y", "orientation_z"] → m.get k = (z.State.Fields E).get k) ∧
    (z.Orientation.length < 3 →
      z.Fields E = .panic (.indexOutOfRange z.Orientation.length z.Orientation.length)) ∧
    (∀ (D : Decls) (members : List (String × JSON)),
      wellFormed (schemaOf D .ZHAVibration) (.valid (.obj members)) = true →
      "Orientation" ∉ resolved (schemaOf D .ZHAVibration) members →
      ∃ r, DecodeSensorState D (.valid (.obj members)) "ZHAVibration"
          = (StateDef.ptr .ZHAVibration r, none) ∧
        (StateDef.ptr .ZHAVibration r).Fields D E = some (.panic (.indexOutOfRange 0 0))) := by
  refine ⟨?_, ?_, ?_⟩
  · intro x y w rest horient
    refine ⟨mergeFields (z.State.Fields E)
      [("vibration", .bool z.Vibration), ("tiltangle", .int .int16 z.Tiltangle),
       ("vibrationstrength", .int .int16 z.Vibrationstrength),
       ("orientation_x", .int .int16 x), ("orientation_y", .int .int16 y),
       ("orientation_z", .int .int16 w)], ?_, ?_, ?_, ?_, ?_, ?_, ?_, ?_⟩
    · unfold ZHAVibration.Fields
      rw [horient]
      simp [index, Run.bind]
    all_goals try (rw [mergeFields_get, State.Fields_get_other E _ _ (by decide)]
                   simp [GoMap.get])
    · intro k hk
      simp only [List.mem_cons, List.mem_singleton, List.mem_nil_iff, or_false, not_or] at hk
      obtain ⟨k1, k2, k3, k4, k5, k6⟩ := hk
      rw [mergeFields_get]
      cases hs : (z.State.Fields E).get k with
      | some v => rfl
      | none =>
        simp [GoMap.get, Ne.symm k1, Ne.symm k2, Ne.symm k3, Ne.symm k4, Ne.symm k5,
          Ne.symm k6]
  · intro hlen
    unfold ZHAVibration.Fields
    match horient : z.Orientation, hlen with
    | [], _ => simp [index, Run.bind]
    | [a], _ => simp [index, Run.bind]
    | [a, b], _ => simp [index, Run.bind]
    | _ :: _ :: _ :: _, hlen => simp at hlen; omega
  · intro D members hwf hnot
    obtain ⟨r, hr⟩ := decodeVariant_wellFormed D .ZHAVibration _ hwf
    refine ⟨r, hr, ?_⟩
    have hget := foldl_decodeMember_get_other (schemaOf D .ZHAVibration) "Orientation" members
      ((schemaOf D .ZHAVibration).zero, none) hnot
    simp only [decodeVariant, Unmarshal, unmarshalStruct, Prod.mk.injEq, StateDef.ptr.injEq,
      true_and] at hr
    rw [hr.1] at hget
    have horient : (ZHAVibration.ofRecord r).Orientation = [] := by
      simp only [ZHAVibration.ofRecord, Record.getInts, hget]
      rfl
    simp only [StateDef.Fields, ZHAVibration.Fields, horient]
    rfl

/-- Witness of C19: the decoded vibration sensor with orientation (1, -2, 88),
and the state decoded from a payload without `orientation`. -/
theorem ZHAVibration.Fields_orientation_witness :
    (∃ m, (ZHAVibration.ofRecord
        [("Lastupdated", .scalar (.str "")), ("Vibration", .scalar (.bool false)),
         ("Tiltangle", .scalar (.int 12)), ("Vibrationstrength", .scalar (.int 3)),
         ("Orientation", .slice [.int 1, .int (-2), .int 88])]).Fields testEnv = .ret m ∧
      m.get "orientation_x" = some (.int .int16 1) ∧
      m.get "orientation_y" = some (.int .int16 (-2)) ∧
      m.get "orientation_z" = some (.int .int16 88)) ∧
    (∃ r, DecodeSensorState specDecls
        (.valid (.obj [("lastupdated", .str "2018-03-08T19:35:24"), ("vibration", .bool true)]))
        "ZHAVibration" = (StateDef.ptr .ZHAVibration r, none) ∧
      (StateDef.ptr .ZHAVibration r).Fields specDecls testEnv
        = some (.panic (.indexOutOfRange 0 0))) := by
  constructor
  · obtain ⟨m, h1, _, _, _, h5, h6, h7, _⟩ :=
      (ZHAVibration.Fields_orientation testEnv (ZHAVibration.ofRecord
        [("Lastupdated", .scalar (.str "")), ("Vibration", .scalar (.bool false)),
         ("Tiltangle", .scalar (.int 12)), ("Vibrationstrength", .scalar (.int 3)),
         ("Orientation", .slice [.int 1, .int (-2), .int 88])])).1 1 (-2) 88 [] (by decide)
    exact ⟨m, h1, h5, h6, h7⟩
  · exact (ZHAVibration.Fields_orientation testEnv (ZHAVibration.ofRecord [])).2.2 specDecls
      [("lastupdated", .str "2018-03-08T19:35:24"), ("vibration", .bool true)]
      (by decide) (by decide)

/-! ## `Sensor.UnmarshalJSON`, failures -/

theorem Sensor.assign_frame (D : Decls) (s : Sensor) (aux : Aux) :
    (Sensor.assign D s aux).2 = none ∧
    (Sensor.assign D s aux).1.ID = s.ID ∧
    (Sensor.assign D s aux).1.LastSeen = s.LastSeen := by
  unfold Sensor.assign
  split <;> simp

/-- C20: when the document does not decode into the auxiliary struct, or its
`lastseen` is not empty and does not parse in the layout 2006-01-02T15:04Z,
`Sensor.UnmarshalJSON` returns the error and the receiver is left exactly as it
was; when the document decodes and `lastseen` is empty the call returns no error
and `LastSeen` is as before; in every case `ID` is as before. -/
theorem Sensor.UnmarshalJSON_atomic (D : Decls) (E : Env) (s : Sensor) (b : RawMessage) :
    (∀ e, (Aux.Unmarshal b).2 = some e →
      Sensor.UnmarshalJSON D E s b = (s, some (.json e))) ∧
    ((Aux.Unmarshal b).2 = none → (Aux.Unmarshal b).1.LastSeen ≠ "" →
      E.parse "2006-01-02T15:04Z" (Aux.Unmarshal b).1.LastSeen = none →
      Sensor.UnmarshalJSON D E s b
        = (s, some (.timeParse "2006-01-02T15:04Z" (Aux.Unmarshal b).1.LastSeen))) ∧
    ((Aux.Unmarshal b).2 = none → (Aux.Unmarshal b).1.LastSeen = "" →
      (Sensor.UnmarshalJSON D E s b).2 = none ∧
      (Sensor.UnmarshalJSON D E s b).1.LastSeen = s.LastSeen) ∧
    (Sensor.UnmarshalJSON D E s b).1.ID = s.ID := by
  unfold Sensor.UnmarshalJSON
  cases haux : Aux.Unmarshal b with
  | mk aux err =>
    cases err with
    | some e => simp
    | none =>
      simp only [reduceCtorEq, false_implies, implies_true, true_and, forall_const]
      by_cases hempty : aux.LastSeen = ""
      · simp only [hempty, ne_eq, not_true_eq_false, false_implies, true_and, if_false,
          forall_const]
        have h := Sensor.assign_frame D s aux
        exact ⟨⟨h.1, h.2.2⟩, h.2.1⟩
      · simp only [ne_eq, hempty, not_false_eq_true, if_true, false_implies, and_true,
          forall_const]
        cases hparse : E.parse "2006-01-02T15:04Z" aux.LastSeen with
        | none => simp
        | some t =>
          simp only [reduceCtorEq, false_implies, true_and]
          exact (Sensor.assign_frame D _ aux).2.1

/-! ## Evaluations -/

/-- Witness of C11: merging a map literal into the fields of a state; `valve`
is defined by both and keeps the value of `p`; and merging a map into itself. -/
theorem mergeFields_nonnil_witness :
    (∃ h' : MapHeap,
      mergeFieldsRef sampleHeap (some 0) (some 1) = .ret (h', some 0) ∧
      h' 0 = [("age_secs", .int .int64 36), ("valve", .int .int 1),
              ("temperature", .float64 2062 100)] ∧
      h' 1 = sampleHeap 1) ∧
    (∃ h' : MapHeap,
      mergeFieldsRef sampleHeap (some 1) (some 1) = .ret (h', some 1) ∧
      h' 1 = sampleHeap 1) := by
  constructor
  · obtain ⟨h', h1, _, _, _, h5, h6, _⟩ := mergeFields_nonnil sampleHeap 0 (some 1)
    exact ⟨h', h1, by rw [h5]; decide, h6⟩
  · obtain ⟨h', h1, _, _, _, _, h6, _⟩ := mergeFields_nonnil sampleHeap 1 (some 1)
    exact ⟨h', h1, h6⟩

/-- Witness of C13: two calls on the decoded thermostat in a memory that holds
two maps already.  The first call returns its eight fields in a new map at
address 2, the second in a new map at address 4 with the same entries; the
sensor and the maps at addresses 0, 1 and 2 are as they were. -/
theorem Sensor.Timeseries_idempotent_witness :
    ∃ (m1 : Memory) (r1 : ResultsAt),
      Sensor.TimeseriesMem specDecls testEnv (sampleMemory thermostatSensor) = .ret (m1, r1) ∧
      (r1.fields = some 2 ∧ r1.tags = thermostatResults.tags ∧ r1.err = none ∧
       some (m1.maps 2) = thermostatResults.fields ∧
       m1.maps 0 = sampleHeap 0 ∧ m1.maps 1 = sampleHeap 1 ∧ m1.sensor = thermostatSensor) ∧
      (∃ (m2 : Memory) (r2 : ResultsAt),
        Sensor.TimeseriesMem specDecls testEnv m1 = .ret (m2, r2) ∧
        r2.fields = some 4 ∧ r2.tags = thermostatResults.tags ∧ r2.err = none ∧
        some (m2.maps 4) = thermostatResults.fields ∧
        some (m2.maps 2) = thermostatResults.fields ∧
        m2.maps 0 = sampleHeap 0 ∧ m2.maps 1 = sampleHeap 1 ∧ m2.sensor = thermostatSensor) ∧
      (m1.sensor = thermostatSensor ∧
       (∀ b, b < 2 → m1.maps b = sampleHeap b) ∧
       ∃ (m2 : Memory) (r2 : ResultsAt),
        Sensor.TimeseriesMem specDecls testEnv m1 = .ret (m2, r2) ∧
        m2.sensor = thermostatSensor ∧
        r2.err = r1.err ∧ r2.tags = r1.tags ∧
        r2.fields.map m2.maps = r1.fields.map m1.maps ∧
        r1.fields.map m2.maps = r1.fields.map m1.maps ∧
        (r1.fields = none ↔ r2.fields = none) ∧
        (∀ a1 a2, r1.fields = some a1 → r2.fields = some a2 → a1 < a2)) :=
  ⟨_, _, rfl,
   ⟨rfl, by decide, rfl, by decide, by decide, by decide, by decide⟩,
   ⟨_, _, rfl, rfl, by decide, rfl, by decide, by decide, by decide, by decide, by decide⟩,
   ((Sensor.Timeseries_idempotent specDecls testEnv (sampleMemory thermostatSensor)).1
      _ _ rfl).1,
   ((Sensor.Timeseries_idempotent specDecls testEnv (sampleMemory thermostatSensor)).1
      _ _ rfl).2.2.2.1,
   ((Sensor.Timeseries_idempotent specDecls testEnv (sampleMemory thermostatSensor)).1
      _ _ rfl).2.2.2.2.2.2⟩

/-- Witness of C14: a reader without lookup, and an idle reader started twice. -/
theorem SensorEventReader.Start_spec_witness :
    (SensorEventReader.Start { lookup := none, reader := some 0, running := false }).err
      ≠ none ∧
    (idleReader.Start.reader.running = true ∧ idleReader.Start.reader.lookup = idleReader.lookup ∧
     idleReader.Start.reader.reader = idleReader.reader ∧ idleReader.Start.started = true ∧
     idleReader.Start.reader.Start.err = some (.errorf "Reader is already running.") ∧
     idleReader.Start.reader.Start.started = false ∧
     idleReader.Start.reader.Start.reader = idleReader.Start.reader) :=
  ⟨((SensorEventReader.Start_spec
      { lookup := none, reader := some 0, running := false }).1).2 (Or.inl rfl),
   (SensorEventReader.Start_spec idleReader).2.2 rfl⟩

/-- Witness of C18: the thermostat state with temperature 2062 and valve 30,
last updated 36 seconds before the clock reading of `testEnv`. -/
theorem ZHAThermostat.Fields_temperature_valve_witness :
    ZHAThermostat.Fields testEnv
        { State := { Lastupdated := "2018-03-08T19:35:24" }, Temperature := 2062, Valve := 30 }
      = [("age_secs", .int .int64 36), ("temperature", .float64 2062 100),
         ("valve", .int .int 30)] ∧
    (ZHAThermostat.Fields testEnv
        { State := { Lastupdated := "2018-03-08T19:35:24" }, Temperature := 2062, Valve := 30 }).get
      "temperature" = some (.float64 2062 100) ∧
    (ZHAThermostat.Fields testEnv
        { State := { Lastupdated := "" }, Temperature := 2062, Valve := 30 }).get
      "age_secs" = none :=
  ⟨by decide,
   (ZHAThermostat.Fields_temperature_valve testEnv
      { State := { Lastupdated := "2018-03-08T19:35:24" }, Temperature := 2062,
        Valve := 30 }).1,
   ((ZHAThermostat.Fields_temperature_valve testEnv
      { State := { Lastupdated := "" }, Temperature := 2062, Valve := 30 }).2.2.2.2.1
      (Or.inl rfl)).2⟩

/-- Witness of C20: a byte string that is not JSON, a document whose `name` is
a number, a document whose `lastseen` does not parse, and a document without
`lastseen`, each decoded into the decoded thermostat. -/
theorem Sensor.UnmarshalJSON_atomic_witness :
    Sensor.UnmarshalJSON specDecls testEnv thermostatSensor .malformed
      = (thermostatSensor, some (.json .SyntaxError)) ∧
    Sensor.UnmarshalJSON specDecls testEnv thermostatSensor badNameDoc
      = (thermostatSensor, some (.json (.UnmarshalTypeError "number" "name"))) ∧
    Sensor.UnmarshalJSON specDecls testEnv thermostatSensor badLastSeenDoc
      = (thermostatSensor, some (.timeParse "2006-01-02T15:04Z"
          (Aux.Unmarshal badLastSeenDoc).1.LastSeen)) ∧
    ((Sensor.UnmarshalJSON specDecls testEnv thermostatSensor badStateDoc).2 = none ∧
     (Sensor.UnmarshalJSON specDecls testEnv thermostatSensor badStateDoc).1.LastSeen
       = thermostatSensor.LastSeen) ∧
    (Sensor.UnmarshalJSON specDecls testEnv thermostatSensor vibrationDoc).1.ID
      = thermostatSensor.ID :=
  ⟨(Sensor.UnmarshalJSON_atomic specDecls testEnv thermostatSensor .malformed).1 _ rfl,
   (Sensor.UnmarshalJSON_atomic specDecls testEnv thermostatSensor badNameDoc).1 _ rfl,
   (Sensor.UnmarshalJSON_atomic specDecls testEnv thermostatSensor badLastSeenDoc).2.1
     rfl (by decide) (by decide),
   (Sensor.UnmarshalJSON_atomic specDecls testEnv thermostatSensor badStateDoc).2.2.1
     rfl (by decide),
   (Sensor.UnmarshalJSON_atomic specDecls testEnv thermostatSensor vibrationDoc).2.2.2⟩

end Deflux
